import Mathlib

/-! GrimRailDemo: notebook and room-flip puzzle

A shallow embedding of `UNotebookComponent` (NotebookComponent.h/.cpp) and
`ARoomFlipActor` (RoomFlipActor.h/.cpp), followed by the properties proved
about them.

Modelling conventions

* `float` values are rationals (`ℚ`). The methods are first given over exact
  rationals: the comparisons, clamps and sums of the source are taken over an
  ordered field, without rounding and without NaN. The methods that accumulate
  `float` values over many calls are given a second time with the binary32
  rounding of every arithmetic operation (names ending in `32`), and the
  properties of accumulated values, C16, C18 and C19, are settled on those.
* `int32` counters are `Int`. `UnreadCount` never exceeds `Entries.Num()` on a
  reachable notebook and `TArray` itself is indexed by `int32`, so the counters
  are not taken modulo `2^32`.
* `TArray<T>` is `List T`, `Add` appends at the end, a range-`for` visits the
  elements front to back.
* Multicast delegates and calls into the engine are recorded as the list of
  events an operation emits, in emission order. `UE_LOG` lines are not events.
* Object pointers (`TObjectPtr`) are `Option` of a handle, `nullptr` is `none`.
-/

namespace GrimRail

/-! ## NotebookComponent.h -/

/-- Engine name type `FName`; only equality of names is used by the source. -/
abbrev FName := String

/-- The engine constant `NAME_None`, the name a default `FName` carries. -/
def NAME_None : FName := "None"

/-- Engine text type `FText`. -/
abbrev FText := String

/-- Handle of a `UTexture2D` object. -/
abbrev UTexture2D := Nat

/-- Categories for organizing notebook entries (`enum class ENotebookCategory`). -/
inductive ENotebookCategory where
  | Clue
  | Objective
  | Lore
  | Character
  | Environment
deriving DecidableEq, Repr

/-- A single entry in the player's notebook (`struct FNotebookEntry`). -/
structure FNotebookEntry where
  EntryID : FName
  Title : FText
  Body : FText
  Category : ENotebookCategory
  Timestamp : ℚ
  bHasBeenRead : Bool
  EntryImage : Option UTexture2D
deriving DecidableEq, Repr

/-- Default constructor `FNotebookEntry::FNotebookEntry()`. -/
def FNotebookEntry.default : FNotebookEntry :=
  { EntryID := NAME_None, Title := "", Body := "", Category := ENotebookCategory.Clue,
    Timestamp := 0, bHasBeenRead := false, EntryImage := none }

/-- Broadcasts of the two notebook delegates, with their payloads. -/
inductive NotebookEvent where
  | OnNotebookEntryAdded (Entry : FNotebookEntry) (UnreadCount : Int)
  | OnNotebookEntryRead (Entry : FNotebookEntry)
deriving DecidableEq, Repr

/-- State of `UNotebookComponent`: the entry array and the cached unread count. -/
structure UNotebookComponent where
  Entries : List FNotebookEntry
  UnreadCount : Int
deriving DecidableEq, Repr

namespace UNotebookComponent

/-- Constructor `UNotebookComponent::UNotebookComponent()`: no entries, `UnreadCount = 0`. -/
def new : UNotebookComponent :=
  { Entries := [], UnreadCount := 0 }

/-- Accessor `GetUnreadCount`. -/
def GetUnreadCount (nb : UNotebookComponent) : Int := nb.UnreadCount

/-- Accessor `GetTotalEntryCount`: `Entries.Num()`. -/
def GetTotalEntryCount (nb : UNotebookComponent) : Int := nb.Entries.length

/-- Accessor `GetAllEntries`. -/
def GetAllEntries (nb : UNotebookComponent) : List FNotebookEntry := nb.Entries

/-! ## NotebookComponent.cpp -/

/-- Loop of `HasEntry`: return true at the first entry whose ID matches. -/
def HasEntryLoop : List FNotebookEntry → FName → Bool
  | [], _ => false
  | Entry :: rest, EntryID =>
    if Entry.EntryID = EntryID then true else HasEntryLoop rest EntryID

/-- Method `UNotebookComponent::HasEntry`. -/
def HasEntry (nb : UNotebookComponent) (EntryID : FName) : Bool :=
  HasEntryLoop nb.Entries EntryID

/-- Loop of `GetEntryByID`: the first entry whose ID matches, if any. -/
def GetEntryByIDLoop : List FNotebookEntry → FName → Option FNotebookEntry
  | [], _ => none
  | Entry :: rest, EntryID =>
    if Entry.EntryID = EntryID then some Entry else GetEntryByIDLoop rest EntryID

/-- Method `UNotebookComponent::GetEntryByID`; `some e` stands for `true` with
`OutEntry = e`, `none` for `false` with `OutEntry` untouched. -/
def GetEntryByID (nb : UNotebookComponent) (EntryID : FName) : Option FNotebookEntry :=
  GetEntryByIDLoop nb.Entries EntryID

/-- Loop of `GetEntriesByCategory`: append each entry of the category, in order. -/
def GetEntriesByCategoryLoop :
    List FNotebookEntry → ENotebookCategory → List FNotebookEntry → List FNotebookEntry
  | [], _, FilteredEntries => FilteredEntries
  | Entry :: rest, Category, FilteredEntries =>
    if Entry.Category = Category then
      GetEntriesByCategoryLoop rest Category (FilteredEntries ++ [Entry])
    else
      GetEntriesByCategoryLoop rest Category FilteredEntries

/-- Method `UNotebookComponent::GetEntriesByCategory`. -/
def GetEntriesByCategory (nb : UNotebookComponent) (Category : ENotebookCategory) :
    List FNotebookEntry :=
  GetEntriesByCategoryLoop nb.Entries Category []

/-- Loop of `UpdateUnreadCount`: bump the counter at each unread entry. -/
def UpdateUnreadCountLoop : List FNotebookEntry → Int → Int
  | [], UnreadCount => UnreadCount
  | Entry :: rest, UnreadCount =>
    if !Entry.bHasBeenRead then UpdateUnreadCountLoop rest (UnreadCount + 1)
    else UpdateUnreadCountLoop rest UnreadCount

/-- Method `UNotebookComponent::UpdateUnreadCount`: recount from zero. -/
def UpdateUnreadCount (nb : UNotebookComponent) : UNotebookComponent :=
  { nb with UnreadCount := UpdateUnreadCountLoop nb.Entries 0 }

/-- Method `UNotebookComponent::AddEntry`. `TimeSeconds` is the value of
`GetWorld()->GetTimeSeconds()` at the call. Returns the result, the component
afterwards and the broadcasts made. -/
def AddEntry (nb : UNotebookComponent) (TimeSeconds : ℚ) (Entry : FNotebookEntry) :
    Bool × UNotebookComponent × List NotebookEvent :=
  if nb.HasEntry Entry.EntryID then
    (false, nb, [])
  else
    let NewEntry : FNotebookEntry :=
      { Entry with Timestamp := TimeSeconds, bHasBeenRead := false }
    let nb1 : UNotebookComponent := { nb with Entries := nb.Entries ++ [NewEntry] }
    let nb2 : UNotebookComponent := { nb1 with UnreadCount := nb1.UnreadCount + 1 }
    (true, nb2, [NotebookEvent.OnNotebookEntryAdded NewEntry nb2.UnreadCount])

/-- Loop of `MarkEntryAsRead`: the first entry with the ID that is still unread
gets its flag set and the loop returns; `none` when the loop runs to the end.
The result is the array afterwards and the entry that was marked. -/
def MarkEntryAsReadLoop :
    List FNotebookEntry → FName → Option (List FNotebookEntry × FNotebookEntry)
  | [], _ => none
  | Entry :: rest, EntryID =>
    if Entry.EntryID = EntryID ∧ Entry.bHasBeenRead = false then
      let Marked : FNotebookEntry := { Entry with bHasBeenRead := true }
      some (Marked :: rest, Marked)
    else
      match MarkEntryAsReadLoop rest EntryID with
      | none => none
      | some (rest1, Marked) => some (Entry :: rest1, Marked)

/-- Method `UNotebookComponent::MarkEntryAsRead`. -/
def MarkEntryAsRead (nb : UNotebookComponent) (EntryID : FName) :
    UNotebookComponent × List NotebookEvent :=
  match MarkEntryAsReadLoop nb.Entries EntryID with
  | none => (nb, [])
  | some (Entries1, Marked) =>
    let nb1 : UNotebookComponent := { nb with Entries := Entries1 }
    (nb1.UpdateUnreadCount, [NotebookEvent.OnNotebookEntryRead Marked])

/-- Method `UNotebookComponent::ClearAllEntries`. -/
def ClearAllEntries (nb : UNotebookComponent) : UNotebookComponent × List NotebookEvent :=
  ({ nb with Entries := [], UnreadCount := 0 }, [])

end UNotebookComponent

/-- One call of a mutating notebook method, with its arguments. -/
inductive NotebookOp where
  | AddEntry (TimeSeconds : ℚ) (Entry : FNotebookEntry)
  | MarkEntryAsRead (EntryID : FName)
  | ClearAllEntries
deriving DecidableEq, Repr

/-- The notebook after one call. -/
def NotebookOp.run (nb : UNotebookComponent) : NotebookOp → UNotebookComponent
  | NotebookOp.AddEntry TimeSeconds Entry => (nb.AddEntry TimeSeconds Entry).2.1
  | NotebookOp.MarkEntryAsRead EntryID => (nb.MarkEntryAsRead EntryID).1
  | NotebookOp.ClearAllEntries => nb.ClearAllEntries.1

/-- The notebook after a sequence of calls, first call first. -/
def runNotebook (nb : UNotebookComponent) (ops : List NotebookOp) : UNotebookComponent :=
  ops.foldl NotebookOp.run nb

/-- Number of stored entries whose read flag is false. -/
def unreadEntries (Entries : List FNotebookEntry) : Nat :=
  (Entries.filter (fun e => e.bHasBeenRead = false)).length

/-- The IDs of the stored entries, in order. -/
def entryIDs (Entries : List FNotebookEntry) : List FName :=
  Entries.map (fun e => e.EntryID)

/-- A sample entry with ID `clue1`, as a collectible would supply it. -/
def clue1 : FNotebookEntry :=
  { FNotebookEntry.default with EntryID := "clue1", Title := "A" }

/-- A second sample entry, with ID `clue2` and the read flag already set. -/
def clue2 : FNotebookEntry :=
  { FNotebookEntry.default with EntryID := "clue2", Title := "B", bHasBeenRead := true }

/-- The notebook holding `clue1`, stamped at time 1, unread. -/
def notebookWithClue1 : UNotebookComponent :=
  { Entries := [{ clue1 with Timestamp := 1 }], UnreadCount := 1 }

/-! ## Engine functions used by RoomFlipActor.cpp -/

/-- Engine rotator `FRotator`, in degrees; the constructor order is pitch, yaw, roll. -/
structure FRotator where
  Pitch : ℚ
  Yaw : ℚ
  Roll : ℚ
deriving DecidableEq, Repr

namespace FMath

/-- Modelled from the spec: the engine's `FMath::Clamp` is not part of the
sources; "clamp to [0,1]", written the way the engine does, `Max(Min(X, Max), Min)`. -/
def Clamp (X MinValue MaxValue : ℚ) : ℚ :=
  max (min X MaxValue) MinValue

/-- Modelled from the spec: the engine's `FMath::SmoothStep` is not part of the
sources; the standard cubic smoothstep `3p² − 2p³` of the fraction `p` of `X`
between the edges `A` and `B`, `0` below `A` and `1` from `B` on. -/
def SmoothStep (A B X : ℚ) : ℚ :=
  if X < A then 0
  else if X ≥ B then 1
  else
    let InterpFraction : ℚ := (X - A) / (B - A)
    InterpFraction * InterpFraction * (3 - 2 * InterpFraction)

/-- Modelled from the spec: the engine's `FMath::Lerp` on rotators is not part of
the sources; "linearly interpolate orientation between start and target",
componentwise `A + (B − A) * Alpha`. -/
def Lerp (A B : FRotator) (Alpha : ℚ) : FRotator :=
  { Pitch := A.Pitch + (B.Pitch - A.Pitch) * Alpha,
    Yaw := A.Yaw + (B.Yaw - A.Yaw) * Alpha,
    Roll := A.Roll + (B.Roll - A.Roll) * Alpha }

end FMath

/-- Modelled from the spec: the engine's `USceneComponent` is not part of the
sources; of the room container only its world orientation is kept, which
`SetWorldRotation` stores and `GetComponentRotation` reads back. -/
structure USceneComponent where
  ComponentRotation : FRotator
deriving DecidableEq, Repr

/-- Engine getter `USceneComponent::GetComponentRotation`. -/
def USceneComponent.GetComponentRotation (c : USceneComponent) : FRotator :=
  c.ComponentRotation

/-- Engine setter `USceneComponent::SetWorldRotation`. -/
def USceneComponent.SetWorldRotation (_c : USceneComponent) (NewRotation : FRotator) :
    USceneComponent :=
  { ComponentRotation := NewRotation }

/-- Handle of an `APawn` object. -/
abbrev APawn := Nat

/-- An `APlayerController` object: its handle and what `GetPawn()` returns. -/
structure APlayerController where
  Handle : Nat
  Pawn : Option APawn
deriving DecidableEq, Repr

/-- Engine getter `APlayerController::GetPawn`. -/
def APlayerController.GetPawn (pc : APlayerController) : Option APawn := pc.Pawn

/-- The part of `UWorld` the room reads: the player controller with index 0, if any. -/
structure UWorld where
  PlayerController0 : Option APlayerController
deriving DecidableEq, Repr

/-- Engine lookup `UGameplayStatics::GetPlayerController(World, 0)`. -/
def UGameplayStatics.GetPlayerController (World : UWorld) : Option APlayerController :=
  World.PlayerController0

/-- An easing curve asset `UCurveFloat`, given by its `GetFloatValue`. -/
structure UCurveFloat where
  GetFloatValue : ℚ → ℚ

/-! ## RoomFlipActor.h -/

/-- Current state of the room flip (`enum class ERoomFlipState`). -/
inductive ERoomFlipState where
  | Idle
  | Rotating
  | Completed
deriving DecidableEq, Repr

/-- Axis around which the room rotates (`enum class ERoomFlipAxis`). -/
inductive ERoomFlipAxis where
  | X_Axis
  | Y_Axis
  | Z_Axis
deriving DecidableEq, Repr

/-- Delegate broadcasts, Blueprint hooks and engine calls made by the room, in
the order the source makes them. -/
inductive RoomFlipEvent where
  | OnRoomFlipStarted
  | BP_OnFlipStarted
  | OnRoomFlipProgress (Progress : ℚ)
  | BP_OnFlipProgress (Progress : ℚ)
  | OnRoomFlipCompleted
  | BP_OnFlipCompleted
  | DisableInput (PlayerController : APlayerController)
  | EnableInput (PlayerController : APlayerController)
  | AttachToComponent (Pawn : APawn)
  | DetachFromActor (Pawn : APawn)
  | SetActorRotationUpright (Pawn : APawn)
  | SetActorLocation (Pawn : APawn)
deriving DecidableEq, Repr

/-- Member variables of `ARoomFlipActor`. -/
structure ARoomFlipActor where
  RoomRoot : USceneComponent
  CurrentState : ERoomFlipState
  RotationAxis : ERoomFlipAxis
  RotationAngle : ℚ
  RotationDuration : ℚ
  RotationCurve : Option UCurveFloat
  bAttachPlayer : Bool
  bDisablePlayerInput : Bool
  bCanFlipMultipleTimes : Bool
  bReverseEachFlip : Bool
  StartRotation : FRotator
  TargetRotation : FRotator
  RotationProgress : ℚ
  AttachedPlayer : Option APawn
  PlayerController : Option APlayerController
  FlipCount : Int

namespace ARoomFlipActor

/-- The class defaults of the header, for a room placed with orientation
`Rotation`. `StartRotation` and `TargetRotation` have no initializer in the
source; they are given the placed orientation here. -/
def classDefaults (Rotation : FRotator) : ARoomFlipActor :=
  { RoomRoot := { ComponentRotation := Rotation },
    CurrentState := ERoomFlipState.Idle,
    RotationAxis := ERoomFlipAxis.X_Axis,
    RotationAngle := 180,
    RotationDuration := 3,
    RotationCurve := none,
    bAttachPlayer := true,
    bDisablePlayerInput := true,
    bCanFlipMultipleTimes := false,
    bReverseEachFlip := true,
    StartRotation := Rotation,
    TargetRotation := Rotation,
    RotationProgress := 0,
    AttachedPlayer := none,
    PlayerController := none,
    FlipCount := 0 }

/-- Constructor body `ARoomFlipActor::ARoomFlipActor()`: the five assignments it
makes; the editable properties and the placement keep the values of `a`. -/
def construct (a : ARoomFlipActor) : ARoomFlipActor :=
  { a with
    CurrentState := ERoomFlipState.Idle,
    RotationProgress := 0,
    AttachedPlayer := none,
    PlayerController := none,
    FlipCount := 0 }

/-- Accessor `GetCurrentState`. -/
def GetCurrentState (a : ARoomFlipActor) : ERoomFlipState := a.CurrentState

/-- Accessor `GetRotationProgress`. -/
def GetRotationProgress (a : ARoomFlipActor) : ℚ := a.RotationProgress

/-- Accessor `GetFlipCount`. -/
def GetFlipCount (a : ARoomFlipActor) : Int := a.FlipCount

/-! ## RoomFlipActor.cpp -/

/-- Method `ARoomFlipActor::BeginPlay`: store the initial rotation. -/
def BeginPlay (a : ARoomFlipActor) : ARoomFlipActor :=
  { a with StartRotation := a.RoomRoot.GetComponentRotation }

/-- Method `ARoomFlipActor::CanFlip`. -/
def CanFlip (a : ARoomFlipActor) : Bool :=
  if a.CurrentState = ERoomFlipState.Rotating then false
  else if a.CurrentState = ERoomFlipState.Completed ∧ a.bCanFlipMultipleTimes = false then false
  else true

/-- Method `ARoomFlipActor::CalculateTargetRotation`. -/
def CalculateTargetRotation (a : ARoomFlipActor) : FRotator :=
  let Target : FRotator := a.StartRotation
  match a.RotationAxis with
  | ERoomFlipAxis.X_Axis => { Target with Roll := Target.Roll + a.RotationAngle }
  | ERoomFlipAxis.Y_Axis => { Target with Pitch := Target.Pitch + a.RotationAngle }
  | ERoomFlipAxis.Z_Axis => { Target with Yaw := Target.Yaw + a.RotationAngle }

/-- Method `ARoomFlipActor::AttachPlayerToRoom`. -/
def AttachPlayerToRoom (a : ARoomFlipActor) (World : UWorld) :
    ARoomFlipActor × List RoomFlipEvent :=
  let a1 : ARoomFlipActor :=
    { a with PlayerController := UGameplayStatics.GetPlayerController World }
  match a1.PlayerController with
  | none => (a1, [])
  | some pc =>
    let a2 : ARoomFlipActor := { a1 with AttachedPlayer := pc.GetPawn }
    match a2.AttachedPlayer with
    | none => (a2, [])
    | some Pawn => (a2, [RoomFlipEvent.AttachToComponent Pawn])

/-- Method `ARoomFlipActor::DetachPlayerFromRoom`. -/
def DetachPlayerFromRoom (a : ARoomFlipActor) : ARoomFlipActor × List RoomFlipEvent :=
  let r : ARoomFlipActor × List RoomFlipEvent :=
    match a.AttachedPlayer with
    | some Pawn =>
      ({ a with AttachedPlayer := none },
        [RoomFlipEvent.DetachFromActor Pawn,
         RoomFlipEvent.SetActorRotationUpright Pawn,
         RoomFlipEvent.SetActorLocation Pawn])
    | none => (a, [])
  ({ r.1 with PlayerController := none }, r.2)

/-- Method `ARoomFlipActor::TriggerFlip`. -/
def TriggerFlip (a : ARoomFlipActor) (World : UWorld) :
    Bool × ARoomFlipActor × List RoomFlipEvent :=
  if !a.CanFlip then
    (false, a, [])
  else
    let a1 : ARoomFlipActor :=
      { a with
        CurrentState := ERoomFlipState.Rotating,
        RotationProgress := 0,
        FlipCount := a.FlipCount + 1 }
    let a2 : ARoomFlipActor := { a1 with StartRotation := a1.RoomRoot.GetComponentRotation }
    let a3 : ARoomFlipActor := { a2 with TargetRotation := a2.CalculateTargetRotation }
    let r4 : ARoomFlipActor × List RoomFlipEvent :=
      if a3.bAttachPlayer then a3.AttachPlayerToRoom World else (a3, [])
    let ev5 : List RoomFlipEvent :=
      match r4.1.bDisablePlayerInput, r4.1.PlayerController with
      | true, some pc => [RoomFlipEvent.DisableInput pc]
      | _, _ => []
    (true, r4.1,
      r4.2 ++ ev5 ++ [RoomFlipEvent.OnRoomFlipStarted, RoomFlipEvent.BP_OnFlipStarted])

/-- Method `ARoomFlipActor::ResetRoom`. -/
def ResetRoom (a : ARoomFlipActor) : ARoomFlipActor × List RoomFlipEvent :=
  let a1 : ARoomFlipActor :=
    { a with
      CurrentState := ERoomFlipState.Idle,
      RotationProgress := 0,
      FlipCount := 0 }
  let a2 : ARoomFlipActor :=
    { a1 with RoomRoot := a1.RoomRoot.SetWorldRotation a1.StartRotation }
  match a2.AttachedPlayer with
  | some _ => a2.DetachPlayerFromRoom
  | none => (a2, [])

/-- Method `ARoomFlipActor::UpdateRotation`. -/
def UpdateRotation (a : ARoomFlipActor) (DeltaTime : ℚ) :
    ARoomFlipActor × List RoomFlipEvent :=
  let a1 : ARoomFlipActor :=
    { a with RotationProgress := a.RotationProgress + DeltaTime / a.RotationDuration }
  let a2 : ARoomFlipActor :=
    { a1 with RotationProgress := FMath.Clamp a1.RotationProgress 0 1 }
  let EasedProgress : ℚ :=
    match a2.RotationCurve with
    | some Curve => Curve.GetFloatValue a2.RotationProgress
    | none => FMath.SmoothStep 0 1 a2.RotationProgress
  let CurrentRotation : FRotator := FMath.Lerp a2.StartRotation a2.TargetRotation EasedProgress
  let a3 : ARoomFlipActor := { a2 with RoomRoot := a2.RoomRoot.SetWorldRotation CurrentRotation }
  let ev3 : List RoomFlipEvent :=
    [RoomFlipEvent.OnRoomFlipProgress a3.RotationProgress,
     RoomFlipEvent.BP_OnFlipProgress a3.RotationProgress]
  if a3.RotationProgress ≥ 1 then
    let a4 : ARoomFlipActor := { a3 with CurrentState := ERoomFlipState.Completed }
    let r5 : ARoomFlipActor × List RoomFlipEvent :=
      match a4.AttachedPlayer with
      | some _ => a4.DetachPlayerFromRoom
      | none => (a4, [])
    let ev6 : List RoomFlipEvent :=
      match r5.1.bDisablePlayerInput, r5.1.PlayerController with
      | true, some pc => [RoomFlipEvent.EnableInput pc]
      | _, _ => []
    let ev7 : List RoomFlipEvent :=
      [RoomFlipEvent.OnRoomFlipCompleted, RoomFlipEvent.BP_OnFlipCompleted]
    let a8 : ARoomFlipActor :=
      if r5.1.bCanFlipMultipleTimes then
        let b : ARoomFlipActor := { r5.1 with CurrentState := ERoomFlipState.Idle }
        if b.bReverseEachFlip then { b with RotationAngle := -b.RotationAngle } else b
      else r5.1
    (a8, ev3 ++ r5.2 ++ ev6 ++ ev7)
  else
    (a3, ev3)

/-- Method `ARoomFlipActor::Tick`. -/
def Tick (a : ARoomFlipActor) (DeltaTime : ℚ) : ARoomFlipActor × List RoomFlipEvent :=
  if a.CurrentState = ERoomFlipState.Rotating then a.UpdateRotation DeltaTime
  else (a, [])

end ARoomFlipActor

/-- One call of `TriggerFlip`, `Tick` or `ResetRoom`, with what it reads. -/
inductive RoomFlipOp where
  | TriggerFlip (World : UWorld)
  | Tick (DeltaTime : ℚ)
  | ResetRoom
deriving DecidableEq, Repr

/-- The room after one call. -/
def RoomFlipOp.run (a : ARoomFlipActor) : RoomFlipOp → ARoomFlipActor
  | RoomFlipOp.TriggerFlip World => (a.TriggerFlip World).2.1
  | RoomFlipOp.Tick DeltaTime => (a.Tick DeltaTime).1
  | RoomFlipOp.ResetRoom => a.ResetRoom.1

/-- The room after a sequence of calls, first call first. -/
def runRoomFlip (a : ARoomFlipActor) (ops : List RoomFlipOp) : ARoomFlipActor :=
  ops.foldl RoomFlipOp.run a

/-- The events of a sequence of calls, in emission order. -/
def runRoomFlipEvents : ARoomFlipActor → List RoomFlipOp → List RoomFlipEvent
  | _, [] => []
  | a, RoomFlipOp.TriggerFlip World :: ops =>
    (a.TriggerFlip World).2.2 ++ runRoomFlipEvents (a.TriggerFlip World).2.1 ops
  | a, RoomFlipOp.Tick DeltaTime :: ops =>
    (a.Tick DeltaTime).2 ++ runRoomFlipEvents (a.Tick DeltaTime).1 ops
  | a, RoomFlipOp.ResetRoom :: ops =>
    a.ResetRoom.2 ++ runRoomFlipEvents a.ResetRoom.1 ops

/-! ## CollectibleActor.h -/

/-- What `Pawn->FindComponentByClass<UNotebookComponent>()` finds for each pawn:
the notebook component the pawn owns, if it owns one. -/
abbrev NotebookStore := APawn → Option UNotebookComponent

/-- Blueprint hooks of the collectible and the calls it makes into the notebook
and the engine, in the order the source makes them. `AddEntry` records the call
of `NotebookComponent->AddEntry` on the pawn's notebook, `Notebook` a broadcast
made by that notebook during the call, `SetTimer` the one-shot destroy timer. -/
inductive CollectibleEvent where
  | BP_OnFocusGained (PlayerController : Option APlayerController)
  | BP_OnFocusLost (PlayerController : Option APlayerController)
  | AddEntry (Pawn : APawn) (Entry : FNotebookEntry)
  | Notebook (Pawn : APawn) (Event : NotebookEvent)
  | BP_OnCollected (Collector : APlayerController)
  | SetVisibility (bNewVisibility : Bool)
  | SetActorEnableCollision (bNewActorEnableCollision : Bool)
  | SetTimer (InRate : ℚ)
deriving DecidableEq, Repr

/-- Member variables of `ACollectibleActor` (component pointers left out). -/
structure ACollectibleActor where
  NotebookEntry : FNotebookEntry
  InteractionPromptText : FText
  bCanBeCollectedMultipleTimes : Bool
  bHasBeenCollected : Bool
  bDestroyOnCollect : Bool
  DestroyDelay : ℚ
  bEnableFloating : Bool
  FloatingSpeed : ℚ
  FloatingAmplitude : ℚ
  bEnableRotation : Bool
  RotationSpeed : ℚ
  InitialZPosition : ℚ
  FocusingPlayerController : Option APlayerController
deriving DecidableEq, Repr

namespace ACollectibleActor

/-- The class defaults of the header and the constructor, around the entry
template `Entry` set on the placed instance. -/
def classDefaults (Entry : FNotebookEntry) : ACollectibleActor :=
  { NotebookEntry := Entry,
    InteractionPromptText := "Pick Up",
    bCanBeCollectedMultipleTimes := false,
    bHasBeenCollected := false,
    bDestroyOnCollect := true,
    DestroyDelay := 1 / 10,
    bEnableFloating := true,
    FloatingSpeed := 1,
    FloatingAmplitude := 10,
    bEnableRotation := true,
    RotationSpeed := 45,
    InitialZPosition := 0,
    FocusingPlayerController := none }

/-! ## CollectibleActor.cpp -/

/-- Method `ACollectibleActor::OnInteractionFocus_Implementation`. -/
def OnInteractionFocus (c : ACollectibleActor) (PlayerController : Option APlayerController) :
    ACollectibleActor × List CollectibleEvent :=
  ({ c with FocusingPlayerController := PlayerController },
    [CollectibleEvent.BP_OnFocusGained PlayerController])

/-- Method `ACollectibleActor::OnInteractionFocusLost_Implementation`. -/
def OnInteractionFocusLost (c : ACollectibleActor)
    (PlayerController : Option APlayerController) :
    ACollectibleActor × List CollectibleEvent :=
  ({ c with FocusingPlayerController := none },
    [CollectibleEvent.BP_OnFocusLost PlayerController])

/-- Method `ACollectibleActor::GetInteractionPrompt_Implementation`. -/
def GetInteractionPrompt (c : ACollectibleActor) : FText := c.InteractionPromptText

/-- Method `ACollectibleActor::CanInteract_Implementation`. -/
def CanInteract (c : ACollectibleActor) (PlayerController : Option APlayerController) : Bool :=
  if c.bHasBeenCollected ∧ c.bCanBeCollectedMultipleTimes = false then false
  else
    match PlayerController with
    | none => false
    | some _ => true

/-- Method `ACollectibleActor::PerformCollection`. `Notebooks` is the notebook
component of each pawn and `TimeSeconds` the world time at the call; the result
is the collectible, the notebooks afterwards and the events. -/
def PerformCollection (c : ACollectibleActor) (Notebooks : NotebookStore) (TimeSeconds : ℚ)
    (Collector : Option APlayerController) :
    ACollectibleActor × NotebookStore × List CollectibleEvent :=
  match Collector with
  | none => (c, Notebooks, [])
  | some pc =>
    match pc.GetPawn with
    | none => (c, Notebooks, [])
    | some Pawn =>
      match Notebooks Pawn with
      | none => (c, Notebooks, [])
      | some NotebookComponent =>
        if c.NotebookEntry.EntryID = NAME_None then (c, Notebooks, [])
        else
          let r := NotebookComponent.AddEntry TimeSeconds c.NotebookEntry
          let Notebooks1 : NotebookStore := Function.update Notebooks Pawn (some r.2.1)
          let ev1 : List CollectibleEvent :=
            CollectibleEvent.AddEntry Pawn c.NotebookEntry ::
              r.2.2.map (CollectibleEvent.Notebook Pawn)
          if r.1 then
            let c1 : ACollectibleActor := { c with bHasBeenCollected := true }
            let ev2 : List CollectibleEvent := [CollectibleEvent.BP_OnCollected pc]
            let ev3 : List CollectibleEvent :=
              if c1.bDestroyOnCollect then
                [CollectibleEvent.SetVisibility false,
                 CollectibleEvent.SetActorEnableCollision false,
                 CollectibleEvent.SetTimer c1.DestroyDelay]
              else []
            (c1, Notebooks1, ev1 ++ ev2 ++ ev3)
          else
            (c, Notebooks1, ev1)

/-- Method `ACollectibleActor::OnInteract_Implementation`. -/
def OnInteract (c : ACollectibleActor) (Notebooks : NotebookStore) (TimeSeconds : ℚ)
    (PlayerController : Option APlayerController) :
    Bool × ACollectibleActor × NotebookStore × List CollectibleEvent :=
  if !c.CanInteract PlayerController then
    (false, c, Notebooks, [])
  else
    (true, c.PerformCollection Notebooks TimeSeconds PlayerController)

end ACollectibleActor

/-! ## Variant_Horror/HorrorCharacter.h -/

/-- Handle of an `AActor` object. -/
abbrev AActor := Nat

/-- Modelled from the spec: the engine's `FMath::Max` is not part of the
sources; the larger of the two values ("clamped at zero"). -/
def FMath.Max (A B : ℚ) : ℚ := max A B

/-- Modelled from the spec: the engine's `FMath::Min` is not part of the
sources; the smaller of the two values ("up to the maximum"). -/
def FMath.Min (A B : ℚ) : ℚ := min A B

/-- Broadcasts of the character's delegates and its calls through the
`IInteractable` interface, in the order the source makes them. -/
inductive HorrorEvent where
  | OnSprintMeterUpdated (Percentage : ℚ)
  | OnSprintStateChanged (bSprinting : Bool)
  | OnInteractableDetected (InteractableActor : AActor) (InteractionPrompt : FText)
  | OnInteractableLost
  | OnNotebookToggled (bIsOpen : Bool)
  | Execute_OnInteractionFocus (Actor : AActor)
  | Execute_OnInteractionFocusLost (Actor : AActor)
  | Execute_OnInteract (Actor : AActor)
deriving DecidableEq, Repr

/-- Member variables of `AHorrorCharacter` (component pointers, input actions
and timer handles left out), with `MaxWalkSpeed` of its character movement
component. -/
structure AHorrorCharacter where
  bSprinting : Bool
  bRecovering : Bool
  WalkSpeed : ℚ
  SprintFixedTickTime : ℚ
  SprintMeter : ℚ
  SprintTime : ℚ
  SprintSpeed : ℚ
  RecoveringWalkSpeed : ℚ
  RecoveryTime : ℚ
  InteractionDistance : ℚ
  InteractionCheckRate : ℚ
  bIsNotebookOpen : Bool
  CurrentInteractable : Option AActor
  MaxWalkSpeed : ℚ
deriving DecidableEq, Repr

namespace AHorrorCharacter

/-- The class defaults of the header. `MaxWalkSpeed` belongs to the movement
component and holds a stand-in value until `BeginPlay` overwrites it. -/
def classDefaults : AHorrorCharacter :=
  { bSprinting := false,
    bRecovering := false,
    WalkSpeed := 250,
    SprintFixedTickTime := 3333 / 100000,
    SprintMeter := 0,
    SprintTime := 3,
    SprintSpeed := 600,
    RecoveringWalkSpeed := 150,
    RecoveryTime := 0,
    InteractionDistance := 120,
    InteractionCheckRate := 1 / 10,
    bIsNotebookOpen := false,
    CurrentInteractable := none,
    MaxWalkSpeed := 600 }

/-- The members that are not editable start from their header initializers; the
editable properties keep the values of `c`. -/
def construct (c : AHorrorCharacter) : AHorrorCharacter :=
  { c with
    bSprinting := false,
    bRecovering := false,
    SprintMeter := 0,
    bIsNotebookOpen := false,
    CurrentInteractable := none }

/-! ## Variant_Horror/HorrorCharacter.cpp -/

/-- Method `AHorrorCharacter::BeginPlay` (the two timers are started by the
engine and appear as the calls of `SprintFixedTick` and `CheckForInteractables`). -/
def BeginPlay (c : AHorrorCharacter) : AHorrorCharacter :=
  let c1 : AHorrorCharacter := { c with SprintMeter := c.SprintTime }
  { c1 with MaxWalkSpeed := c1.WalkSpeed }

/-- Method `AHorrorCharacter::DoStartSprint`. -/
def DoStartSprint (c : AHorrorCharacter) : AHorrorCharacter × List HorrorEvent :=
  let c1 : AHorrorCharacter := { c with bSprinting := true }
  if !c1.bRecovering then
    ({ c1 with MaxWalkSpeed := c1.SprintSpeed }, [HorrorEvent.OnSprintStateChanged true])
  else (c1, [])

/-- Method `AHorrorCharacter::DoEndSprint`. -/
def DoEndSprint (c : AHorrorCharacter) : AHorrorCharacter × List HorrorEvent :=
  let c1 : AHorrorCharacter := { c with bSprinting := false }
  if !c1.bRecovering then
    ({ c1 with MaxWalkSpeed := c1.WalkSpeed }, [HorrorEvent.OnSprintStateChanged false])
  else (c1, [])

/-- Method `AHorrorCharacter::SprintFixedTick`. `Speed` is the value of
`GetVelocity().Length()` at the call. -/
def SprintFixedTick (c : AHorrorCharacter) (Speed : ℚ) : AHorrorCharacter × List HorrorEvent :=
  let r : AHorrorCharacter × List HorrorEvent :=
    if c.bSprinting ∧ c.bRecovering = false ∧ Speed > c.WalkSpeed then
      if c.SprintMeter > 0 then
        let c1 : AHorrorCharacter :=
          { c with SprintMeter := FMath.Max (c.SprintMeter - c.SprintFixedTickTime) 0 }
        if c1.SprintMeter ≤ 0 then
          ({ c1 with bRecovering := true, MaxWalkSpeed := c1.RecoveringWalkSpeed }, [])
        else (c1, [])
      else (c, [])
    else
      let c1 : AHorrorCharacter :=
        { c with SprintMeter := FMath.Min (c.SprintMeter + c.SprintFixedTickTime) c.SprintTime }
      if c1.SprintMeter ≥ c1.SprintTime then
        ({ c1 with
            bRecovering := false,
            MaxWalkSpeed := if c1.bSprinting then c1.SprintSpeed else c1.WalkSpeed },
          [HorrorEvent.OnSprintStateChanged c1.bSprinting])
      else (c1, [])
  (r.1, r.2 ++ [HorrorEvent.OnSprintMeterUpdated (r.1.SprintMeter / r.1.SprintTime)])

/-- Method `AHorrorCharacter::DoToggleNotebook`. -/
def DoToggleNotebook (c : AHorrorCharacter) : AHorrorCharacter × List HorrorEvent :=
  let c1 : AHorrorCharacter := { c with bIsNotebookOpen := !c.bIsNotebookOpen }
  (c1, [HorrorEvent.OnNotebookToggled c1.bIsNotebookOpen])

end AHorrorCharacter

/-- What the character gets from an actor through the native `IInteractable`
interface at the time of a call: the result of `Execute_CanInteract` for the
character's controller and of `Execute_GetInteractionPrompt`. -/
structure IInteractable where
  CanInteract : Bool
  InteractionPrompt : FText
deriving DecidableEq, Repr

/-- The two engine tests the character applies to an actor:
`Implements<UInteractable>()` and `Cast<IInteractable>`, `none` for a null cast. -/
structure InteractionWorld where
  Implements : AActor → Bool
  Cast : AActor → Option IInteractable

/-- The part of `FHitResult` the scan reads, with the return value `bHit` of
`LineTraceSingleByChannel`; `Actor` is `HitResult.GetActor()`. -/
structure FHitResult where
  bHit : Bool
  Actor : Option AActor
deriving DecidableEq, Repr

namespace AHorrorCharacter

/-- Method `AHorrorCharacter::SetCurrentInteractable`. -/
def SetCurrentInteractable (c : AHorrorCharacter) (World : InteractionWorld)
    (NewInteractable : Option AActor) : AHorrorCharacter × List HorrorEvent :=
  let ev1 : List HorrorEvent :=
    match c.CurrentInteractable with
    | some Old =>
      if some Old ≠ NewInteractable then
        (match World.Cast Old with
          | some _ => [HorrorEvent.Execute_OnInteractionFocusLost Old]
          | none => []) ++ [HorrorEvent.OnInteractableLost]
      else []
    | none => []
  let c1 : AHorrorCharacter := { c with CurrentInteractable := NewInteractable }
  let ev2 : List HorrorEvent :=
    match c1.CurrentInteractable with
    | some Current =>
      (match World.Cast Current with
        | some Interactable =>
          [HorrorEvent.Execute_OnInteractionFocus Current,
           HorrorEvent.OnInteractableDetected Current Interactable.InteractionPrompt]
        | none => [])
    | none => []
  (c1, ev1 ++ ev2)

/-- The tail of `CheckForInteractables`, "no valid interactable found": clear
the focus if there is one. -/
def ClearFocusIfSet (c : AHorrorCharacter) (World : InteractionWorld) :
    AHorrorCharacter × List HorrorEvent :=
  match c.CurrentInteractable with
  | some _ => c.SetCurrentInteractable World none
  | none => (c, [])

/-- Method `AHorrorCharacter::CheckForInteractables`. `HitResult` is the outcome
of the line trace from the camera. -/
def CheckForInteractables (c : AHorrorCharacter) (World : InteractionWorld)
    (HitResult : FHitResult) : AHorrorCharacter × List HorrorEvent :=
  if c.bIsNotebookOpen then
    match c.CurrentInteractable with
    | some _ => c.SetCurrentInteractable World none
    | none => (c, [])
  else
    match HitResult.bHit, HitResult.Actor with
    | true, some Actor =>
      if World.Implements Actor then
        match World.Cast Actor with
        | some Interactable =>
          if Interactable.CanInteract then
            if c.CurrentInteractable ≠ some Actor then
              c.SetCurrentInteractable World (some Actor)
            else (c, [])
          else c.ClearFocusIfSet World
        | none => c.ClearFocusIfSet World
      else c.ClearFocusIfSet World
    | _, _ => c.ClearFocusIfSet World

/-- Method `AHorrorCharacter::DoInteract`; `Controller` is the result of
`Cast<APlayerController>(GetController())`. The character itself is not changed. -/
def DoInteract (c : AHorrorCharacter) (World : InteractionWorld)
    (Controller : Option APlayerController) : List HorrorEvent :=
  match c.CurrentInteractable with
  | some Current =>
    (match World.Cast Current, Controller with
      | some _, some _ => [HorrorEvent.Execute_OnInteract Current]
      | _, _ => [])
  | none => []

end AHorrorCharacter

/-- One call of `DoStartSprint`, `DoEndSprint` or `SprintFixedTick`; the tick
carries the speed of the character at that moment. -/
inductive SprintOp where
  | DoStartSprint
  | DoEndSprint
  | SprintFixedTick (Speed : ℚ)
deriving DecidableEq, Repr

/-- The character after one call. -/
def SprintOp.run (c : AHorrorCharacter) : SprintOp → AHorrorCharacter
  | SprintOp.DoStartSprint => c.DoStartSprint.1
  | SprintOp.DoEndSprint => c.DoEndSprint.1
  | SprintOp.SprintFixedTick Speed => (c.SprintFixedTick Speed).1

/-- The character after a sequence of calls, first call first. -/
def runSprint (c : AHorrorCharacter) (ops : List SprintOp) : AHorrorCharacter :=
  ops.foldl SprintOp.run c

/-- The character after one `SprintFixedTick` per listed speed, in order. -/
def runSprintTicks (c : AHorrorCharacter) (Speeds : List ℚ) : AHorrorCharacter :=
  Speeds.foldl (fun c1 Speed => (c1.SprintFixedTick Speed).1) c

/-- The room after one `Tick` per listed delta time, in order. -/
def runTicks (a : ARoomFlipActor) (DeltaTimes : List ℚ) : ARoomFlipActor :=
  DeltaTimes.foldl (fun a1 DeltaTime => (a1.Tick DeltaTime).1) a

/-- The eased progress `UpdateRotation` computes for the progress value `p`:
the value of `RotationCurve` when there is one, the smoothstep otherwise. -/
def ARoomFlipActor.easedAt (a : ARoomFlipActor) (p : ℚ) : ℚ :=
  match a.RotationCurve with
  | some Curve => Curve.GetFloatValue p
  | none => FMath.SmoothStep 0 1 p

/-- The room with progress `p` and the orientation `UpdateRotation` gives it at
that progress; used to state what a tick leaves behind. -/
def ARoomFlipActor.rotatedTo (a : ARoomFlipActor) (p : ℚ) : ARoomFlipActor :=
  { a with
    RotationProgress := p,
    RoomRoot := { ComponentRotation := FMath.Lerp a.StartRotation a.TargetRotation (a.easedAt p) } }

/-- The room as the completing branch of `UpdateRotation` leaves it; used to
state what the completing tick leaves behind. -/
def ARoomFlipActor.completedFlip (a : ARoomFlipActor) : ARoomFlipActor :=
  { a.rotatedTo 1 with
    CurrentState :=
      if a.bCanFlipMultipleTimes then ERoomFlipState.Idle else ERoomFlipState.Completed,
    RotationAngle :=
      if a.bCanFlipMultipleTimes ∧ a.bReverseEachFlip then -a.RotationAngle else a.RotationAngle,
    AttachedPlayer := none,
    PlayerController :=
      match a.AttachedPlayer with
      | some _ => none
      | none => a.PlayerController }

/-- A repeatable, reversing room with the class defaults otherwise, placed
unrotated, after construction and `BeginPlay`. -/
def toggleRoom : ARoomFlipActor :=
  ({ ARoomFlipActor.classDefaults { Pitch := 0, Yaw := 0, Roll := 0 } with
      bCanFlipMultipleTimes := true } : ARoomFlipActor).construct.BeginPlay

/-- The room of the end-to-end scenario: angle 180, duration 2, axis Z, not
repeatable, no curve, placed unrotated, after construction and `BeginPlay`. -/
def scenarioRoom : ARoomFlipActor :=
  ({ ARoomFlipActor.classDefaults { Pitch := 0, Yaw := 0, Roll := 0 } with
      RotationAxis := ERoomFlipAxis.Z_Axis,
      RotationDuration := 2 } : ARoomFlipActor).construct.BeginPlay

/-! ## Rounding of `float` arithmetic

The members declared `float` in the headers hold IEEE 754 binary32 values, and
an arithmetic operation on them returns the binary32 value nearest to its exact
result. The methods above compute over exact rationals. This section repeats
the methods that accumulate `float` values over many calls, `SprintFixedTick`,
`CalculateTargetRotation`, `TriggerFlip`, `UpdateRotation` and `Tick`, with the
result of every `+`, `-`, `*` and `/` rounded. Comparisons, `Max`, `Min` and
`Clamp` select one of their arguments and do not round. The components of an
`FRotator` are rounded like the `float` members; an engine build that keeps
them in `double` rounds less often, and a result that is a binary32 value is
not rounded there either. Infinities and NaN are not modelled: a quotient by a
duration of 0 is outside this section, and the meters, progress values and
angles stay far below `2^128`.
-/

/-- Loop of `Float32.log2`: count the halvings that bring `n` below 2. -/
def Float32.log2Loop : Nat → Nat → Nat
  | 0, _ => 0
  | fuel + 1, n => if n < 2 then 0 else Float32.log2Loop fuel (n / 2) + 1

/-- The position of the leading binary digit of `n`, and `0` for `n = 0`. -/
def Float32.log2 (n : Nat) : Nat := Float32.log2Loop n n

/-- The exponent of the leading binary digit of the positive rational `n / d`:
the integer `e` with `2^e ≤ n / d < 2^(e+1)`. The difference `e0` of the two
leading digit positions is `e` or `e + 1`. -/
def Float32.exponent (n d : Nat) : Int :=
  let e0 : Int := (Float32.log2 n : Int) - (Float32.log2 d : Int)
  if d * 2 ^ e0.toNat ≤ n * 2 ^ (-e0).toNat then e0 else e0 - 1

/-- The multiple of `2^q` nearest to the positive rational `n / d`: `m0` is the
multiple below, `r` the remainder, and a value halfway between two multiples
goes to the even one. -/
def Float32.roundAt (n d : Nat) (q : Int) : ℚ :=
  let N : Nat := n * 2 ^ (-q).toNat
  let D : Nat := d * 2 ^ q.toNat
  let m0 : Nat := N / D
  let r : Nat := N % D
  let m : Nat :=
    if 2 * r < D then m0
    else if D < 2 * r then m0 + 1
    else if m0 % 2 = 0 then m0 else m0 + 1
  ((m * 2 ^ q.toNat : Nat) : ℚ) / ((2 ^ (-q).toNat : Nat) : ℚ)

/-- The binary32 value nearest to the positive rational `n / d`. With `e` the
exponent of its leading binary digit, the binary32 values around it are the
multiples of `2^(e - 23)`, a significand of 24 digits; below `2^-126` the
spacing stays `2^-149`. -/
def Float32.roundPos (n d : Nat) : ℚ :=
  Float32.roundAt n d (max (Float32.exponent n d) (-126) - 23)

/-- The result of a `float` operation whose exact result is `x`: the binary32
value nearest to `x`, ties to the even significand. A rational `x` is a
binary32 value exactly when `Float32.round x = x`. -/
def Float32.round (x : ℚ) : ℚ :=
  if x = 0 then 0
  else if x < 0 then -Float32.roundPos x.num.natAbs x.den
  else Float32.roundPos x.num.natAbs x.den

/-- Method `AHorrorCharacter::SprintFixedTick` with its `float` arithmetic
rounded: the difference `SprintMeter - SprintFixedTickTime`, the sum
`SprintMeter + SprintFixedTickTime` and the quotient `SprintMeter / SprintTime`.
`Speed` is the value of `GetVelocity().Length()` at the call. -/
def AHorrorCharacter.SprintFixedTick32 (c : AHorrorCharacter) (Speed : ℚ) :
    AHorrorCharacter × List HorrorEvent :=
  let r : AHorrorCharacter × List HorrorEvent :=
    if c.bSprinting ∧ c.bRecovering = false ∧ Speed > c.WalkSpeed then
      if c.SprintMeter > 0 then
        let c1 : AHorrorCharacter :=
          { c with
            SprintMeter := FMath.Max (Float32.round (c.SprintMeter - c.SprintFixedTickTime)) 0 }
        if c1.SprintMeter ≤ 0 then
          ({ c1 with bRecovering := true, MaxWalkSpeed := c1.RecoveringWalkSpeed }, [])
        else (c1, [])
      else (c, [])
    else
      let c1 : AHorrorCharacter :=
        { c with
          SprintMeter :=
            FMath.Min (Float32.round (c.SprintMeter + c.SprintFixedTickTime)) c.SprintTime }
      if c1.SprintMeter ≥ c1.SprintTime then
        ({ c1 with
            bRecovering := false,
            MaxWalkSpeed := if c1.bSprinting then c1.SprintSpeed else c1.WalkSpeed },
          [HorrorEvent.OnSprintStateChanged c1.bSprinting])
      else (c1, [])
  (r.1,
    r.2 ++ [HorrorEvent.OnSprintMeterUpdated (Float32.round (r.1.SprintMeter / r.1.SprintTime))])

/-- The character after one `SprintFixedTick32` per listed speed, in order. -/
def runSprintTicks32 (c : AHorrorCharacter) (Speeds : List ℚ) : AHorrorCharacter :=
  Speeds.foldl (fun c1 Speed => (c1.SprintFixedTick32 Speed).1) c

/-- Modelled from the spec: `FMath.SmoothStep` with the result of each of its
operations rounded. -/
def FMath.SmoothStep32 (A B X : ℚ) : ℚ :=
  if X < A then 0
  else if X ≥ B then 1
  else
    let InterpFraction : ℚ := Float32.round (Float32.round (X - A) / Float32.round (B - A))
    Float32.round (Float32.round (InterpFraction * InterpFraction) *
      Float32.round (3 - Float32.round (2 * InterpFraction)))

/-- Modelled from the spec: `FMath.Lerp` with the result of each of its
operations rounded, componentwise `A + (B − A) * Alpha`. -/
def FMath.Lerp32 (A B : FRotator) (Alpha : ℚ) : FRotator :=
  { Pitch := Float32.round (A.Pitch + Float32.round (Float32.round (B.Pitch - A.Pitch) * Alpha)),
    Yaw := Float32.round (A.Yaw + Float32.round (Float32.round (B.Yaw - A.Yaw) * Alpha)),
    Roll := Float32.round (A.Roll + Float32.round (Float32.round (B.Roll - A.Roll) * Alpha)) }

/-- Method `ARoomFlipActor::CalculateTargetRotation` with the sum
`Target.Roll += RotationAngle` (or pitch, or yaw) rounded. -/
def ARoomFlipActor.CalculateTargetRotation32 (a : ARoomFlipActor) : FRotator :=
  let Target : FRotator := a.StartRotation
  match a.RotationAxis with
  | ERoomFlipAxis.X_Axis =>
    { Target with Roll := Float32.round (Target.Roll + a.RotationAngle) }
  | ERoomFlipAxis.Y_Axis =>
    { Target with Pitch := Float32.round (Target.Pitch + a.RotationAngle) }
  | ERoomFlipAxis.Z_Axis =>
    { Target with Yaw := Float32.round (Target.Yaw + a.RotationAngle) }

/-- Method `ARoomFlipActor::TriggerFlip`, calling `CalculateTargetRotation32`. -/
def ARoomFlipActor.TriggerFlip32 (a : ARoomFlipActor) (World : UWorld) :
    Bool × ARoomFlipActor × List RoomFlipEvent :=
  if !a.CanFlip then
    (false, a, [])
  else
    let a1 : ARoomFlipActor :=
      { a with
        CurrentState := ERoomFlipState.Rotating,
        RotationProgress := 0,
        FlipCount := a.FlipCount + 1 }
    let a2 : ARoomFlipActor := { a1 with StartRotation := a1.RoomRoot.GetComponentRotation }
    let a3 : ARoomFlipActor := { a2 with TargetRotation := a2.CalculateTargetRotation32 }
    let r4 : ARoomFlipActor × List RoomFlipEvent :=
      if a3.bAttachPlayer then a3.AttachPlayerToRoom World else (a3, [])
    let ev5 : List RoomFlipEvent :=
      match r4.1.bDisablePlayerInput, r4.1.PlayerController with
      | true, some pc => [RoomFlipEvent.DisableInput pc]
      | _, _ => []
    (true, r4.1,
      r4.2 ++ ev5 ++ [RoomFlipEvent.OnRoomFlipStarted, RoomFlipEvent.BP_OnFlipStarted])

/-- The eased progress `UpdateRotation32` computes for the progress value `p`:
the value of `RotationCurve` when there is one, the rounded smoothstep
otherwise. -/
def ARoomFlipActor.easedAt32 (a : ARoomFlipActor) (p : ℚ) : ℚ :=
  match a.RotationCurve with
  | some Curve => Curve.GetFloatValue p
  | none => FMath.SmoothStep32 0 1 p

/-- Method `ARoomFlipActor::UpdateRotation` with its `float` arithmetic rounded:
the quotient `DeltaTime / RotationDuration` and the sum `RotationProgress += …`
of the source, and the operations inside `SmoothStep` and `Lerp`. -/
def ARoomFlipActor.UpdateRotation32 (a : ARoomFlipActor) (DeltaTime : ℚ) :
    ARoomFlipActor × List RoomFlipEvent :=
  let a1 : ARoomFlipActor :=
    { a with
      RotationProgress :=
        Float32.round (a.RotationProgress + Float32.round (DeltaTime / a.RotationDuration)) }
  let a2 : ARoomFlipActor :=
    { a1 with RotationProgress := FMath.Clamp a1.RotationProgress 0 1 }
  let EasedProgress : ℚ :=
    match a2.RotationCurve with
    | some Curve => Curve.GetFloatValue a2.RotationProgress
    | none => FMath.SmoothStep32 0 1 a2.RotationProgress
  let CurrentRotation : FRotator :=
    FMath.Lerp32 a2.StartRotation a2.TargetRotation EasedProgress
  let a3 : ARoomFlipActor := { a2 with RoomRoot := a2.RoomRoot.SetWorldRotation CurrentRotation }
  let ev3 : List RoomFlipEvent :=
    [RoomFlipEvent.OnRoomFlipProgress a3.RotationProgress,
     RoomFlipEvent.BP_OnFlipProgress a3.RotationProgress]
  if a3.RotationProgress ≥ 1 then
    let a4 : ARoomFlipActor := { a3 with CurrentState := ERoomFlipState.Completed }
    let r5 : ARoomFlipActor × List RoomFlipEvent :=
      match a4.AttachedPlayer with
      | some _ => a4.DetachPlayerFromRoom
      | none => (a4, [])
    let ev6 : List RoomFlipEvent :=
      match r5.1.bDisablePlayerInput, r5.1.PlayerController with
      | true, some pc => [RoomFlipEvent.EnableInput pc]
      | _, _ => []
    let ev7 : List RoomFlipEvent :=
      [RoomFlipEvent.OnRoomFlipCompleted, RoomFlipEvent.BP_OnFlipCompleted]
    let a8 : ARoomFlipActor :=
      if r5.1.bCanFlipMultipleTimes then
        let b : ARoomFlipActor := { r5.1 with CurrentState := ERoomFlipState.Idle }
        if b.bReverseEachFlip then { b with RotationAngle := -b.RotationAngle } else b
      else r5.1
    (a8, ev3 ++ r5.2 ++ ev6 ++ ev7)
  else
    (a3, ev3)

/-- Method `ARoomFlipActor::Tick`, calling `UpdateRotation32`. -/
def ARoomFlipActor.Tick32 (a : ARoomFlipActor) (DeltaTime : ℚ) :
    ARoomFlipActor × List RoomFlipEvent :=
  if a.CurrentState = ERoomFlipState.Rotating then a.UpdateRotation32 DeltaTime
  else (a, [])

/-- The room after one `Tick32` per listed delta time, in order. -/
def runTicks32 (a : ARoomFlipActor) (DeltaTimes : List ℚ) : ARoomFlipActor :=
  DeltaTimes.foldl (fun a1 DeltaTime => (a1.Tick32 DeltaTime).1) a

/-- The room with progress `p` and the orientation `UpdateRotation32` gives it
at that progress; used to state what a tick leaves behind. -/
def ARoomFlipActor.rotatedTo32 (a : ARoomFlipActor) (p : ℚ) : ARoomFlipActor :=
  { a with
    RotationProgress := p,
    RoomRoot :=
      { ComponentRotation := FMath.Lerp32 a.StartRotation a.TargetRotation (a.easedAt32 p) } }

/-- The room as the completing branch of `UpdateRotation32` leaves it; used to
state what the completing tick leaves behind. -/
def ARoomFlipActor.completedFlip32 (a : ARoomFlipActor) : ARoomFlipActor :=
  { a.rotatedTo32 1 with
    CurrentState :=
      if a.bCanFlipMultipleTimes then ERoomFlipState.Idle else ERoomFlipState.Completed,
    RotationAngle :=
      if a.bCanFlipMultipleTimes ∧ a.bReverseEachFlip then -a.RotationAngle else a.RotationAngle,
    AttachedPlayer := none,
    PlayerController :=
      match a.AttachedPlayer with
      | some _ => none
      | none => a.PlayerController }

/-- The component of a rotator that `CalculateTargetRotation` writes for an
axis: roll for X, pitch for Y, yaw for Z. -/
def FRotator.onAxis (R : FRotator) (Axis : ERoomFlipAxis) : ℚ :=
  match Axis with
  | ERoomFlipAxis.X_Axis => R.Roll
  | ERoomFlipAxis.Y_Axis => R.Pitch
  | ERoomFlipAxis.Z_Axis => R.Yaw

/-- The rotator `R` with `x` added to its component on an axis and the other
two components kept. -/
def FRotator.addOnAxis (R : FRotator) (Axis : ERoomFlipAxis) (x : ℚ) : FRotator :=
  match Axis with
  | ERoomFlipAxis.X_Axis => { R with Roll := R.Roll + x }
  | ERoomFlipAxis.Y_Axis => { R with Pitch := R.Pitch + x }
  | ERoomFlipAxis.Z_Axis => { R with Yaw := R.Yaw + x }

/-- A sample player controller that possesses pawn 7. -/
def samplePlayerController : APlayerController :=
  { Handle := 0, Pawn := some 7 }

/-- A world whose player 0 is `samplePlayerController`. -/
def sampleWorld : UWorld :=
  { PlayerController0 := some samplePlayerController }

/-- A room with the class defaults, placed unrotated, after construction and
`BeginPlay`. -/
def defaultRoom : ARoomFlipActor :=
  (ARoomFlipActor.classDefaults { Pitch := 0, Yaw := 0, Roll := 0 }).construct.BeginPlay

/-- A player controller without a pawn. -/
def pawnlessPlayerController : APlayerController :=
  { Handle := 1, Pawn := none }

/-- The notebooks of a world where pawn 7 owns an empty notebook and no other
pawn owns one. -/
def sampleNotebooks : NotebookStore :=
  fun Pawn => if Pawn = 7 then some UNotebookComponent.new else none

/-- The notebooks of a world where pawn 7 owns `notebookWithClue1`. -/
def sampleNotebooksWithClue1 : NotebookStore :=
  fun Pawn => if Pawn = 7 then some notebookWithClue1 else none

/-- A collectible with the class defaults that carries `clue1`. -/
def clue1Collectible : ACollectibleActor :=
  ACollectibleActor.classDefaults clue1

/-- A character with 3 s of stamina and ticks of 1 s, after `BeginPlay`, with
the sprint control held. -/
def sprintingCharacter : AHorrorCharacter :=
  ({ AHorrorCharacter.classDefaults with
      SprintFixedTickTime := 1 } : AHorrorCharacter).construct.BeginPlay.DoStartSprint.1

/-- A world with two interactable actors, 1 with prompt `Pick Up` and 2 with
prompt `Examine`, both willing to be interacted with. -/
def sampleInteractionWorld : InteractionWorld :=
  { Implements := fun Actor => decide (Actor = 1 ∨ Actor = 2),
    Cast := fun Actor =>
      if Actor = 1 then some { CanInteract := true, InteractionPrompt := "Pick Up" }
      else if Actor = 2 then some { CanInteract := true, InteractionPrompt := "Examine" }
      else none }

/-- The default character after `BeginPlay`, focused on actor 1. -/
def focusedCharacter : AHorrorCharacter :=
  { AHorrorCharacter.classDefaults.construct.BeginPlay with CurrentInteractable := some 1 }

/-- A character with 3 s of stamina and ticks of `0.1f`, the binary32 value
nearest to one tenth, after `BeginPlay`, with the sprint control held. -/
def tenthTickCharacter : AHorrorCharacter :=
  ({ AHorrorCharacter.classDefaults with
      SprintFixedTickTime := Float32.round (1 / 10) } :
    AHorrorCharacter).construct.BeginPlay.DoStartSprint.1

/-- A repeatable, reversing room with the class defaults otherwise (X axis,
180 degrees), placed with a roll of `2^-60` degrees, after construction and
`BeginPlay`. -/
def tinyRollRoom : ARoomFlipActor :=
  ({ ARoomFlipActor.classDefaults { Pitch := 0, Yaw := 0, Roll := 1 / 2 ^ 60 } with
      bCanFlipMultipleTimes := true } : ARoomFlipActor).construct.BeginPlay

/-- A repeatable, reversing room with the class defaults otherwise (X axis,
180 degrees), placed at pitch 10, yaw 20 and roll 1/2, after construction and
`BeginPlay`. -/
def tiltedToggleRoom : ARoomFlipActor :=
  ({ ARoomFlipActor.classDefaults { Pitch := 10, Yaw := 20, Roll := 1 / 2 } with
      bCanFlipMultipleTimes := true } : ARoomFlipActor).construct.BeginPlay

/-- A world where actor 5 implements the interface in Blueprint only:
`Implements<UInteractable>()` is true and the native cast is null. -/
def blueprintWorld : InteractionWorld :=
  { Implements := fun Actor => decide (Actor = 5),
    Cast := fun _ => none }

/-! ## Lemmas on the notebook loops -/

namespace UNotebookComponent

theorem HasEntryLoop_eq_true_iff (Entries : List FNotebookEntry) (EntryID : FName) :
    HasEntryLoop Entries EntryID = true ↔ ∃ e ∈ Entries, e.EntryID = EntryID := by
  induction Entries with
  | nil => simp [HasEntryLoop]
  | cons e rest ih =>
    by_cases h : e.EntryID = EntryID
    · simp [HasEntryLoop, h]
    · simp [HasEntryLoop, h, ih]

theorem HasEntryLoop_eq_false_iff (Entries : List FNotebookEntry) (EntryID : FName) :
    HasEntryLoop Entries EntryID = false ↔ ∀ e ∈ Entries, e.EntryID ≠ EntryID := by
  rw [← Bool.not_eq_true, HasEntryLoop_eq_true_iff]
  simp

theorem UpdateUnreadCountLoop_eq (Entries : List FNotebookEntry) (c : Int) :
    UpdateUnreadCountLoop Entries c = c + unreadEntries Entries := by
  induction Entries generalizing c with
  | nil => simp [UpdateUnreadCountLoop, unreadEntries]
  | cons e rest ih =>
    cases hb : e.bHasBeenRead
    · simp only [unreadEntries] at ih
      simp [UpdateUnreadCountLoop, unreadEntries, hb, ih]
      ring
    · simp only [unreadEntries] at ih
      simp [UpdateUnreadCountLoop, unreadEntries, hb, ih]

theorem unreadEntries_append (l1 l2 : List FNotebookEntry) :
    unreadEntries (l1 ++ l2) = unreadEntries l1 + unreadEntries l2 := by
  simp [unreadEntries]

/-- The loop of `MarkEntryAsRead` runs to the end exactly when every entry with
the ID is already read. -/
theorem MarkEntryAsReadLoop_eq_none_iff (Entries : List FNotebookEntry) (x : FName) :
    MarkEntryAsReadLoop Entries x = none ↔
      ∀ e ∈ Entries, e.EntryID = x → e.bHasBeenRead = true := by
  induction Entries with
  | nil => simp [MarkEntryAsReadLoop]
  | cons e rest ih =>
    by_cases h : e.EntryID = x ∧ e.bHasBeenRead = false
    · simp only [MarkEntryAsReadLoop, if_pos h]
      simp [h.1, h.2]
    · simp only [MarkEntryAsReadLoop, if_neg h]
      have h2 : e.EntryID = x → e.bHasBeenRead = true := by
        intro hx
        cases hb : e.bHasBeenRead
        · exact absurd ⟨hx, hb⟩ h
        · rfl
      cases hr : MarkEntryAsReadLoop rest x with
      | none =>
        have := ih.mp hr
        simp only [List.mem_cons, forall_eq_or_imp, true_iff]
        exact ⟨h2, this⟩
      | some r =>
        obtain ⟨r1, m⟩ := r
        simp only [List.mem_cons, forall_eq_or_imp, false_iff, reduceCtorEq]
        intro hcon
        have := ih.mpr hcon.2
        rw [hr] at this
        exact absurd this (by simp)

/-- What a successful pass of the `MarkEntryAsRead` loop does when the IDs are
pairwise different. -/
theorem MarkEntryAsReadLoop_eq_some (Entries : List FNotebookEntry) (x : FName)
    (hnd : Entries.Pairwise (fun a b => a.EntryID ≠ b.EntryID))
    (Entries1 : List FNotebookEntry) (Marked : FNotebookEntry)
    (h : MarkEntryAsReadLoop Entries x = some (Entries1, Marked)) :
    Entries1 = Entries.map
        (fun e => if e.EntryID = x then { e with bHasBeenRead := true } else e) ∧
      (∃ e ∈ Entries, e.EntryID = x ∧ e.bHasBeenRead = false ∧
        Marked = { e with bHasBeenRead := true }) ∧
      unreadEntries Entries1 + 1 = unreadEntries Entries := by
  induction Entries generalizing Entries1 with
  | nil => simp [MarkEntryAsReadLoop] at h
  | cons e rest ih =>
    rw [List.pairwise_cons] at hnd
    by_cases hc : e.EntryID = x ∧ e.bHasBeenRead = false
    · simp only [MarkEntryAsReadLoop, if_pos hc, Option.some.injEq, Prod.mk.injEq] at h
      obtain ⟨h1, h2⟩ := h
      subst h1 h2
      have hrest : rest.map
          (fun e => if e.EntryID = x then { e with bHasBeenRead := true } else e) = rest := by
        refine (List.map_congr_left ?_).trans (List.map_id rest)
        intro e1 he1
        have hne : e1.EntryID ≠ x := fun hx => hnd.1 e1 he1 (hc.1.trans hx.symm)
        simp [hne]
      refine ⟨?_, ⟨e, List.mem_cons_self e rest, hc.1, hc.2, rfl⟩, ?_⟩
      · simp [hc.1, hrest]
      · simp [unreadEntries, hc.2]
    · simp only [MarkEntryAsReadLoop, if_neg hc] at h
      cases hr : MarkEntryAsReadLoop rest x with
      | none => simp [hr] at h
      | some r =>
        obtain ⟨r1, m⟩ := r
        simp only [hr, Option.some.injEq, Prod.mk.injEq] at h
        obtain ⟨h1, h2⟩ := h
        subst h1 h2
        obtain ⟨i1, ⟨e0, he0, i2⟩, i3⟩ := ih hnd.2 r1 hr
        have hfix : (if e.EntryID = x then { e with bHasBeenRead := true } else e) = e := by
          by_cases hx : e.EntryID = x
          · cases hb : e.bHasBeenRead
            · exact absurd ⟨hx, hb⟩ hc
            · rw [if_pos hx, ← hb]
          · rw [if_neg hx]
        refine ⟨?_, ⟨e0, List.mem_cons_of_mem e he0, i2⟩, ?_⟩
        · rw [List.map_cons, hfix, ← i1]
        · have ha : unreadEntries (e :: r1) = unreadEntries [e] + unreadEntries r1 :=
            unreadEntries_append [e] r1
          have hb : unreadEntries (e :: rest) = unreadEntries [e] + unreadEntries rest :=
            unreadEntries_append [e] rest
          omega

end UNotebookComponent

/-! ## Invariant of the notebook -/

/-- One call keeps the IDs pairwise different and the cached count exact. -/
theorem NotebookOp.run_invariant (nb : UNotebookComponent) (op : NotebookOp)
    (hnd : nb.Entries.Pairwise (fun a b => a.EntryID ≠ b.EntryID))
    (hcnt : nb.UnreadCount = unreadEntries nb.Entries) :
    (op.run nb).Entries.Pairwise (fun a b => a.EntryID ≠ b.EntryID) ∧
      (op.run nb).UnreadCount = unreadEntries (op.run nb).Entries := by
  cases op with
  | AddEntry t e =>
    simp only [NotebookOp.run, UNotebookComponent.AddEntry, UNotebookComponent.HasEntry]
    cases hh : UNotebookComponent.HasEntryLoop nb.Entries e.EntryID
    · rw [UNotebookComponent.HasEntryLoop_eq_false_iff] at hh
      simp only [Bool.false_eq_true, if_false]
      refine ⟨?_, ?_⟩
      · rw [List.pairwise_append]
        refine ⟨hnd, List.pairwise_singleton _ _, ?_⟩
        intro a ha b hb
        rw [List.mem_singleton] at hb
        subst hb
        exact hh a ha
      · rw [UNotebookComponent.unreadEntries_append, hcnt]
        simp [unreadEntries]
    · simp only [if_true]
      exact ⟨hnd, hcnt⟩
  | MarkEntryAsRead x =>
    simp only [NotebookOp.run, UNotebookComponent.MarkEntryAsRead]
    cases hr : UNotebookComponent.MarkEntryAsReadLoop nb.Entries x with
    | none => exact ⟨hnd, hcnt⟩
    | some r =>
      obtain ⟨r1, m⟩ := r
      obtain ⟨i1, -, -⟩ := UNotebookComponent.MarkEntryAsReadLoop_eq_some nb.Entries x hnd r1 m hr
      simp only [UNotebookComponent.UpdateUnreadCount,
        UNotebookComponent.UpdateUnreadCountLoop_eq, zero_add, and_true]
      rw [i1, List.pairwise_map]
      refine hnd.imp ?_
      intro a b hab
      by_cases ha : a.EntryID = x <;> by_cases hb : b.EntryID = x <;> simp [ha, hb] <;>
        simp_all
  | ClearAllEntries =>
    simp [NotebookOp.run, UNotebookComponent.ClearAllEntries, unreadEntries]

/-- Every notebook reached from the empty one has pairwise different IDs and an
exact cached unread count. -/
theorem runNotebook_invariant (ops : List NotebookOp) (nb : UNotebookComponent)
    (hnd : nb.Entries.Pairwise (fun a b => a.EntryID ≠ b.EntryID))
    (hcnt : nb.UnreadCount = unreadEntries nb.Entries) :
    (runNotebook nb ops).Entries.Pairwise (fun a b => a.EntryID ≠ b.EntryID) ∧
      (runNotebook nb ops).UnreadCount = unreadEntries (runNotebook nb ops).Entries := by
  induction ops generalizing nb with
  | nil => exact ⟨hnd, hcnt⟩
  | cons op ops ih =>
    obtain ⟨h1, h2⟩ := NotebookOp.run_invariant nb op hnd hcnt
    exact ih (op.run nb) h1 h2

theorem runNotebook_new_invariant (ops : List NotebookOp) :
    (runNotebook UNotebookComponent.new ops).Entries.Pairwise
        (fun a b => a.EntryID ≠ b.EntryID) ∧
      (runNotebook UNotebookComponent.new ops).UnreadCount =
        unreadEntries (runNotebook UNotebookComponent.new ops).Entries :=
  runNotebook_invariant ops UNotebookComponent.new (by simp [UNotebookComponent.new])
    (by simp [UNotebookComponent.new, unreadEntries])

/-- With pairwise different IDs, two stored entries with the same ID are the
same entry. -/
theorem eq_of_EntryID_eq (Entries : List FNotebookEntry)
    (hnd : Entries.Pairwise (fun a b => a.EntryID ≠ b.EntryID))
    (a b : FNotebookEntry) (ha : a ∈ Entries) (hb : b ∈ Entries)
    (h : a.EntryID = b.EntryID) : a = b := by
  by_contra hne
  have hs : Symmetric (fun a b : FNotebookEntry => a.EntryID ≠ b.EntryID) :=
    fun _ _ hab => fun hba => hab hba.symm
  exact (List.Pairwise.forall hs hnd ha hb hne) h

/-! ## Notebook: AddEntry, MarkEntryAsRead and the invariants -/

/-- C1. For every notebook state and every entry whose ID already occurs among
the stored entries, `AddEntry` returns false, leaves the entry sequence, the
unread count and the total entry count unchanged, and broadcasts nothing. -/
theorem AddEntry_existing_id (nb : UNotebookComponent) (TimeSeconds : ℚ)
    (Entry : FNotebookEntry)
    (h : ∃ e ∈ nb.Entries, e.EntryID = Entry.EntryID) :
    (nb.AddEntry TimeSeconds Entry).1 = false ∧
      (nb.AddEntry TimeSeconds Entry).2.1.Entries = nb.Entries ∧
      (nb.AddEntry TimeSeconds Entry).2.1.GetUnreadCount = nb.GetUnreadCount ∧
      (nb.AddEntry TimeSeconds Entry).2.1.GetTotalEntryCount = nb.GetTotalEntryCount ∧
      (nb.AddEntry TimeSeconds Entry).2.2 = [] := by
  have hh : nb.HasEntry Entry.EntryID = true :=
    (UNotebookComponent.HasEntryLoop_eq_true_iff nb.Entries Entry.EntryID).mpr h
  simp [UNotebookComponent.AddEntry, hh]

/-- Witness for C1: re-adding `clue1` (with another title, at a later time) to
the notebook that holds `clue1`. -/
theorem AddEntry_existing_id_witness :
    (∃ e ∈ notebookWithClue1.Entries, e.EntryID = ({ clue1 with Title := "Z" }).EntryID) ∧
      (notebookWithClue1.AddEntry 7 { clue1 with Title := "Z" }).1 = false ∧
      (notebookWithClue1.AddEntry 7 { clue1 with Title := "Z" }).2.1.Entries =
        notebookWithClue1.Entries :=
  have h : ∃ e ∈ notebookWithClue1.Entries,
      e.EntryID = ({ clue1 with Title := "Z" }).EntryID :=
    ⟨{ clue1 with Timestamp := 1 }, List.mem_singleton.mpr rfl, rfl⟩
  ⟨h, (AddEntry_existing_id notebookWithClue1 7 { clue1 with Title := "Z" } h).1,
    (AddEntry_existing_id notebookWithClue1 7 { clue1 with Title := "Z" } h).2.1⟩

/-- C2. In every notebook reached from the empty notebook by a sequence of
`AddEntry`, `MarkEntryAsRead` and `ClearAllEntries` calls, `GetUnreadCount`
equals the number of stored entries whose read flag is false. -/
theorem unreadCount_eq_unreadEntries (ops : List NotebookOp) :
    (runNotebook UNotebookComponent.new ops).GetUnreadCount =
      unreadEntries (runNotebook UNotebookComponent.new ops).Entries :=
  (runNotebook_new_invariant ops).2

/-- C3. In every notebook reached from the empty notebook by a sequence of
`AddEntry`, `MarkEntryAsRead` and `ClearAllEntries` calls, no two stored entries
have the same `EntryID`. -/
theorem entryIDs_pairwise_distinct (ops : List NotebookOp) :
    (runNotebook UNotebookComponent.new ops).Entries.Pairwise
        (fun a b => a.EntryID ≠ b.EntryID) ∧
      (entryIDs (runNotebook UNotebookComponent.new ops).Entries).Nodup := by
  have h := (runNotebook_new_invariant ops).1
  refine ⟨h, ?_⟩
  rw [entryIDs, List.Nodup, List.pairwise_map]
  exact h

/-- C4. For every notebook state and every entry whose ID does not occur in it,
`AddEntry` returns true; the entry sequence afterwards is the old one followed
by the entry with its read flag cleared and its timestamp set to the current
time; the unread count is one more; `HasEntry` of the ID is true; and the one
broadcast carries the stored entry and the new unread count. -/
theorem AddEntry_new_id (nb : UNotebookComponent) (TimeSeconds : ℚ)
    (Entry : FNotebookEntry)
    (h : ∀ e ∈ nb.Entries, e.EntryID ≠ Entry.EntryID) :
    (nb.AddEntry TimeSeconds Entry).1 = true ∧
      (nb.AddEntry TimeSeconds Entry).2.1.Entries =
        nb.Entries ++ [{ Entry with Timestamp := TimeSeconds, bHasBeenRead := false }] ∧
      (nb.AddEntry TimeSeconds Entry).2.1.GetUnreadCount = nb.GetUnreadCount + 1 ∧
      (nb.AddEntry TimeSeconds Entry).2.1.GetTotalEntryCount = nb.GetTotalEntryCount + 1 ∧
      (nb.AddEntry TimeSeconds Entry).2.1.HasEntry Entry.EntryID = true ∧
      (nb.AddEntry TimeSeconds Entry).2.2 =
        [NotebookEvent.OnNotebookEntryAdded
          { Entry with Timestamp := TimeSeconds, bHasBeenRead := false }
          (nb.GetUnreadCount + 1)] := by
  have hh : UNotebookComponent.HasEntryLoop nb.Entries Entry.EntryID = false :=
    (UNotebookComponent.HasEntryLoop_eq_false_iff nb.Entries Entry.EntryID).mpr h
  simp only [UNotebookComponent.AddEntry, UNotebookComponent.HasEntry, hh,
    Bool.false_eq_true, if_false, UNotebookComponent.GetUnreadCount,
    UNotebookComponent.GetTotalEntryCount, true_and, and_true]
  refine ⟨by simp, ?_⟩
  rw [UNotebookComponent.HasEntryLoop_eq_true_iff]
  exact ⟨_, List.mem_append_right _ (List.mem_singleton.mpr rfl), rfl⟩

/-- Witness for C4: adding `clue2`, whose read flag is set, to the notebook
that holds only `clue1`. -/
theorem AddEntry_new_id_witness :
    (∀ e ∈ notebookWithClue1.Entries, e.EntryID ≠ clue2.EntryID) ∧
      (notebookWithClue1.AddEntry 9 clue2).1 = true ∧
      (notebookWithClue1.AddEntry 9 clue2).2.1.Entries =
        notebookWithClue1.Entries ++ [{ clue2 with Timestamp := 9, bHasBeenRead := false }] :=
  have h : ∀ e ∈ notebookWithClue1.Entries, e.EntryID ≠ clue2.EntryID := by
    intro e he
    rw [notebookWithClue1, List.mem_singleton] at he
    subst he
    decide
  ⟨h, (AddEntry_new_id notebookWithClue1 9 clue2 h).1,
    (AddEntry_new_id notebookWithClue1 9 clue2 h).2.1⟩

/-- C5. For every notebook reached from the empty one and every ID `x`: when no
entry has ID `x`, or the entry with ID `x` is already read, `MarkEntryAsRead x`
changes nothing and broadcasts nothing; when an entry with ID `x` is unread, the
call sets the read flag of the entries with ID `x` (there is one) and leaves all
others and the order as they are, the unread count goes down by one, and the
one broadcast carries that entry with its flag set. -/
theorem MarkEntryAsRead_spec (ops : List NotebookOp) (x : FName) :
    (((¬ ∃ e ∈ (runNotebook UNotebookComponent.new ops).Entries, e.EntryID = x) ∨
        (∃ e ∈ (runNotebook UNotebookComponent.new ops).Entries,
          e.EntryID = x ∧ e.bHasBeenRead = true)) →
      (runNotebook UNotebookComponent.new ops).MarkEntryAsRead x =
        (runNotebook UNotebookComponent.new ops, [])) ∧
    (∀ e ∈ (runNotebook UNotebookComponent.new ops).Entries,
      e.EntryID = x → e.bHasBeenRead = false →
      ((runNotebook UNotebookComponent.new ops).MarkEntryAsRead x).1.Entries =
          (runNotebook UNotebookComponent.new ops).Entries.map
            (fun e1 => if e1.EntryID = x then { e1 with bHasBeenRead := true } else e1) ∧
        ((runNotebook UNotebookComponent.new ops).MarkEntryAsRead x).1.GetUnreadCount =
          (runNotebook UNotebookComponent.new ops).GetUnreadCount - 1 ∧
        ((runNotebook UNotebookComponent.new ops).MarkEntryAsRead x).2 =
          [NotebookEvent.OnNotebookEntryRead { e with bHasBeenRead := true }]) := by
  obtain ⟨hnd, hcnt⟩ := runNotebook_new_invariant ops
  generalize runNotebook UNotebookComponent.new ops = nb at hnd hcnt
  constructor
  · intro h
    have hall : ∀ e ∈ nb.Entries, e.EntryID = x → e.bHasBeenRead = true := by
      intro e he hx
      rcases h with h | ⟨e0, he0, hx0, hr0⟩
      · exact absurd ⟨e, he, hx⟩ h
      · rw [← eq_of_EntryID_eq nb.Entries hnd e0 e he0 he (hx0.trans hx.symm)]
        exact hr0
    have hn := (UNotebookComponent.MarkEntryAsReadLoop_eq_none_iff nb.Entries x).mpr hall
    simp [UNotebookComponent.MarkEntryAsRead, hn]
  · intro e he hx hr
    cases hl : UNotebookComponent.MarkEntryAsReadLoop nb.Entries x with
    | none =>
      have := (UNotebookComponent.MarkEntryAsReadLoop_eq_none_iff nb.Entries x).mp hl e he hx
      rw [hr] at this
      exact absurd this (by simp)
    | some r =>
      obtain ⟨r1, m⟩ := r
      obtain ⟨i1, ⟨e0, he0, hx0, hr0, hm⟩, i3⟩ :=
        UNotebookComponent.MarkEntryAsReadLoop_eq_some nb.Entries x hnd r1 m hl
      have heq : e0 = e := eq_of_EntryID_eq nb.Entries hnd e0 e he0 he (hx0.trans hx.symm)
      subst heq
      simp only [UNotebookComponent.MarkEntryAsRead, hl, UNotebookComponent.UpdateUnreadCount,
        UNotebookComponent.UpdateUnreadCountLoop_eq, UNotebookComponent.GetUnreadCount,
        zero_add]
      refine ⟨i1, ?_, by rw [hm]⟩
      rw [hcnt]
      omega

/-- Witness for C5: in the notebook reached by adding `clue1`, marking the
absent `clue9` changes nothing, and marking `clue1` lowers the unread count. -/
theorem MarkEntryAsRead_spec_witness :
    (¬ ∃ e ∈ (runNotebook UNotebookComponent.new [NotebookOp.AddEntry 1 clue1]).Entries,
        e.EntryID = "clue9") ∧
      (runNotebook UNotebookComponent.new [NotebookOp.AddEntry 1 clue1]).MarkEntryAsRead "clue9" =
        (runNotebook UNotebookComponent.new [NotebookOp.AddEntry 1 clue1], []) ∧
      ({ clue1 with Timestamp := 1 } ∈
        (runNotebook UNotebookComponent.new [NotebookOp.AddEntry 1 clue1]).Entries) ∧
      ((runNotebook UNotebookComponent.new
          [NotebookOp.AddEntry 1 clue1]).MarkEntryAsRead "clue1").1.GetUnreadCount =
        (runNotebook UNotebookComponent.new [NotebookOp.AddEntry 1 clue1]).GetUnreadCount - 1 :=
  have h1 : ¬ ∃ e ∈ (runNotebook UNotebookComponent.new [NotebookOp.AddEntry 1 clue1]).Entries,
      e.EntryID = "clue9" := by
    rintro ⟨e, he, hx⟩
    rw [show (runNotebook UNotebookComponent.new [NotebookOp.AddEntry 1 clue1]).Entries =
      [{ clue1 with Timestamp := 1 }] from rfl, List.mem_singleton] at he
    subst he
    exact absurd hx (by decide)
  have h2 : { clue1 with Timestamp := 1 } ∈
      (runNotebook UNotebookComponent.new [NotebookOp.AddEntry 1 clue1]).Entries :=
    List.mem_singleton.mpr rfl
  ⟨h1, (MarkEntryAsRead_spec [NotebookOp.AddEntry 1 clue1] "clue9").1 (Or.inl h1), h2,
    ((MarkEntryAsRead_spec [NotebookOp.AddEntry 1 clue1] "clue1").2 _ h2 rfl rfl).2.1⟩

/-! ## Lemmas on the room-flip methods -/

namespace ARoomFlipActor

theorem Clamp_mem (X : ℚ) : 0 ≤ FMath.Clamp X 0 1 ∧ FMath.Clamp X 0 1 ≤ 1 := by
  unfold FMath.Clamp
  constructor
  · exact le_max_right _ _
  · exact max_le (min_le_right _ _) zero_le_one

/-- The fields `DetachPlayerFromRoom` touches are the two player references. -/
theorem DetachPlayerFromRoom_fields (a : ARoomFlipActor) :
    a.DetachPlayerFromRoom.1 = { a with AttachedPlayer := none, PlayerController := none } := by
  unfold DetachPlayerFromRoom
  cases h : a.AttachedPlayer <;> simp [h]

/-- The progress after `UpdateRotation` is the clamped sum, on both branches. -/
theorem UpdateRotation_progress (a : ARoomFlipActor) (DeltaTime : ℚ) :
    (a.UpdateRotation DeltaTime).1.RotationProgress =
      FMath.Clamp (a.RotationProgress + DeltaTime / a.RotationDuration) 0 1 := by
  unfold UpdateRotation
  simp only []
  split
  · cases h1 : a.AttachedPlayer <;> cases h2 : a.bCanFlipMultipleTimes <;>
      cases h3 : a.bReverseEachFlip <;> simp [h1, h2, h3, DetachPlayerFromRoom]
  · rfl

/-- The fields `UpdateRotation` never writes. -/
theorem UpdateRotation_fixed (a : ARoomFlipActor) (DeltaTime : ℚ) :
    (a.UpdateRotation DeltaTime).1.FlipCount = a.FlipCount ∧
      (a.UpdateRotation DeltaTime).1.RotationDuration = a.RotationDuration ∧
      (a.UpdateRotation DeltaTime).1.StartRotation = a.StartRotation ∧
      (a.UpdateRotation DeltaTime).1.TargetRotation = a.TargetRotation ∧
      (a.UpdateRotation DeltaTime).1.bCanFlipMultipleTimes = a.bCanFlipMultipleTimes ∧
      (a.UpdateRotation DeltaTime).1.bReverseEachFlip = a.bReverseEachFlip := by
  unfold UpdateRotation
  simp only []
  split
  · cases h1 : a.AttachedPlayer <;> cases h2 : a.bCanFlipMultipleTimes <;>
      cases h3 : a.bReverseEachFlip <;> simp [h1, h2, h3, DetachPlayerFromRoom]
  · simp

/-- The branch of `UpdateRotation` taken when the clamped progress stays below 1. -/
theorem UpdateRotation_running (a : ARoomFlipActor) (DeltaTime : ℚ)
    (h : (a.UpdateRotation DeltaTime).1.RotationProgress ≠ 1) :
    (a.UpdateRotation DeltaTime).1.CurrentState = a.CurrentState ∧
      (a.UpdateRotation DeltaTime).1.RotationAngle = a.RotationAngle ∧
      (a.UpdateRotation DeltaTime).1.AttachedPlayer = a.AttachedPlayer ∧
      (a.UpdateRotation DeltaTime).1.PlayerController = a.PlayerController ∧
      (a.UpdateRotation DeltaTime).2 =
        [RoomFlipEvent.OnRoomFlipProgress (a.UpdateRotation DeltaTime).1.RotationProgress,
         RoomFlipEvent.BP_OnFlipProgress (a.UpdateRotation DeltaTime).1.RotationProgress] := by
  rw [UpdateRotation_progress] at h ⊢
  have hle := (Clamp_mem (a.RotationProgress + DeltaTime / a.RotationDuration)).2
  have hlt : ¬ FMath.Clamp (a.RotationProgress + DeltaTime / a.RotationDuration) 0 1 ≥ 1 :=
    fun hge => h (le_antisymm hle hge)
  unfold UpdateRotation
  simp only [if_neg hlt, and_self]

/-- The branch of `UpdateRotation` taken when the clamped progress is 1. -/
theorem UpdateRotation_completing (a : ARoomFlipActor) (DeltaTime : ℚ)
    (h : (a.UpdateRotation DeltaTime).1.RotationProgress = 1) :
    (a.UpdateRotation DeltaTime).1.CurrentState =
        (if a.bCanFlipMultipleTimes then ERoomFlipState.Idle else ERoomFlipState.Completed) ∧
      (a.UpdateRotation DeltaTime).1.RotationAngle =
        (if a.bCanFlipMultipleTimes ∧ a.bReverseEachFlip then -a.RotationAngle
          else a.RotationAngle) ∧
      (a.UpdateRotation DeltaTime).1.AttachedPlayer = none ∧
      RoomFlipEvent.OnRoomFlipCompleted ∈ (a.UpdateRotation DeltaTime).2 := by
  rw [UpdateRotation_progress] at h
  have hge : FMath.Clamp (a.RotationProgress + DeltaTime / a.RotationDuration) 0 1 ≥ 1 :=
    le_of_eq h.symm
  unfold UpdateRotation
  simp only [if_pos hge]
  cases h1 : a.AttachedPlayer <;> cases h2 : a.bCanFlipMultipleTimes <;>
    cases h3 : a.bReverseEachFlip <;> simp [h1, h2, h3, DetachPlayerFromRoom]

/-- The fields `AttachPlayerToRoom` touches are the two player references. -/
theorem AttachPlayerToRoom_fields (a : ARoomFlipActor) (World : UWorld) :
    (a.AttachPlayerToRoom World).1 =
      { a with
        AttachedPlayer := (a.AttachPlayerToRoom World).1.AttachedPlayer,
        PlayerController := (a.AttachPlayerToRoom World).1.PlayerController } := by
  unfold AttachPlayerToRoom
  simp only []
  cases h : UGameplayStatics.GetPlayerController World with
  | none => simp
  | some pc => cases h2 : pc.GetPawn <;> simp [h2]

/-- The room after a successful `TriggerFlip`, up to the two player references. -/
theorem TriggerFlip_success (a : ARoomFlipActor) (World : UWorld) (h : a.CanFlip = true) :
    (a.TriggerFlip World).1 = true ∧
      (a.TriggerFlip World).2.1 =
        { a with
          CurrentState := ERoomFlipState.Rotating,
          RotationProgress := 0,
          FlipCount := a.FlipCount + 1,
          StartRotation := a.RoomRoot.GetComponentRotation,
          TargetRotation :=
            ({ a with StartRotation := a.RoomRoot.GetComponentRotation }).CalculateTargetRotation,
          AttachedPlayer := (a.TriggerFlip World).2.1.AttachedPlayer,
          PlayerController := (a.TriggerFlip World).2.1.PlayerController } := by
  unfold TriggerFlip
  simp only [h, Bool.not_true, Bool.false_eq_true, if_false, true_and]
  cases hb : a.bAttachPlayer
  · simp [CalculateTargetRotation]
  · simp only [if_true]
    rw [AttachPlayerToRoom_fields]
    simp [CalculateTargetRotation]

/-- A refused `TriggerFlip` returns the room as it was, with no event. -/
theorem TriggerFlip_refused (a : ARoomFlipActor) (World : UWorld) (h : a.CanFlip = false) :
    a.TriggerFlip World = (false, a, []) := by
  unfold TriggerFlip
  simp [h]

end ARoomFlipActor

/-- One call keeps the progress within the unit interval. -/
theorem RoomFlipOp.run_progress (a : ARoomFlipActor) (op : RoomFlipOp)
    (h : 0 ≤ a.RotationProgress ∧ a.RotationProgress ≤ 1) :
    0 ≤ (op.run a).RotationProgress ∧ (op.run a).RotationProgress ≤ 1 := by
  cases op with
  | TriggerFlip World =>
    simp only [RoomFlipOp.run]
    cases hc : a.CanFlip
    · rw [ARoomFlipActor.TriggerFlip_refused a World hc]
      exact h
    · rw [(ARoomFlipActor.TriggerFlip_success a World hc).2]
      simp
  | Tick DeltaTime =>
    simp only [RoomFlipOp.run, ARoomFlipActor.Tick]
    split
    · rw [ARoomFlipActor.UpdateRotation_progress]
      exact ARoomFlipActor.Clamp_mem _
    · exact h
  | ResetRoom =>
    simp only [RoomFlipOp.run, ARoomFlipActor.ResetRoom]
    cases hp : a.AttachedPlayer <;> simp [hp, ARoomFlipActor.DetachPlayerFromRoom]

/-- A sequence of calls keeps the progress within the unit interval. -/
theorem runRoomFlip_progress (ops : List RoomFlipOp) (a : ARoomFlipActor)
    (h : 0 ≤ a.RotationProgress ∧ a.RotationProgress ≤ 1) :
    0 ≤ (runRoomFlip a ops).RotationProgress ∧ (runRoomFlip a ops).RotationProgress ≤ 1 := by
  induction ops generalizing a with
  | nil => exact h
  | cons op ops ih => exact ih (op.run a) (RoomFlipOp.run_progress a op h)

/-! ## Room flip: TriggerFlip, Tick and the progress invariant -/

/-- C6. `TriggerFlip` returns false exactly when `CanFlip` is false, which is
exactly when the phase is Rotating, or Completed with repeatable-flip disabled
(so `CanFlip` is true when Idle); and a `TriggerFlip` that returns false leaves
the whole room state as it was and emits no event. -/
theorem TriggerFlip_false_iff (a : ARoomFlipActor) (World : UWorld) :
    ((a.TriggerFlip World).1 = false ↔ a.CanFlip = false) ∧
      (a.CanFlip = false ↔
        (a.CurrentState = ERoomFlipState.Rotating ∨
          (a.CurrentState = ERoomFlipState.Completed ∧ a.bCanFlipMultipleTimes = false))) ∧
      (a.CurrentState = ERoomFlipState.Idle → a.CanFlip = true) ∧
      ((a.TriggerFlip World).1 = false →
        (a.TriggerFlip World).2.1 = a ∧ (a.TriggerFlip World).2.2 = []) := by
  have h1 : (a.TriggerFlip World).1 = false ↔ a.CanFlip = false := by
    cases hc : a.CanFlip
    · simp [ARoomFlipActor.TriggerFlip_refused a World hc]
    · simp [(ARoomFlipActor.TriggerFlip_success a World hc).1]
  refine ⟨h1, ?_, ?_, ?_⟩
  · unfold ARoomFlipActor.CanFlip
    cases a.CurrentState <;> cases a.bCanFlipMultipleTimes <;> simp
  · intro hi
    simp [ARoomFlipActor.CanFlip, hi]
  · intro hf
    rw [ARoomFlipActor.TriggerFlip_refused a World (h1.mp hf)]
    exact ⟨rfl, rfl⟩

/-- Witness for C6: a second `TriggerFlip` while the default room is rotating. -/
theorem TriggerFlip_false_iff_witness :
    ((defaultRoom.TriggerFlip sampleWorld).2.1.TriggerFlip sampleWorld).1 = false ∧
      ((defaultRoom.TriggerFlip sampleWorld).2.1.TriggerFlip sampleWorld).2.1 =
        (defaultRoom.TriggerFlip sampleWorld).2.1 ∧
      ((defaultRoom.TriggerFlip sampleWorld).2.1.TriggerFlip sampleWorld).2.2 = [] :=
  have hf : ((defaultRoom.TriggerFlip sampleWorld).2.1.TriggerFlip sampleWorld).1 = false := rfl
  ⟨hf, (TriggerFlip_false_iff (defaultRoom.TriggerFlip sampleWorld).2.1 sampleWorld).2.2.2 hf⟩

/-- C8. In every state reached from the initial state of a room (constructor,
then `BeginPlay`) whose rotation duration is positive, by any sequence of
`TriggerFlip`, `Tick` with any delta time, and `ResetRoom`, the rotation
progress lies in the closed interval from 0 to 1. -/
theorem RotationProgress_mem_unit (a : ARoomFlipActor) (ops : List RoomFlipOp)
    (_h : 0 < a.RotationDuration) :
    0 ≤ (runRoomFlip a.construct.BeginPlay ops).GetRotationProgress ∧
      (runRoomFlip a.construct.BeginPlay ops).GetRotationProgress ≤ 1 :=
  runRoomFlip_progress ops a.construct.BeginPlay
    (by simp [ARoomFlipActor.construct, ARoomFlipActor.BeginPlay])

/-- Witness for C8: the default room (duration 3) after a trigger and a tick
of 5 seconds, a tick of -2 seconds and a reset. -/
theorem RotationProgress_mem_unit_witness :
    0 < (ARoomFlipActor.classDefaults { Pitch := 0, Yaw := 0, Roll := 0 }).RotationDuration ∧
      0 ≤ (runRoomFlip
        (ARoomFlipActor.classDefaults { Pitch := 0, Yaw := 0, Roll := 0 }).construct.BeginPlay
        [RoomFlipOp.TriggerFlip sampleWorld, RoomFlipOp.Tick 5, RoomFlipOp.Tick (-2),
          RoomFlipOp.ResetRoom]).GetRotationProgress ∧
      (runRoomFlip
        (ARoomFlipActor.classDefaults { Pitch := 0, Yaw := 0, Roll := 0 }).construct.BeginPlay
        [RoomFlipOp.TriggerFlip sampleWorld, RoomFlipOp.Tick 5, RoomFlipOp.Tick (-2),
          RoomFlipOp.ResetRoom]).GetRotationProgress ≤ 1 :=
  have hd : 0 <
      (ARoomFlipActor.classDefaults { Pitch := 0, Yaw := 0, Roll := 0 }).RotationDuration := by
    simp [ARoomFlipActor.classDefaults]
  ⟨hd, RotationProgress_mem_unit _ _ hd⟩

/-- C9. A `Tick` in phase Rotating leaves the phase Rotating (and the angle as
it is, with no flip-completed event) unless the progress after the tick is
exactly 1; when it is 1 the flip-completed event is emitted, the phase becomes
Completed if repeatable-flip is disabled and Idle if it is enabled, and the
configured angle is negated when both repeatable-flip and reverse-each-flip are
enabled and stays as it is otherwise. No `Tick` changes the flip counter, and a
`Tick` in phase Idle or Completed changes nothing and emits nothing. -/
theorem Tick_phase_spec (a : ARoomFlipActor) (DeltaTime : ℚ) :
    (a.CurrentState = ERoomFlipState.Rotating →
      ((a.Tick DeltaTime).1.RotationProgress ≠ 1 →
        (a.Tick DeltaTime).1.CurrentState = ERoomFlipState.Rotating ∧
          (a.Tick DeltaTime).1.RotationAngle = a.RotationAngle ∧
          RoomFlipEvent.OnRoomFlipCompleted ∉ (a.Tick DeltaTime).2) ∧
      ((a.Tick DeltaTime).1.RotationProgress = 1 →
        RoomFlipEvent.OnRoomFlipCompleted ∈ (a.Tick DeltaTime).2 ∧
          (a.bCanFlipMultipleTimes = false →
            (a.Tick DeltaTime).1.CurrentState = ERoomFlipState.Completed) ∧
          (a.bCanFlipMultipleTimes = true →
            (a.Tick DeltaTime).1.CurrentState = ERoomFlipState.Idle) ∧
          (a.bCanFlipMultipleTimes = true ∧ a.bReverseEachFlip = true →
            (a.Tick DeltaTime).1.RotationAngle = -a.RotationAngle) ∧
          (¬ (a.bCanFlipMultipleTimes = true ∧ a.bReverseEachFlip = true) →
            (a.Tick DeltaTime).1.RotationAngle = a.RotationAngle))) ∧
      (a.Tick DeltaTime).1.FlipCount = a.FlipCount ∧
      (a.CurrentState ≠ ERoomFlipState.Rotating → a.Tick DeltaTime = (a, [])) := by
  refine ⟨?_, ?_, ?_⟩
  · intro hs
    have ht : a.Tick DeltaTime = a.UpdateRotation DeltaTime := by
      simp [ARoomFlipActor.Tick, hs]
    rw [ht]
    constructor
    · intro hp
      obtain ⟨r1, r2, -, -, r5⟩ := ARoomFlipActor.UpdateRotation_running a DeltaTime hp
      refine ⟨r1.trans hs, r2, ?_⟩
      rw [r5]
      simp
    · intro hp
      obtain ⟨c1, c2, -, c4⟩ := ARoomFlipActor.UpdateRotation_completing a DeltaTime hp
      refine ⟨c4, ?_, ?_, ?_, ?_⟩
      · intro hm; rw [c1]; simp [hm]
      · intro hm; rw [c1]; simp [hm]
      · intro hm; rw [c2, if_pos hm]
      · intro hm; rw [c2, if_neg hm]
  · unfold ARoomFlipActor.Tick
    split
    · exact (ARoomFlipActor.UpdateRotation_fixed a DeltaTime).1
    · rfl
  · intro hs
    simp [ARoomFlipActor.Tick, hs]

/-- Witness for C9: the default room (not repeatable, duration 3), triggered
and then ticked by 3 seconds, completes. -/
theorem Tick_phase_spec_witness :
    (defaultRoom.TriggerFlip sampleWorld).2.1.CurrentState = ERoomFlipState.Rotating ∧
      ((defaultRoom.TriggerFlip sampleWorld).2.1.Tick 3).1.RotationProgress = 1 ∧
      RoomFlipEvent.OnRoomFlipCompleted ∈ ((defaultRoom.TriggerFlip sampleWorld).2.1.Tick 3).2 ∧
      ((defaultRoom.TriggerFlip sampleWorld).2.1.Tick 3).1.CurrentState =
        ERoomFlipState.Completed :=
  have hs : (defaultRoom.TriggerFlip sampleWorld).2.1.CurrentState = ERoomFlipState.Rotating :=
    rfl
  have hp : ((defaultRoom.TriggerFlip sampleWorld).2.1.Tick 3).1.RotationProgress = 1 := by
    rw [show (defaultRoom.TriggerFlip sampleWorld).2.1.Tick 3 =
      (defaultRoom.TriggerFlip sampleWorld).2.1.UpdateRotation 3 from rfl,
      ARoomFlipActor.UpdateRotation_progress]
    rw [show (defaultRoom.TriggerFlip sampleWorld).2.1.RotationProgress = 0 from rfl,
      show (defaultRoom.TriggerFlip sampleWorld).2.1.RotationDuration = 3 from rfl]
    norm_num [FMath.Clamp]
  ⟨hs, hp,
    (((Tick_phase_spec (defaultRoom.TriggerFlip sampleWorld).2.1 3).1 hs).2 hp).1,
    (((Tick_phase_spec (defaultRoom.TriggerFlip sampleWorld).2.1 3).1 hs).2 hp).2.1 rfl⟩

/-- C10 (what the code does). A `Tick` on a rotating room that has a pawn
attached never emits `EnableInput`, whatever the delta time: when the flip
completes, `DetachPlayerFromRoom` has cleared `PlayerController` before the
re-enable test reads it. The controller reference is gone afterwards. -/
theorem Tick_attached_never_EnableInput (a : ARoomFlipActor) (DeltaTime : ℚ) (Pawn : APawn)
    (hs : a.CurrentState = ERoomFlipState.Rotating) (hp : a.AttachedPlayer = some Pawn) :
    (∀ pc, RoomFlipEvent.EnableInput pc ∉ (a.Tick DeltaTime).2) ∧
      ((a.Tick DeltaTime).1.RotationProgress = 1 →
        (a.Tick DeltaTime).1.PlayerController = none) := by
  have ht : a.Tick DeltaTime = a.UpdateRotation DeltaTime := by
    simp [ARoomFlipActor.Tick, hs]
  rw [ht]
  by_cases h1 : (a.UpdateRotation DeltaTime).1.RotationProgress = 1
  · have hge : FMath.Clamp (a.RotationProgress + DeltaTime / a.RotationDuration) 0 1 ≥ 1 := by
      rw [ARoomFlipActor.UpdateRotation_progress] at h1
      exact le_of_eq h1.symm
    unfold ARoomFlipActor.UpdateRotation
    simp only [if_pos hge]
    cases h2 : a.bCanFlipMultipleTimes <;> cases h3 : a.bReverseEachFlip <;>
      cases h4 : a.bDisablePlayerInput <;>
      simp [hp, h2, h3, h4, ARoomFlipActor.DetachPlayerFromRoom]
  · obtain ⟨-, -, -, -, r5⟩ := ARoomFlipActor.UpdateRotation_running a DeltaTime h1
    refine ⟨?_, fun h => absurd h h1⟩
    intro pc
    rw [r5]
    simp

/-- Witness for C10: the default room in `sampleWorld`. `TriggerFlip` attaches
pawn 7 and disables the input of `samplePlayerController`; the tick of 3 seconds
completes the flip, emits the flip-completed event and no `EnableInput`. -/
theorem Tick_attached_never_EnableInput_witness :
    (defaultRoom.TriggerFlip sampleWorld).2.1.CurrentState = ERoomFlipState.Rotating ∧
      (defaultRoom.TriggerFlip sampleWorld).2.1.AttachedPlayer = some 7 ∧
      RoomFlipEvent.DisableInput samplePlayerController ∈
        (defaultRoom.TriggerFlip sampleWorld).2.2 ∧
      ((defaultRoom.TriggerFlip sampleWorld).2.1.Tick 3).1.RotationProgress = 1 ∧
      RoomFlipEvent.EnableInput samplePlayerController ∉
        ((defaultRoom.TriggerFlip sampleWorld).2.1.Tick 3).2 :=
  have hp : ((defaultRoom.TriggerFlip sampleWorld).2.1.Tick 3).1.RotationProgress = 1 := by
    rw [show (defaultRoom.TriggerFlip sampleWorld).2.1.Tick 3 =
      (defaultRoom.TriggerFlip sampleWorld).2.1.UpdateRotation 3 from rfl,
      ARoomFlipActor.UpdateRotation_progress]
    rw [show (defaultRoom.TriggerFlip sampleWorld).2.1.RotationProgress = 0 from rfl,
      show (defaultRoom.TriggerFlip sampleWorld).2.1.RotationDuration = 3 from rfl]
    norm_num [FMath.Clamp]
  ⟨rfl, rfl, by
    rw [show (defaultRoom.TriggerFlip sampleWorld).2.2 =
      [RoomFlipEvent.AttachToComponent 7, RoomFlipEvent.DisableInput samplePlayerController,
        RoomFlipEvent.OnRoomFlipStarted, RoomFlipEvent.BP_OnFlipStarted] from rfl]
    simp, hp,
    (Tick_attached_never_EnableInput (defaultRoom.TriggerFlip sampleWorld).2.1 3 7 rfl rfl).1
      samplePlayerController⟩

/-! ## Collectible: CanInteract, OnInteract and PerformCollection -/

/-- C11. `CanInteract` is false exactly when the collectible is already
collected with multi-collect disabled, or the player controller is absent; and
whenever `CanInteract` is false, `OnInteract` returns false, makes no call (so
no `AddEntry`), and leaves the collectible and every notebook as they were. -/
theorem CanInteract_false_iff (c : ACollectibleActor) (Notebooks : NotebookStore)
    (TimeSeconds : ℚ) (PlayerController : Option APlayerController) :
    (c.CanInteract PlayerController = false ↔
        ((c.bHasBeenCollected = true ∧ c.bCanBeCollectedMultipleTimes = false) ∨
          PlayerController = none)) ∧
      (c.CanInteract PlayerController = false →
        c.OnInteract Notebooks TimeSeconds PlayerController = (false, c, Notebooks, [])) := by
  constructor
  · unfold ACollectibleActor.CanInteract
    cases c.bHasBeenCollected <;> cases c.bCanBeCollectedMultipleTimes <;>
      cases PlayerController <;> simp
  · intro h
    simp [ACollectibleActor.OnInteract, h]

/-- Witness for C11: a collected, single-collect `clue1Collectible` refuses the
sample player and leaves the notebooks alone. -/
theorem CanInteract_false_iff_witness :
    ({ clue1Collectible with bHasBeenCollected := true } : ACollectibleActor).CanInteract
        (some samplePlayerController) = false ∧
      ({ clue1Collectible with bHasBeenCollected := true } : ACollectibleActor).OnInteract
          sampleNotebooks 4 (some samplePlayerController) =
        (false, { clue1Collectible with bHasBeenCollected := true }, sampleNotebooks, []) :=
  ⟨rfl, (CanInteract_false_iff { clue1Collectible with bHasBeenCollected := true }
    sampleNotebooks 4 (some samplePlayerController)).2 rfl⟩

/-- C12 (what the code does). For a collectible that can be interacted with and
a present player controller: when the controller has no pawn, or the pawn has no
notebook component, or the entry template has the ID `NAME_None`, `OnInteract`
leaves the collectible and every notebook unchanged and makes no call, and it
returns true, not false. -/
theorem OnInteract_aborted_returns_true (c : ACollectibleActor) (Notebooks : NotebookStore)
    (TimeSeconds : ℚ) (pc : APlayerController)
    (hcan : c.CanInteract (some pc) = true)
    (h : pc.GetPawn = none ∨ (∃ Pawn, pc.GetPawn = some Pawn ∧ Notebooks Pawn = none) ∨
      c.NotebookEntry.EntryID = NAME_None) :
    c.OnInteract Notebooks TimeSeconds (some pc) = (true, c, Notebooks, []) := by
  unfold ACollectibleActor.OnInteract ACollectibleActor.PerformCollection
  simp only [hcan, Bool.not_true, Bool.false_eq_true, if_false]
  rcases h with h | ⟨Pawn, h1, h2⟩ | h
  · simp [h]
  · simp [h1, h2]
  · cases hp : pc.GetPawn with
    | none => simp
    | some Pawn => cases hn : Notebooks Pawn <;> simp [hn, h]

/-- Witness for C12: `clue1Collectible` and a player controller without a pawn. -/
theorem OnInteract_aborted_returns_true_witness :
    clue1Collectible.CanInteract (some pawnlessPlayerController) = true ∧
      pawnlessPlayerController.GetPawn = none ∧
      (clue1Collectible.OnInteract sampleNotebooks 4 (some pawnlessPlayerController)).1 = true ∧
      (clue1Collectible.OnInteract sampleNotebooks 4 (some pawnlessPlayerController)).2 =
        (clue1Collectible, sampleNotebooks, []) :=
  ⟨rfl, rfl,
    congrArg Prod.fst (OnInteract_aborted_returns_true clue1Collectible sampleNotebooks 4
      pawnlessPlayerController rfl (Or.inl rfl)),
    congrArg Prod.snd (OnInteract_aborted_returns_true clue1Collectible sampleNotebooks 4
      pawnlessPlayerController rfl (Or.inl rfl))⟩

/-- The collected flag after `PerformCollection` is the old flag, or true when
the pawn's notebook existed, the template ID was set and `AddEntry` succeeded. -/
theorem PerformCollection_collected (c : ACollectibleActor) (Notebooks : NotebookStore)
    (TimeSeconds : ℚ) (Collector : Option APlayerController)
    (h0 : c.bHasBeenCollected = false)
    (h1 : (c.PerformCollection Notebooks TimeSeconds Collector).1.bHasBeenCollected = true) :
    ∃ pc Pawn nb, Collector = some pc ∧ pc.GetPawn = some Pawn ∧ Notebooks Pawn = some nb ∧
      c.NotebookEntry.EntryID ≠ NAME_None ∧
      (nb.AddEntry TimeSeconds c.NotebookEntry).1 = true := by
  unfold ACollectibleActor.PerformCollection at h1
  cases Collector with
  | none => simp [h0] at h1
  | some pc =>
    cases hp : pc.GetPawn with
    | none => simp [hp, h0] at h1
    | some Pawn =>
      cases hn : Notebooks Pawn with
      | none => simp [hp, hn, h0] at h1
      | some nb =>
        by_cases hid : c.NotebookEntry.EntryID = NAME_None
        · simp [hp, hn, hid, h0] at h1
        · cases hr : (nb.AddEntry TimeSeconds c.NotebookEntry).1
          · simp [hp, hn, hid, hr, h0] at h1
          · exact ⟨pc, Pawn, nb, rfl, hp, hn, hid, hr⟩

/-- C13. For a collectible that is not yet collected, whose template ID is not
`NAME_None`, and a player whose pawn owns a notebook without that ID,
`OnInteract` appends the template (unread, stamped) to that notebook and raises
its unread count by one, leaves every other notebook alone, sets the collected
flag, and fires `BP_OnCollected` exactly once; with destroy-on-collect it then
hides the mesh, disables collision and starts the destroy timer with
`DestroyDelay`, and without it does none of these. The collected flag turns from
false to true in `OnInteract` only when `AddEntry` succeeded on the pawn's
notebook, and the two focus callbacks never change it. -/
theorem OnInteract_collects (c : ACollectibleActor) (Notebooks : NotebookStore)
    (TimeSeconds : ℚ) :
    (∀ (pc : APlayerController) (Pawn : APawn) (nb : UNotebookComponent),
      c.bHasBeenCollected = false → c.NotebookEntry.EntryID ≠ NAME_None →
      pc.GetPawn = some Pawn → Notebooks Pawn = some nb →
      (∀ e ∈ nb.Entries, e.EntryID ≠ c.NotebookEntry.EntryID) →
      (c.OnInteract Notebooks TimeSeconds (some pc)).1 = true ∧
        (c.OnInteract Notebooks TimeSeconds (some pc)).2.1 =
          { c with bHasBeenCollected := true } ∧
        (c.OnInteract Notebooks TimeSeconds (some pc)).2.2.1 Pawn =
          some { Entries := nb.Entries ++
                  [{ c.NotebookEntry with Timestamp := TimeSeconds, bHasBeenRead := false }],
                 UnreadCount := nb.UnreadCount + 1 } ∧
        (∀ Other, Other ≠ Pawn →
          (c.OnInteract Notebooks TimeSeconds (some pc)).2.2.1 Other = Notebooks Other) ∧
        (c.OnInteract Notebooks TimeSeconds (some pc)).2.2.2 =
          [CollectibleEvent.AddEntry Pawn c.NotebookEntry,
           CollectibleEvent.Notebook Pawn
             (NotebookEvent.OnNotebookEntryAdded
               { c.NotebookEntry with Timestamp := TimeSeconds, bHasBeenRead := false }
               (nb.UnreadCount + 1)),
           CollectibleEvent.BP_OnCollected pc] ++
          (if c.bDestroyOnCollect then
            [CollectibleEvent.SetVisibility false,
             CollectibleEvent.SetActorEnableCollision false,
             CollectibleEvent.SetTimer c.DestroyDelay]
           else []) ∧
        ((c.OnInteract Notebooks TimeSeconds (some pc)).2.2.2.filter
          (fun ev => ev = CollectibleEvent.BP_OnCollected pc)).length = 1) ∧
    (∀ (PlayerController : Option APlayerController),
      c.bHasBeenCollected = false →
      (c.OnInteract Notebooks TimeSeconds PlayerController).2.1.bHasBeenCollected = true →
      ∃ pc Pawn nb, PlayerController = some pc ∧ pc.GetPawn = some Pawn ∧
        Notebooks Pawn = some nb ∧ c.NotebookEntry.EntryID ≠ NAME_None ∧
        (nb.AddEntry TimeSeconds c.NotebookEntry).1 = true) ∧
    (∀ (PlayerController : Option APlayerController),
      (c.OnInteractionFocus PlayerController).1.bHasBeenCollected = c.bHasBeenCollected ∧
        (c.OnInteractionFocusLost PlayerController).1.bHasBeenCollected =
          c.bHasBeenCollected) := by
  refine ⟨?_, ?_, ?_⟩
  · intro pc Pawn nb h0 hid hp hn hnew
    have hcan : c.CanInteract (some pc) = true := by
      simp [ACollectibleActor.CanInteract, h0]
    have hh : UNotebookComponent.HasEntryLoop nb.Entries c.NotebookEntry.EntryID = false :=
      (UNotebookComponent.HasEntryLoop_eq_false_iff _ _).mpr hnew
    unfold ACollectibleActor.OnInteract ACollectibleActor.PerformCollection
    simp only [hcan, Bool.not_true, Bool.false_eq_true, if_false, hp, hn, if_neg hid,
      UNotebookComponent.AddEntry, UNotebookComponent.HasEntry, hh]
    refine ⟨trivial, ?_, ?_, ?_, ?_, ?_⟩
    · simp
    · simp
    · intro Other hne
      simp [Function.update_noteq hne]
    · cases c.bDestroyOnCollect <;> simp
    · cases c.bDestroyOnCollect <;> simp
  · intro PlayerController h0 h1
    unfold ACollectibleActor.OnInteract at h1
    cases hcan : c.CanInteract PlayerController
    · simp [hcan, h0] at h1
    · simp only [hcan, Bool.not_true, Bool.false_eq_true, if_false] at h1
      exact PerformCollection_collected c Notebooks TimeSeconds PlayerController h0 h1
  · intro PlayerController
    exact ⟨rfl, rfl⟩

/-- Witness for C13: the sample player picks up `clue1Collectible`; pawn 7 owns
an empty notebook. -/
theorem OnInteract_collects_witness :
    (clue1Collectible.OnInteract sampleNotebooks 4 (some samplePlayerController)).1 = true ∧
      (clue1Collectible.OnInteract sampleNotebooks 4
          (some samplePlayerController)).2.1.bHasBeenCollected = true ∧
      (clue1Collectible.OnInteract sampleNotebooks 4 (some samplePlayerController)).2.2.1 7 =
        some { Entries := [{ clue1 with Timestamp := 4, bHasBeenRead := false }],
               UnreadCount := 1 } :=
  have h := (OnInteract_collects clue1Collectible sampleNotebooks 4).1 samplePlayerController 7
    UNotebookComponent.new rfl (by decide) rfl rfl (by
      intro e he
      exact absurd he (List.not_mem_nil e))
  ⟨h.1, by rw [h.2.1], h.2.2.1⟩

/-- C14. For a collectible that is not yet collected and a player whose pawn
owns a notebook that already holds an entry with the template's ID, `OnInteract`
leaves that notebook, every other notebook and the collectible unchanged: the
collected flag stays false, `BP_OnCollected` is not fired, nothing is hidden,
no collision is disabled, no timer is started, and `CanInteract` for that
player is still true afterwards. -/
theorem OnInteract_duplicate (c : ACollectibleActor) (Notebooks : NotebookStore)
    (TimeSeconds : ℚ) (pc : APlayerController) (Pawn : APawn) (nb : UNotebookComponent)
    (h0 : c.bHasBeenCollected = false) (hp : pc.GetPawn = some Pawn)
    (hn : Notebooks Pawn = some nb)
    (hdup : ∃ e ∈ nb.Entries, e.EntryID = c.NotebookEntry.EntryID) :
    (c.OnInteract Notebooks TimeSeconds (some pc)).2.1 = c ∧
      (c.OnInteract Notebooks TimeSeconds (some pc)).2.2.1 = Notebooks ∧
      (c.OnInteract Notebooks TimeSeconds (some pc)).2.1.bHasBeenCollected = false ∧
      (∀ ev ∈ (c.OnInteract Notebooks TimeSeconds (some pc)).2.2.2,
        ev = CollectibleEvent.AddEntry Pawn c.NotebookEntry) ∧
      (∀ Collector, CollectibleEvent.BP_OnCollected Collector ∉
        (c.OnInteract Notebooks TimeSeconds (some pc)).2.2.2) ∧
      (∀ b, CollectibleEvent.SetVisibility b ∉
          (c.OnInteract Notebooks TimeSeconds (some pc)).2.2.2 ∧
        CollectibleEvent.SetActorEnableCollision b ∉
          (c.OnInteract Notebooks TimeSeconds (some pc)).2.2.2) ∧
      (∀ d, CollectibleEvent.SetTimer d ∉
        (c.OnInteract Notebooks TimeSeconds (some pc)).2.2.2) ∧
      (c.OnInteract Notebooks TimeSeconds (some pc)).2.1.CanInteract (some pc) = true := by
  have hcan : c.CanInteract (some pc) = true := by
    simp [ACollectibleActor.CanInteract, h0]
  have hh : UNotebookComponent.HasEntryLoop nb.Entries c.NotebookEntry.EntryID = true :=
    (UNotebookComponent.HasEntryLoop_eq_true_iff _ _).mpr hdup
  have hupd : Function.update Notebooks Pawn (some nb) = Notebooks := by
    rw [← hn]
    exact Function.update_eq_self Pawn Notebooks
  have hres : c.OnInteract Notebooks TimeSeconds (some pc) =
      (true, c, Notebooks,
        if c.NotebookEntry.EntryID = NAME_None then []
        else [CollectibleEvent.AddEntry Pawn c.NotebookEntry]) := by
    unfold ACollectibleActor.OnInteract ACollectibleActor.PerformCollection
    simp only [hcan, Bool.not_true, Bool.false_eq_true, if_false, hp, hn,
      UNotebookComponent.AddEntry, UNotebookComponent.HasEntry, hh, if_true]
    by_cases hid : c.NotebookEntry.EntryID = NAME_None
    · simp [hid]
    · simp [hid, hupd]
  rw [hres]
  refine ⟨rfl, rfl, h0, ?_, ?_, ?_, ?_, hcan⟩
  · intro ev hev
    by_cases hid : c.NotebookEntry.EntryID = NAME_None
    · simp [hid] at hev
    · simpa [hid] using hev
  · intro Collector
    by_cases hid : c.NotebookEntry.EntryID = NAME_None <;> simp [hid]
  · intro b
    by_cases hid : c.NotebookEntry.EntryID = NAME_None <;> simp [hid]
  · intro d
    by_cases hid : c.NotebookEntry.EntryID = NAME_None <;> simp [hid]

/-- Witness for C14: the sample player interacts with `clue1Collectible` while
pawn 7's notebook already holds `clue1`. -/
theorem OnInteract_duplicate_witness :
    (clue1Collectible.OnInteract sampleNotebooksWithClue1 4
        (some samplePlayerController)).2.1 = clue1Collectible ∧
      (clue1Collectible.OnInteract sampleNotebooksWithClue1 4
        (some samplePlayerController)).2.2.1 = sampleNotebooksWithClue1 :=
  have h := OnInteract_duplicate clue1Collectible sampleNotebooksWithClue1 4
    samplePlayerController 7 notebookWithClue1 rfl rfl rfl
    ⟨{ clue1 with Timestamp := 1 }, List.mem_singleton.mpr rfl, rfl⟩
  ⟨h.1, h.2.1⟩

/-! ## Lemmas on the sprint controller -/

namespace AHorrorCharacter

/-- The draining branch of `SprintFixedTick` with stamina left. -/
theorem SprintFixedTick_drain (c : AHorrorCharacter) (Speed : ℚ)
    (h : c.bSprinting = true ∧ c.bRecovering = false ∧ Speed > c.WalkSpeed)
    (hm : c.SprintMeter > 0) :
    (c.SprintFixedTick Speed).1 =
      (if max (c.SprintMeter - c.SprintFixedTickTime) 0 ≤ 0 then
        { c with
          SprintMeter := max (c.SprintMeter - c.SprintFixedTickTime) 0,
          bRecovering := true,
          MaxWalkSpeed := c.RecoveringWalkSpeed }
      else { c with SprintMeter := max (c.SprintMeter - c.SprintFixedTickTime) 0 }) := by
  unfold SprintFixedTick
  simp only [if_pos h, if_pos hm, FMath.Max]
  split <;> rfl

/-- The draining branch of `SprintFixedTick` with no stamina left. -/
theorem SprintFixedTick_empty (c : AHorrorCharacter) (Speed : ℚ)
    (h : c.bSprinting = true ∧ c.bRecovering = false ∧ Speed > c.WalkSpeed)
    (hm : ¬ c.SprintMeter > 0) :
    (c.SprintFixedTick Speed).1 = c := by
  unfold SprintFixedTick
  simp only [if_pos h, if_neg hm]

/-- The refilling branch of `SprintFixedTick`. -/
theorem SprintFixedTick_refill (c : AHorrorCharacter) (Speed : ℚ)
    (h : ¬ (c.bSprinting = true ∧ c.bRecovering = false ∧ Speed > c.WalkSpeed)) :
    (c.SprintFixedTick Speed).1 =
      (if min (c.SprintMeter + c.SprintFixedTickTime) c.SprintTime ≥ c.SprintTime then
        { c with
          SprintMeter := min (c.SprintMeter + c.SprintFixedTickTime) c.SprintTime,
          bRecovering := false,
          MaxWalkSpeed := if c.bSprinting then c.SprintSpeed else c.WalkSpeed }
      else { c with SprintMeter := min (c.SprintMeter + c.SprintFixedTickTime) c.SprintTime }) := by
  unfold SprintFixedTick
  simp only [if_neg h, FMath.Min]
  split <;> rfl

/-- The last event of every `SprintFixedTick` is the meter update with the new
meter over `SprintTime`, and it is the only meter update. -/
theorem SprintFixedTick_events (c : AHorrorCharacter) (Speed : ℚ) (p : ℚ) :
    HorrorEvent.OnSprintMeterUpdated p ∈ (c.SprintFixedTick Speed).2 ↔
      p = (c.SprintFixedTick Speed).1.SprintMeter / (c.SprintFixedTick Speed).1.SprintTime := by
  unfold SprintFixedTick
  simp only []
  split_ifs <;> simp

/-- The properties no sprint call writes. -/
theorem SprintFixedTick_config (c : AHorrorCharacter) (Speed : ℚ) :
    (c.SprintFixedTick Speed).1.SprintTime = c.SprintTime ∧
      (c.SprintFixedTick Speed).1.SprintFixedTickTime = c.SprintFixedTickTime ∧
      (c.SprintFixedTick Speed).1.WalkSpeed = c.WalkSpeed ∧
      (c.SprintFixedTick Speed).1.SprintSpeed = c.SprintSpeed ∧
      (c.SprintFixedTick Speed).1.RecoveringWalkSpeed = c.RecoveringWalkSpeed ∧
      (c.SprintFixedTick Speed).1.bSprinting = c.bSprinting := by
  unfold SprintFixedTick
  simp only []
  split_ifs <;> simp

end AHorrorCharacter

/-- One sprint call keeps the configured values. -/
theorem SprintOp.run_config (c : AHorrorCharacter) (op : SprintOp) :
    (op.run c).SprintTime = c.SprintTime ∧
      (op.run c).SprintFixedTickTime = c.SprintFixedTickTime := by
  cases op with
  | DoStartSprint =>
    simp only [SprintOp.run, AHorrorCharacter.DoStartSprint]
    split <;> simp
  | DoEndSprint =>
    simp only [SprintOp.run, AHorrorCharacter.DoEndSprint]
    split <;> simp
  | SprintFixedTick Speed =>
    exact ⟨(AHorrorCharacter.SprintFixedTick_config c Speed).1,
      (AHorrorCharacter.SprintFixedTick_config c Speed).2.1⟩

/-- The toggles of the sprint control write neither the meter nor the
recovering flag. -/
theorem DoSprint_keeps (c : AHorrorCharacter) :
    c.DoStartSprint.1.SprintMeter = c.SprintMeter ∧
      c.DoStartSprint.1.bRecovering = c.bRecovering ∧
      c.DoEndSprint.1.SprintMeter = c.SprintMeter ∧
      c.DoEndSprint.1.bRecovering = c.bRecovering := by
  simp only [AHorrorCharacter.DoStartSprint, AHorrorCharacter.DoEndSprint]
  cases c.bRecovering <;> simp

/-- One `SprintFixedTick` keeps the meter between 0 and `SprintTime`. -/
theorem SprintFixedTick_bounds (c : AHorrorCharacter) (Speed : ℚ)
    (hT : 0 < c.SprintTime) (hd : 0 ≤ c.SprintFixedTickTime)
    (h : 0 ≤ c.SprintMeter ∧ c.SprintMeter ≤ c.SprintTime) :
    0 ≤ (c.SprintFixedTick Speed).1.SprintMeter ∧
      (c.SprintFixedTick Speed).1.SprintMeter ≤ c.SprintTime := by
  by_cases hb : c.bSprinting = true ∧ c.bRecovering = false ∧ Speed > c.WalkSpeed
  · by_cases hm : c.SprintMeter > 0
    · rw [AHorrorCharacter.SprintFixedTick_drain c Speed hb hm]
      have h1 : (0 : ℚ) ≤ max (c.SprintMeter - c.SprintFixedTickTime) 0 := le_max_right _ _
      have h2 : max (c.SprintMeter - c.SprintFixedTickTime) 0 ≤ c.SprintTime :=
        max_le (by linarith [h.2]) (le_of_lt hT)
      split <;> exact ⟨h1, h2⟩
    · rw [AHorrorCharacter.SprintFixedTick_empty c Speed hb hm]
      exact h
  · rw [AHorrorCharacter.SprintFixedTick_refill c Speed hb]
    have h1 : (0 : ℚ) ≤ min (c.SprintMeter + c.SprintFixedTickTime) c.SprintTime :=
      le_min (by linarith [h.1]) (le_of_lt hT)
    have h2 : min (c.SprintMeter + c.SprintFixedTickTime) c.SprintTime ≤ c.SprintTime :=
      min_le_right _ _
    split <;> exact ⟨h1, h2⟩

/-- A sequence of sprint calls keeps the meter between 0 and `SprintTime`. -/
theorem runSprint_bounds (ops : List SprintOp) (c : AHorrorCharacter)
    (hT : 0 < c.SprintTime) (hd : 0 ≤ c.SprintFixedTickTime)
    (h : 0 ≤ c.SprintMeter ∧ c.SprintMeter ≤ c.SprintTime) :
    (runSprint c ops).SprintTime = c.SprintTime ∧
      0 ≤ (runSprint c ops).SprintMeter ∧ (runSprint c ops).SprintMeter ≤ c.SprintTime := by
  induction ops generalizing c with
  | nil => exact ⟨rfl, h⟩
  | cons op ops ih =>
    obtain ⟨c1, c2⟩ := SprintOp.run_config c op
    have hstep : 0 ≤ (op.run c).SprintMeter ∧ (op.run c).SprintMeter ≤ (op.run c).SprintTime := by
      rw [c1]
      cases op with
      | DoStartSprint => simp only [SprintOp.run, (DoSprint_keeps c).1]; exact h
      | DoEndSprint => simp only [SprintOp.run, (DoSprint_keeps c).2.2.1]; exact h
      | SprintFixedTick Speed => exact SprintFixedTick_bounds c Speed hT hd h
    have := ih (op.run c) (by rw [c1]; exact hT) (by rw [c2]; exact hd) hstep
    rw [c1] at this
    exact this

/-- A sequence of sprint calls keeps the tick interval. -/
theorem runSprint_config_aux (ops : List SprintOp) (c : AHorrorCharacter) :
    (runSprint c ops).SprintFixedTickTime = c.SprintFixedTickTime := by
  induction ops generalizing c with
  | nil => rfl
  | cons op ops ih =>
    have := ih (op.run c)
    rw [(SprintOp.run_config c op).2] at this
    exact this

/-- C15. For `SprintTime > 0` and a tick interval that is not negative, in
every state reached after `BeginPlay` by any sequence of `DoStartSprint`,
`DoEndSprint` and `SprintFixedTick` with any speed, the sprint meter lies
between 0 and `SprintTime`; and every further `SprintFixedTick` broadcasts the
meter update with the new meter over `SprintTime`, a value between 0 and 1. -/
theorem SprintMeter_bounds (c : AHorrorCharacter) (ops : List SprintOp)
    (hT : 0 < c.SprintTime) (hd : 0 ≤ c.SprintFixedTickTime) :
    0 ≤ (runSprint c.construct.BeginPlay ops).SprintMeter ∧
      (runSprint c.construct.BeginPlay ops).SprintMeter ≤
        (runSprint c.construct.BeginPlay ops).SprintTime ∧
      (runSprint c.construct.BeginPlay ops).SprintTime = c.SprintTime ∧
      (∀ Speed : ℚ,
        HorrorEvent.OnSprintMeterUpdated
            (((runSprint c.construct.BeginPlay ops).SprintFixedTick Speed).1.SprintMeter /
              c.SprintTime) ∈
          ((runSprint c.construct.BeginPlay ops).SprintFixedTick Speed).2 ∧
        ∀ p, HorrorEvent.OnSprintMeterUpdated p ∈
            ((runSprint c.construct.BeginPlay ops).SprintFixedTick Speed).2 →
          0 ≤ p ∧ p ≤ 1) := by
  have h0 : c.construct.BeginPlay.SprintTime = c.SprintTime := rfl
  have h1 : c.construct.BeginPlay.SprintFixedTickTime = c.SprintFixedTickTime := rfl
  have h2 : c.construct.BeginPlay.SprintMeter = c.SprintTime := rfl
  obtain ⟨r1, r2, r3⟩ := runSprint_bounds ops c.construct.BeginPlay (by rw [h0]; exact hT)
    (by rw [h1]; exact hd) (by rw [h0, h2]; exact ⟨le_of_lt hT, le_refl _⟩)
  rw [h0] at r1 r3
  refine ⟨r2, by rw [r1]; exact r3, r1, ?_⟩
  intro Speed
  have hc := SprintOp.run_config (runSprint c.construct.BeginPlay ops)
    (SprintOp.SprintFixedTick Speed)
  simp only [SprintOp.run] at hc
  have hb := SprintFixedTick_bounds (runSprint c.construct.BeginPlay ops) Speed
    (by rw [r1]; exact hT) (by rw [(runSprint_config_aux ops c.construct.BeginPlay), h1]; exact hd)
    ⟨r2, by rw [r1]; exact r3⟩
  rw [r1] at hb
  have hT2 : ((runSprint c.construct.BeginPlay ops).SprintFixedTick Speed).1.SprintTime =
      c.SprintTime := by rw [hc.1, r1]
  constructor
  · rw [AHorrorCharacter.SprintFixedTick_events, hT2]
  · intro p hp
    rw [AHorrorCharacter.SprintFixedTick_events, hT2] at hp
    rw [hp]
    exact ⟨div_nonneg hb.1 (le_of_lt hT), (div_le_one hT).mpr hb.2⟩

/-- Witness for C15: the default character (3 s of stamina, ticks of 0.03333 s),
sprinting for one tick at speed 300. -/
theorem SprintMeter_bounds_witness :
    0 < AHorrorCharacter.classDefaults.SprintTime ∧
      0 ≤ AHorrorCharacter.classDefaults.SprintFixedTickTime ∧
      0 ≤ (runSprint AHorrorCharacter.classDefaults.construct.BeginPlay
        [SprintOp.DoStartSprint, SprintOp.SprintFixedTick 300]).SprintMeter ∧
      (runSprint AHorrorCharacter.classDefaults.construct.BeginPlay
        [SprintOp.DoStartSprint, SprintOp.SprintFixedTick 300]).SprintMeter ≤
      (runSprint AHorrorCharacter.classDefaults.construct.BeginPlay
        [SprintOp.DoStartSprint, SprintOp.SprintFixedTick 300]).SprintTime :=
  have hT : 0 < AHorrorCharacter.classDefaults.SprintTime := by
    norm_num [AHorrorCharacter.classDefaults]
  have hd : 0 ≤ AHorrorCharacter.classDefaults.SprintFixedTickTime := by
    norm_num [AHorrorCharacter.classDefaults]
  ⟨hT, hd,
    (SprintMeter_bounds AHorrorCharacter.classDefaults
      [SprintOp.DoStartSprint, SprintOp.SprintFixedTick 300] hT hd).1,
    (SprintMeter_bounds AHorrorCharacter.classDefaults
      [SprintOp.DoStartSprint, SprintOp.SprintFixedTick 300] hT hd).2.1⟩

/-- Continuous sprinting from a full meter: the state after `k` ticks, as long
as the meter was not yet empty before the last of them. -/
theorem runSprintTicks_drain (c : AHorrorCharacter) (hT : 0 < c.SprintTime)
    (hfull : c.SprintMeter = c.SprintTime) (hrec : c.bRecovering = false)
    (hs : c.bSprinting = true) (hd : 0 < c.SprintFixedTickTime)
    (Speeds : List ℚ) (hv : ∀ v ∈ Speeds, v > c.WalkSpeed)
    (hk : ((Speeds.length : ℚ) - 1) * c.SprintFixedTickTime < c.SprintTime) :
    (runSprintTicks c Speeds).SprintTime = c.SprintTime ∧
      (runSprintTicks c Speeds).SprintFixedTickTime = c.SprintFixedTickTime ∧
      (runSprintTicks c Speeds).WalkSpeed = c.WalkSpeed ∧
      (runSprintTicks c Speeds).RecoveringWalkSpeed = c.RecoveringWalkSpeed ∧
      (runSprintTicks c Speeds).bSprinting = true ∧
      (runSprintTicks c Speeds).SprintMeter =
        max (c.SprintTime - (Speeds.length : ℚ) * c.SprintFixedTickTime) 0 ∧
      ((Speeds.length : ℚ) * c.SprintFixedTickTime < c.SprintTime →
        (runSprintTicks c Speeds).bRecovering = false) ∧
      (c.SprintTime ≤ (Speeds.length : ℚ) * c.SprintFixedTickTime →
        (runSprintTicks c Speeds).bRecovering = true ∧
          (runSprintTicks c Speeds).MaxWalkSpeed = c.RecoveringWalkSpeed) := by
  induction Speeds using List.reverseRecOn with
  | nil =>
    simp only [runSprintTicks, List.foldl_nil, List.length_nil, Nat.cast_zero, zero_mul,
      sub_zero]
    refine ⟨trivial, trivial, trivial, trivial, hs, ?_, fun _ => hrec, ?_⟩
    · rw [hfull, max_eq_left (le_of_lt hT)]
    · intro h
      exact absurd h (not_le.mpr hT)
  | append_singleton Speeds v ih =>
    have hlen : ((Speeds ++ [v]).length : ℚ) = (Speeds.length : ℚ) + 1 := by
      simp
    rw [hlen] at hk ⊢
    have hk1 : (Speeds.length : ℚ) * c.SprintFixedTickTime < c.SprintTime := by
      have : (Speeds.length : ℚ) + 1 - 1 = (Speeds.length : ℚ) := by ring
      rw [this] at hk
      exact hk
    have hk0 : ((Speeds.length : ℚ) - 1) * c.SprintFixedTickTime < c.SprintTime := by
      nlinarith
    obtain ⟨i1, i2, i3, i4, i5, i6, i7, -⟩ :=
      ih (fun w hw => hv w (List.mem_append_left _ hw)) hk0
    have hrun : runSprintTicks c (Speeds ++ [v]) =
        ((runSprintTicks c Speeds).SprintFixedTick v).1 := by
      simp [runSprintTicks, List.foldl_append]
    have hpos : c.SprintTime - (Speeds.length : ℚ) * c.SprintFixedTickTime > 0 := by linarith
    have hm : (runSprintTicks c Speeds).SprintMeter =
        c.SprintTime - (Speeds.length : ℚ) * c.SprintFixedTickTime := by
      rw [i6, max_eq_left (le_of_lt hpos)]
    have hb : (runSprintTicks c Speeds).bSprinting = true ∧
        (runSprintTicks c Speeds).bRecovering = false ∧
        v > (runSprintTicks c Speeds).WalkSpeed :=
      ⟨i5, i7 hk1, by rw [i3]; exact hv v (List.mem_append_right _ (List.mem_singleton.mpr rfl))⟩
    have hstep := AHorrorCharacter.SprintFixedTick_drain (runSprintTicks c Speeds) v hb
      (by rw [hm]; exact hpos)
    rw [hm, i2] at hstep
    have harith : c.SprintTime - (Speeds.length : ℚ) * c.SprintFixedTickTime -
        c.SprintFixedTickTime =
        c.SprintTime - ((Speeds.length : ℚ) + 1) * c.SprintFixedTickTime := by ring
    rw [harith] at hstep
    rw [hrun, hstep]
    by_cases hz : max (c.SprintTime - ((Speeds.length : ℚ) + 1) * c.SprintFixedTickTime) 0 ≤ 0
    · rw [if_pos hz]
      have hle : c.SprintTime ≤ ((Speeds.length : ℚ) + 1) * c.SprintFixedTickTime := by
        have := le_trans (le_max_left _ _) hz
        linarith
      refine ⟨i1, rfl, i3, i4, i5, rfl, ?_, ?_⟩
      · intro hlt
        exact absurd hle (not_le.mpr hlt)
      · intro _
        exact ⟨rfl, i4⟩
    · rw [if_neg hz]
      have hlt : ((Speeds.length : ℚ) + 1) * c.SprintFixedTickTime < c.SprintTime := by
        by_contra hcon
        apply hz
        rw [max_eq_right (by linarith [not_lt.mp hcon])]
      refine ⟨i1, rfl, i3, i4, i5, rfl, ?_, ?_⟩
      · intro _
        exact i7 hk1
      · intro hle
        exact absurd hle (not_le.mpr hlt)

/-! ## Lemmas on binary32 rounding -/

/-- Known binary32 values: `0.1f`, `0.03333f` and the nearest value to one
third; integers above `2^24` go to the even neighbour when halfway; values
below `2^-126` keep the spacing `2^-149`; 1, 3 and 180 are not changed. -/
theorem Float32.round_examples :
    Float32.round (1 / 10) = 13421773 / 134217728 ∧
      Float32.round (3333 / 100000) = 4473477 / 134217728 ∧
      Float32.round (1 / 3) = 11184811 / 33554432 ∧
      Float32.round (-1 / 10) = -13421773 / 134217728 ∧
      Float32.round 16777217 = 16777216 ∧
      Float32.round 16777219 = 16777220 ∧
      Float32.round (1 / 2 ^ 149) = 1 / 2 ^ 149 ∧
      Float32.round (1 / 2 ^ 150) = 0 ∧
      Float32.round (3 / 2 ^ 150) = 1 / 2 ^ 148 ∧
      Float32.round 1 = 1 ∧ Float32.round 3 = 3 ∧ Float32.round 180 = 180 := by
  refine ⟨?_, ?_, ?_, ?_, ?_, ?_, ?_, ?_, ?_, ?_, ?_, ?_⟩
  all_goals decide!

/-- Rounding keeps 0. -/
theorem Float32.round_zero : Float32.round 0 = 0 := by
  simp [Float32.round]

/-- The rounded magnitude is not negative. -/
theorem Float32.roundPos_nonneg (n d : Nat) : 0 ≤ Float32.roundPos n d := by
  unfold Float32.roundPos Float32.roundAt
  exact div_nonneg (Nat.cast_nonneg _) (Nat.cast_nonneg _)

/-- Rounding keeps the sign: a value that is not positive is rounded to one. -/
theorem Float32.round_nonpos (x : ℚ) (h : x ≤ 0) : Float32.round x ≤ 0 := by
  unfold Float32.round
  split_ifs with h0 h1
  · exact le_refl _
  · exact neg_nonpos.mpr (Float32.roundPos_nonneg _ _)
  · exact absurd (le_antisymm h (not_lt.mp h1)) h0

/-- Rounding commutes with negation. -/
theorem Float32.round_neg (x : ℚ) : Float32.round (-x) = -Float32.round x := by
  unfold Float32.round
  by_cases h0 : x = 0
  · simp [h0]
  · have hn : -x ≠ 0 := neg_ne_zero.mpr h0
    simp only [if_neg h0, if_neg hn, Rat.neg_num, Rat.neg_den, Int.natAbs_neg]
    rcases lt_or_gt_of_ne h0 with h | h
    · have h2 : ¬ -x < 0 := by linarith
      simp [h, h2]
    · have h2 : -x < 0 := by linarith
      have h3 : ¬ x < 0 := by linarith
      simp [h2, h3]

/-- The loop of `Float32.log2` brackets `n` between two powers of 2. -/
theorem Float32.log2Loop_spec (fuel n : Nat) (hn : 1 ≤ n) (hf : n ≤ fuel) :
    2 ^ Float32.log2Loop fuel n ≤ n ∧ n < 2 ^ (Float32.log2Loop fuel n + 1) := by
  induction fuel generalizing n with
  | zero => omega
  | succ fuel ih =>
    unfold Float32.log2Loop
    by_cases h2 : n < 2
    · rw [if_pos h2]
      constructor
      · simpa using hn
      · simpa using h2
    · rw [if_neg h2]
      have h1 : 1 ≤ n / 2 := by omega
      have h3 : n / 2 ≤ fuel := by omega
      obtain ⟨i1, i2⟩ := ih (n / 2) h1 h3
      constructor
      · rw [pow_succ]
        omega
      · rw [pow_succ]
        omega

/-- The leading digit brackets `n` between two powers of 2. -/
theorem Float32.log2_spec (n : Nat) (hn : 1 ≤ n) :
    2 ^ Float32.log2 n ≤ n ∧ n < 2 ^ (Float32.log2 n + 1) :=
  Float32.log2Loop_spec n n hn (le_refl n)

/-- The exponent of a fraction that is at least 1 is a natural number `E` with
`2^E ≤ n / d`. -/
theorem Float32.exponent_spec (n d : Nat) (hd : 1 ≤ d) (h : d ≤ n) :
    ∃ E : ℕ, Float32.exponent n d = (E : Int) ∧ d * 2 ^ E ≤ n := by
  obtain ⟨n1, n2⟩ := Float32.log2_spec n (le_trans hd h)
  obtain ⟨d1, d2⟩ := Float32.log2_spec d hd
  have hL : Float32.log2 d ≤ Float32.log2 n := by
    by_contra hcon
    have h3 : Float32.log2 n + 1 ≤ Float32.log2 d := by omega
    have h4 := Nat.pow_le_pow_right (by norm_num : 0 < 2) h3
    omega
  obtain ⟨k, hk⟩ := Nat.exists_eq_add_of_le hL
  have he0 : ((Float32.log2 n : Int) - (Float32.log2 d : Int)) = (k : Int) := by omega
  unfold Float32.exponent
  simp only [he0, Int.toNat_ofNat, Int.toNat_neg_nat, pow_zero, mul_one]
  by_cases hc : d * 2 ^ k ≤ n
  · exact ⟨k, by rw [if_pos hc], hc⟩
  · rw [if_neg hc]
    have hk1 : 1 ≤ k := by
      by_contra hcon
      have : k = 0 := by omega
      rw [this, pow_zero, mul_one] at hc
      exact hc h
    refine ⟨k - 1, by omega, ?_⟩
    have h5 : d * 2 ^ (k - 1) < 2 ^ (Float32.log2 d + 1) * 2 ^ (k - 1) :=
      Nat.mul_lt_mul_of_pos_right d2 (by positivity)
    have h6 : 2 ^ (Float32.log2 d + 1) * 2 ^ (k - 1) = 2 ^ Float32.log2 n := by
      rw [← pow_add, hk]
      congr 1
      omega
    omega

/-- The multiple of `2^q` nearest to a fraction that is at least `2^(q+23)`,
for `q ≥ -23`, is at least 1. -/
theorem Float32.one_le_roundAt (n d a b : Nat) (hd : 1 ≤ d) (q : Int)
    (ha : q.toNat = a) (hb : (-q).toNat = b) (hab : b ≤ 23 + a)
    (h : d * 2 ^ a * 2 ^ 23 ≤ n * 2 ^ b) :
    1 ≤ Float32.roundAt n d q := by
  unfold Float32.roundAt
  simp only [ha, hb]
  have hD : 0 < d * 2 ^ a := by positivity
  have hm0 : 2 ^ 23 ≤ n * 2 ^ b / (d * 2 ^ a) := by
    rw [Nat.le_div_iff_mul_le hD]
    linarith
  have hm : 2 ^ 23 ≤ (if 2 * (n * 2 ^ b % (d * 2 ^ a)) < d * 2 ^ a then n * 2 ^ b / (d * 2 ^ a)
      else if d * 2 ^ a < 2 * (n * 2 ^ b % (d * 2 ^ a)) then n * 2 ^ b / (d * 2 ^ a) + 1
      else if n * 2 ^ b / (d * 2 ^ a) % 2 = 0 then n * 2 ^ b / (d * 2 ^ a)
      else n * 2 ^ b / (d * 2 ^ a) + 1) := by
    split_ifs <;> omega
  have hpow : 2 ^ b ≤ 2 ^ 23 * 2 ^ a := by
    rw [← pow_add]
    exact Nat.pow_le_pow_right (by norm_num) hab
  have hfin : 2 ^ b ≤ (if 2 * (n * 2 ^ b % (d * 2 ^ a)) < d * 2 ^ a then n * 2 ^ b / (d * 2 ^ a)
      else if d * 2 ^ a < 2 * (n * 2 ^ b % (d * 2 ^ a)) then n * 2 ^ b / (d * 2 ^ a) + 1
      else if n * 2 ^ b / (d * 2 ^ a) % 2 = 0 then n * 2 ^ b / (d * 2 ^ a)
      else n * 2 ^ b / (d * 2 ^ a) + 1) * 2 ^ a :=
    le_trans hpow (Nat.mul_le_mul_right _ hm)
  rw [one_le_div (by positivity)]
  exact_mod_cast hfin

/-- The rounded magnitude of a fraction that is at least 1 is at least 1. -/
theorem Float32.one_le_roundPos (n d : Nat) (hd : 1 ≤ d) (h : d ≤ n) :
    1 ≤ Float32.roundPos n d := by
  obtain ⟨E, hE, hle⟩ := Float32.exponent_spec n d hd h
  unfold Float32.roundPos
  rw [hE]
  have hmax : max (E : Int) (-126) = (E : Int) := max_eq_left (by omega)
  rw [hmax]
  refine Float32.one_le_roundAt n d (E - 23) (23 - E) hd _ (by omega) (by omega) (by omega) ?_
  have hsplit : E - 23 + 23 = E + (23 - E) := by omega
  calc d * 2 ^ (E - 23) * 2 ^ 23 = d * 2 ^ (E - 23 + 23) := by rw [mul_assoc, ← pow_add]
    _ = d * 2 ^ E * 2 ^ (23 - E) := by rw [hsplit, pow_add, mul_assoc]
    _ ≤ n * 2 ^ (23 - E) := Nat.mul_le_mul_right _ hle

/-- Rounding does not take a value that is at least 1 below 1. -/
theorem Float32.one_le_round (x : ℚ) (h : 1 ≤ x) : 1 ≤ Float32.round x := by
  have hpos : 0 < x := lt_of_lt_of_le zero_lt_one h
  unfold Float32.round
  rw [if_neg (ne_of_gt hpos), if_neg (not_lt.mpr (le_of_lt hpos))]
  have hnum : 0 < x.num := Rat.num_pos.mpr hpos
  have hden : 1 ≤ x.den := x.den_pos
  apply Float32.one_le_roundPos _ _ hden
  have h1 : (x.den : ℚ) ≤ (x.num : ℚ) := by
    have := (le_div_iff₀ (by exact_mod_cast x.den_pos : (0 : ℚ) < (x.den : ℚ))).mp
      (by rw [Rat.num_div_den]; exact h : (1 : ℚ) ≤ (x.num : ℚ) / (x.den : ℚ))
    linarith
  have h2 : (x.den : ℤ) ≤ x.num := by exact_mod_cast h1
  omega

/-! ## Sprint controller: depletion of the meter -/

/-- A draining `SprintFixedTick32` whose difference suffers no rounding, or is
not positive, leaves the character as `SprintFixedTick` does. -/
theorem AHorrorCharacter.SprintFixedTick32_drain (c : AHorrorCharacter) (Speed : ℚ)
    (h : c.bSprinting = true ∧ c.bRecovering = false ∧ Speed > c.WalkSpeed)
    (hm : c.SprintMeter > 0)
    (hx : Float32.round (c.SprintMeter - c.SprintFixedTickTime) =
        c.SprintMeter - c.SprintFixedTickTime ∨
      c.SprintMeter - c.SprintFixedTickTime ≤ 0) :
    (c.SprintFixedTick32 Speed).1 = (c.SprintFixedTick Speed).1 := by
  have hmax : max (Float32.round (c.SprintMeter - c.SprintFixedTickTime)) 0 =
      max (c.SprintMeter - c.SprintFixedTickTime) 0 := by
    rcases hx with hx | hx
    · rw [hx]
    · rw [max_eq_right (Float32.round_nonpos _ hx), max_eq_right hx]
  unfold AHorrorCharacter.SprintFixedTick32 AHorrorCharacter.SprintFixedTick
  simp only [if_pos h, if_pos hm, FMath.Max, hmax]

/-- Continuous sprinting from a full meter, as long as the meter was not yet
empty before the last tick and every meter value before depletion is a binary32
value: the rounded ticks leave the character as the exact ticks do. -/
theorem runSprintTicks32_eq (c : AHorrorCharacter) (hT : 0 < c.SprintTime)
    (hfull : c.SprintMeter = c.SprintTime) (hrec : c.bRecovering = false)
    (hs : c.bSprinting = true) (hd : 0 < c.SprintFixedTickTime)
    (Speeds : List ℚ) (hv : ∀ v ∈ Speeds, v > c.WalkSpeed)
    (hk : ((Speeds.length : ℚ) - 1) * c.SprintFixedTickTime < c.SprintTime)
    (hex : ∀ j : ℕ, j ≤ Speeds.length → (j : ℚ) * c.SprintFixedTickTime < c.SprintTime →
      Float32.round (c.SprintTime - (j : ℚ) * c.SprintFixedTickTime) =
        c.SprintTime - (j : ℚ) * c.SprintFixedTickTime) :
    runSprintTicks32 c Speeds = runSprintTicks c Speeds := by
  induction Speeds using List.reverseRecOn with
  | nil => rfl
  | append_singleton Speeds v ih =>
    have hlen : ((Speeds ++ [v]).length : ℚ) = (Speeds.length : ℚ) + 1 := by
      simp
    have hlenN : (Speeds ++ [v]).length = Speeds.length + 1 := by
      simp
    rw [hlen] at hk
    have hk1 : (Speeds.length : ℚ) * c.SprintFixedTickTime < c.SprintTime := by
      have : (Speeds.length : ℚ) + 1 - 1 = (Speeds.length : ℚ) := by ring
      rw [this] at hk
      exact hk
    have hk0 : ((Speeds.length : ℚ) - 1) * c.SprintFixedTickTime < c.SprintTime := by
      nlinarith
    have hvS : ∀ w ∈ Speeds, w > c.WalkSpeed := fun w hw => hv w (List.mem_append_left _ hw)
    have ih1 := ih hvS hk0 (fun j hj => hex j (by rw [hlenN]; exact Nat.le_succ_of_le hj))
    obtain ⟨-, i2, i3, -, i5, i6, i7, -⟩ :=
      runSprintTicks_drain c hT hfull hrec hs hd Speeds hvS hk0
    have hrun32 : runSprintTicks32 c (Speeds ++ [v]) =
        ((runSprintTicks32 c Speeds).SprintFixedTick32 v).1 := by
      simp [runSprintTicks32, List.foldl_append]
    have hrun : runSprintTicks c (Speeds ++ [v]) =
        ((runSprintTicks c Speeds).SprintFixedTick v).1 := by
      simp [runSprintTicks, List.foldl_append]
    have hpos : c.SprintTime - (Speeds.length : ℚ) * c.SprintFixedTickTime > 0 := by linarith
    have hm : (runSprintTicks c Speeds).SprintMeter =
        c.SprintTime - (Speeds.length : ℚ) * c.SprintFixedTickTime := by
      rw [i6, max_eq_left (le_of_lt hpos)]
    have hb : (runSprintTicks c Speeds).bSprinting = true ∧
        (runSprintTicks c Speeds).bRecovering = false ∧
        v > (runSprintTicks c Speeds).WalkSpeed :=
      ⟨i5, i7 hk1, by rw [i3]; exact hv v (List.mem_append_right _ (List.mem_singleton.mpr rfl))⟩
    have harith : c.SprintTime - (Speeds.length : ℚ) * c.SprintFixedTickTime -
        c.SprintFixedTickTime =
        c.SprintTime - ((Speeds.length + 1 : ℕ) : ℚ) * c.SprintFixedTickTime := by
      push_cast
      ring
    rw [hrun32, hrun, ih1]
    apply AHorrorCharacter.SprintFixedTick32_drain _ v hb (by rw [hm]; exact hpos)
    rw [hm, i2, harith]
    by_cases hlt : ((Speeds.length + 1 : ℕ) : ℚ) * c.SprintFixedTickTime < c.SprintTime
    · left
      exact hex (Speeds.length + 1) (by rw [hlenN]) hlt
    · right
      linarith [not_lt.mp hlt]

/-- C16 (counterexample). `tenthTickCharacter` has a full meter of 3 s, is not
recovering, has the sprint control held and a tick interval `d = 0.1f`; it runs
at speed 300, above `WalkSpeed`, for 30 ticks. The first `k0` with
`k0 * d ≥ SprintTime` is 30, yet after tick 30 the meter is `41 / 67108864`,
not 0, and the recovering flag is still false: each of the 30 differences is
rounded to binary32. -/
theorem sprint_depletes_rounding :
    0 < tenthTickCharacter.SprintTime ∧
      tenthTickCharacter.SprintMeter = tenthTickCharacter.SprintTime ∧
      tenthTickCharacter.bRecovering = false ∧
      tenthTickCharacter.bSprinting = true ∧
      0 < tenthTickCharacter.SprintFixedTickTime ∧
      (∀ v ∈ List.replicate 30 (300 : ℚ), v > tenthTickCharacter.WalkSpeed) ∧
      (29 : ℚ) * tenthTickCharacter.SprintFixedTickTime < tenthTickCharacter.SprintTime ∧
      tenthTickCharacter.SprintTime ≤ (30 : ℚ) * tenthTickCharacter.SprintFixedTickTime ∧
      (runSprintTicks32 tenthTickCharacter (List.replicate 30 300)).SprintMeter =
        41 / 67108864 ∧
      (runSprintTicks32 tenthTickCharacter (List.replicate 30 300)).SprintMeter ≠ 0 ∧
      (runSprintTicks32 tenthTickCharacter (List.replicate 30 300)).bRecovering = false := by
  refine ⟨?_, ?_, ?_, ?_, ?_, ?_, ?_, ?_, ?_, ?_, ?_⟩
  all_goals decide!

/-- C16 (amended). Starting from a full meter (`SprintMeter = SprintTime > 0`),
not recovering, with the sprint control held, a tick interval `d > 0` and a
speed above `WalkSpeed` at every tick, and provided every meter value before
depletion, `SprintTime - j * d` with `j * d < SprintTime`, is a binary32 value,
so that no difference is rounded: after `k` consecutive `SprintFixedTick`
calls, for every `k` up to the first `k0` with `k0 * d ≥ SprintTime`, the meter
is `max (SprintTime - k * d) 0`; while `k * d < SprintTime` the recovering flag
is false; at `k0` the meter is 0, the recovering flag is true and the movement
speed is `RecoveringWalkSpeed`. Such a `k0` exists, with
`SprintTime ≤ k0 * d < SprintTime + d`. -/
theorem sprint_depletes_exact (c : AHorrorCharacter) (hT : 0 < c.SprintTime)
    (hfull : c.SprintMeter = c.SprintTime) (hrec : c.bRecovering = false)
    (hs : c.bSprinting = true) (hd : 0 < c.SprintFixedTickTime) :
    (∀ Speeds : List ℚ, (∀ v ∈ Speeds, v > c.WalkSpeed) →
      ((Speeds.length : ℚ) - 1) * c.SprintFixedTickTime < c.SprintTime →
      (∀ j : ℕ, j ≤ Speeds.length → (j : ℚ) * c.SprintFixedTickTime < c.SprintTime →
        Float32.round (c.SprintTime - (j : ℚ) * c.SprintFixedTickTime) =
          c.SprintTime - (j : ℚ) * c.SprintFixedTickTime) →
      (runSprintTicks32 c Speeds).SprintMeter =
          max (c.SprintTime - (Speeds.length : ℚ) * c.SprintFixedTickTime) 0 ∧
        ((Speeds.length : ℚ) * c.SprintFixedTickTime < c.SprintTime →
          (runSprintTicks32 c Speeds).bRecovering = false) ∧
        (c.SprintTime ≤ (Speeds.length : ℚ) * c.SprintFixedTickTime →
          (runSprintTicks32 c Speeds).SprintMeter = 0 ∧
            (runSprintTicks32 c Speeds).bRecovering = true ∧
            (runSprintTicks32 c Speeds).MaxWalkSpeed = c.RecoveringWalkSpeed)) ∧
      (∃ k0 : ℕ, ((k0 : ℚ) - 1) * c.SprintFixedTickTime < c.SprintTime ∧
        c.SprintTime ≤ (k0 : ℚ) * c.SprintFixedTickTime ∧
        (k0 : ℚ) * c.SprintFixedTickTime < c.SprintTime + c.SprintFixedTickTime) := by
  constructor
  · intro Speeds hv hk hex
    rw [runSprintTicks32_eq c hT hfull hrec hs hd Speeds hv hk hex]
    obtain ⟨-, -, -, -, -, i6, i7, i8⟩ :=
      runSprintTicks_drain c hT hfull hrec hs hd Speeds hv hk
    refine ⟨i6, i7, ?_⟩
    intro hle
    refine ⟨?_, i8 hle⟩
    rw [i6, max_eq_right (by linarith)]
  · refine ⟨Nat.ceil (c.SprintTime / c.SprintFixedTickTime), ?_, ?_, ?_⟩
    · have h1 := Nat.ceil_lt_add_one (div_nonneg (le_of_lt hT) (le_of_lt hd))
      have h2 : ((Nat.ceil (c.SprintTime / c.SprintFixedTickTime) : ℕ) : ℚ) - 1 <
          c.SprintTime / c.SprintFixedTickTime := by linarith
      exact (lt_div_iff₀ hd).mp h2
    · exact (div_le_iff₀ hd).mp (Nat.le_ceil _)
    · have h1 := Nat.ceil_lt_add_one (div_nonneg (le_of_lt hT) (le_of_lt hd))
      have h2 := mul_lt_mul_of_pos_right h1 hd
      have h3 : (c.SprintTime / c.SprintFixedTickTime + 1) * c.SprintFixedTickTime =
          c.SprintTime + c.SprintFixedTickTime := by
        field_simp
      linarith

/-- Witness for C16 (amended): `sprintingCharacter` (3 s of stamina, ticks of
1 s) goes through the meter values 3, 2 and 1, all binary32 values; it has 2 s
left and is not recovering after one tick at speed 300, and is empty and
recovering after three. -/
theorem sprint_depletes_exact_witness :
    0 < sprintingCharacter.SprintTime ∧
      sprintingCharacter.SprintMeter = sprintingCharacter.SprintTime ∧
      (∀ j : ℕ, j ≤ 3 →
        Float32.round (sprintingCharacter.SprintTime -
            (j : ℚ) * sprintingCharacter.SprintFixedTickTime) =
          sprintingCharacter.SprintTime - (j : ℚ) * sprintingCharacter.SprintFixedTickTime) ∧
      (runSprintTicks32 sprintingCharacter [300]).SprintMeter = 2 ∧
      (runSprintTicks32 sprintingCharacter [300]).bRecovering = false ∧
      (runSprintTicks32 sprintingCharacter [300, 300, 300]).SprintMeter = 0 ∧
      (runSprintTicks32 sprintingCharacter [300, 300, 300]).bRecovering = true ∧
      (runSprintTicks32 sprintingCharacter [300, 300, 300]).MaxWalkSpeed =
        sprintingCharacter.RecoveringWalkSpeed :=
  have hT : 0 < sprintingCharacter.SprintTime := by
    rw [show sprintingCharacter.SprintTime = 3 from rfl]
    norm_num
  have hd : 0 < sprintingCharacter.SprintFixedTickTime := by
    rw [show sprintingCharacter.SprintFixedTickTime = 1 from rfl]
    norm_num
  have hv : ∀ v ∈ [(300 : ℚ), 300, 300], v > sprintingCharacter.WalkSpeed := by
    rw [show sprintingCharacter.WalkSpeed = 250 from rfl]
    intro v hv
    simp only [List.mem_cons, List.mem_singleton, List.not_mem_nil, or_false, or_self] at hv
    rw [hv]
    norm_num
  have hk : ((([(300 : ℚ), 300, 300] : List ℚ).length : ℚ) - 1) *
      sprintingCharacter.SprintFixedTickTime < sprintingCharacter.SprintTime := by
    rw [show sprintingCharacter.SprintTime = 3 from rfl,
      show sprintingCharacter.SprintFixedTickTime = 1 from rfl]
    norm_num
  have hle : sprintingCharacter.SprintTime ≤
      ((([(300 : ℚ), 300, 300] : List ℚ).length : ℚ)) *
        sprintingCharacter.SprintFixedTickTime := by
    rw [show sprintingCharacter.SprintTime = 3 from rfl,
      show sprintingCharacter.SprintFixedTickTime = 1 from rfl]
    norm_num
  have hex : ∀ j : ℕ, j ≤ 3 →
      Float32.round (sprintingCharacter.SprintTime -
          (j : ℚ) * sprintingCharacter.SprintFixedTickTime) =
        sprintingCharacter.SprintTime - (j : ℚ) * sprintingCharacter.SprintFixedTickTime := by
    decide!
  ⟨hT, rfl, hex, by decide!, by decide!,
    (((sprint_depletes_exact sprintingCharacter hT rfl rfl rfl hd).1 [300, 300, 300] hv hk
      (fun j hj _ => hex j hj)).2.2 hle).1,
    (((sprint_depletes_exact sprintingCharacter hT rfl rfl rfl hd).1 [300, 300, 300] hv hk
      (fun j hj _ => hex j hj)).2.2 hle).2.1,
    (((sprint_depletes_exact sprintingCharacter hT rfl rfl rfl hd).1 [300, 300, 300] hv hk
      (fun j hj _ => hex j hj)).2.2 hle).2.2⟩

/-- One `SprintFixedTick` with a positive tick interval keeps the link between
the meter and the recovering flag, and changes the flag only at the two ends of
the meter. -/
theorem SprintFixedTick_recovering (c : AHorrorCharacter) (Speed : ℚ)
    (hT : 0 < c.SprintTime) (hd : 0 < c.SprintFixedTickTime)
    (h : 0 ≤ c.SprintMeter ∧ c.SprintMeter ≤ c.SprintTime ∧
      (c.SprintMeter = 0 → c.bRecovering = true) ∧
      (c.bRecovering = true → c.SprintMeter < c.SprintTime)) :
    (0 ≤ (c.SprintFixedTick Speed).1.SprintMeter ∧
      (c.SprintFixedTick Speed).1.SprintMeter ≤ c.SprintTime ∧
      ((c.SprintFixedTick Speed).1.SprintMeter = 0 →
        (c.SprintFixedTick Speed).1.bRecovering = true) ∧
      ((c.SprintFixedTick Speed).1.bRecovering = true →
        (c.SprintFixedTick Speed).1.SprintMeter < c.SprintTime)) ∧
    (c.bRecovering = false → (c.SprintFixedTick Speed).1.bRecovering = true →
      0 < c.SprintMeter ∧ (c.SprintFixedTick Speed).1.SprintMeter = 0) ∧
    (c.bRecovering = true → (c.SprintFixedTick Speed).1.bRecovering = false →
      c.SprintMeter < c.SprintTime ∧ (c.SprintFixedTick Speed).1.SprintMeter = c.SprintTime) := by
  obtain ⟨h1, h2, h3, h4⟩ := h
  by_cases hb : c.bSprinting = true ∧ c.bRecovering = false ∧ Speed > c.WalkSpeed
  · by_cases hm : c.SprintMeter > 0
    · rw [AHorrorCharacter.SprintFixedTick_drain c Speed hb hm]
      by_cases hz : max (c.SprintMeter - c.SprintFixedTickTime) 0 ≤ 0
      · have hz0 : max (c.SprintMeter - c.SprintFixedTickTime) 0 = 0 :=
          le_antisymm hz (le_max_right _ _)
        rw [if_pos hz]
        simp only [hz0]
        refine ⟨⟨le_refl _, le_of_lt hT, fun _ => trivial, fun _ => hT⟩,
          fun _ _ => ⟨hm, trivial⟩, ?_⟩
        intro _ hf
        exact absurd hf (by simp)
      · rw [if_neg hz]
        have hpos : 0 < max (c.SprintMeter - c.SprintFixedTickTime) 0 := not_le.mp hz
        have hle : max (c.SprintMeter - c.SprintFixedTickTime) 0 ≤ c.SprintTime :=
          max_le (by linarith) (le_of_lt hT)
        refine ⟨⟨le_of_lt hpos, hle, ?_, ?_⟩, ?_, ?_⟩
        · intro h0
          exact absurd h0 (ne_of_gt hpos)
        · intro hr
          exact absurd hr (by simp [hb.2.1])
        · intro _ hr
          exact absurd hr (by simp [hb.2.1])
        · intro hr
          exact absurd hr (by simp [hb.2.1])
    · rw [AHorrorCharacter.SprintFixedTick_empty c Speed hb hm]
      refine ⟨⟨h1, h2, h3, h4⟩, ?_, ?_⟩
      · intro hf ht
        exact absurd ht (by simp [hf])
      · intro ht hf
        exact absurd hf (by simp [ht])
  · rw [AHorrorCharacter.SprintFixedTick_refill c Speed hb]
    have hpos : 0 < min (c.SprintMeter + c.SprintFixedTickTime) c.SprintTime :=
      lt_min (by linarith) hT
    have hle : min (c.SprintMeter + c.SprintFixedTickTime) c.SprintTime ≤ c.SprintTime :=
      min_le_right _ _
    by_cases hz : min (c.SprintMeter + c.SprintFixedTickTime) c.SprintTime ≥ c.SprintTime
    · rw [if_pos hz]
      refine ⟨⟨le_of_lt hpos, hle, ?_, ?_⟩, ?_, ?_⟩
      · intro h0
        exact absurd h0 (ne_of_gt hpos)
      · intro hr
        exact absurd hr (by simp)
      · intro _ hr
        exact absurd hr (by simp)
      · intro hr _
        exact ⟨h4 hr, le_antisymm hle hz⟩
    · rw [if_neg hz]
      refine ⟨⟨le_of_lt hpos, hle, ?_, ?_⟩, ?_, ?_⟩
      · intro h0
        exact absurd h0 (ne_of_gt hpos)
      · intro _
        exact not_le.mp hz
      · intro hf ht
        exact absurd ht (by simp [hf])
      · intro ht hf
        exact absurd hf (by simp [ht])

/-- A sequence of sprint calls with a positive tick interval keeps the link
between the meter and the recovering flag. -/
theorem runSprint_recovering (ops : List SprintOp) (c : AHorrorCharacter)
    (hT : 0 < c.SprintTime) (hd : 0 < c.SprintFixedTickTime)
    (h : 0 ≤ c.SprintMeter ∧ c.SprintMeter ≤ c.SprintTime ∧
      (c.SprintMeter = 0 → c.bRecovering = true) ∧
      (c.bRecovering = true → c.SprintMeter < c.SprintTime)) :
    (runSprint c ops).SprintTime = c.SprintTime ∧
      (runSprint c ops).SprintFixedTickTime = c.SprintFixedTickTime ∧
      0 ≤ (runSprint c ops).SprintMeter ∧ (runSprint c ops).SprintMeter ≤ c.SprintTime ∧
      ((runSprint c ops).SprintMeter = 0 → (runSprint c ops).bRecovering = true) ∧
      ((runSprint c ops).bRecovering = true → (runSprint c ops).SprintMeter < c.SprintTime) := by
  induction ops generalizing c with
  | nil => exact ⟨rfl, rfl, h⟩
  | cons op ops ih =>
    obtain ⟨c1, c2⟩ := SprintOp.run_config c op
    have hstep : 0 ≤ (op.run c).SprintMeter ∧ (op.run c).SprintMeter ≤ (op.run c).SprintTime ∧
        ((op.run c).SprintMeter = 0 → (op.run c).bRecovering = true) ∧
        ((op.run c).bRecovering = true → (op.run c).SprintMeter < (op.run c).SprintTime) := by
      rw [c1]
      cases op with
      | DoStartSprint =>
        simp only [SprintOp.run, (DoSprint_keeps c).1, (DoSprint_keeps c).2.1]
        exact h
      | DoEndSprint =>
        simp only [SprintOp.run, (DoSprint_keeps c).2.2.1, (DoSprint_keeps c).2.2.2]
        exact h
      | SprintFixedTick Speed => exact (SprintFixedTick_recovering c Speed hT hd h).1
    have := ih (op.run c) (by rw [c1]; exact hT) (by rw [c2]; exact hd) hstep
    rw [c1, c2] at this
    exact this

/-- C17. For `SprintTime > 0` and a positive tick interval, in every state `s`
reached after `BeginPlay` by any sequence of `DoStartSprint`, `DoEndSprint` and
`SprintFixedTick`: a tick turns the recovering flag from false to true only when
it brings the meter from above 0 to 0, and after every tick that leaves the
meter at 0 the flag is true; a tick turns the flag from true to false only when
it brings the meter from below `SprintTime` to `SprintTime`, and after every
tick that leaves the meter at `SprintTime` the flag is false; `DoStartSprint`
and `DoEndSprint` do not change the flag; and in `s` itself a meter of 0 implies
recovering, and recovering implies a meter below `SprintTime`. -/
theorem recovering_flag_spec (c : AHorrorCharacter) (ops : List SprintOp)
    (hT : 0 < c.SprintTime) (hd : 0 < c.SprintFixedTickTime) :
    (∀ Speed : ℚ,
      ((runSprint c.construct.BeginPlay ops).bRecovering = false →
        ((runSprint c.construct.BeginPlay ops).SprintFixedTick Speed).1.bRecovering = true →
        0 < (runSprint c.construct.BeginPlay ops).SprintMeter ∧
          ((runSprint c.construct.BeginPlay ops).SprintFixedTick Speed).1.SprintMeter = 0) ∧
      (((runSprint c.construct.BeginPlay ops).SprintFixedTick Speed).1.SprintMeter = 0 →
        ((runSprint c.construct.BeginPlay ops).SprintFixedTick Speed).1.bRecovering = true) ∧
      ((runSprint c.construct.BeginPlay ops).bRecovering = true →
        ((runSprint c.construct.BeginPlay ops).SprintFixedTick Speed).1.bRecovering = false →
        (runSprint c.construct.BeginPlay ops).SprintMeter < c.SprintTime ∧
          ((runSprint c.construct.BeginPlay ops).SprintFixedTick Speed).1.SprintMeter =
            c.SprintTime) ∧
      (((runSprint c.construct.BeginPlay ops).SprintFixedTick Speed).1.SprintMeter =
          c.SprintTime →
        ((runSprint c.construct.BeginPlay ops).SprintFixedTick Speed).1.bRecovering = false)) ∧
    (runSprint c.construct.BeginPlay ops).DoStartSprint.1.bRecovering =
      (runSprint c.construct.BeginPlay ops).bRecovering ∧
    (runSprint c.construct.BeginPlay ops).DoEndSprint.1.bRecovering =
      (runSprint c.construct.BeginPlay ops).bRecovering ∧
    ((runSprint c.construct.BeginPlay ops).SprintMeter = 0 →
      (runSprint c.construct.BeginPlay ops).bRecovering = true) ∧
    ((runSprint c.construct.BeginPlay ops).bRecovering = true →
      (runSprint c.construct.BeginPlay ops).SprintMeter < c.SprintTime) := by
  have h0 : c.construct.BeginPlay.SprintTime = c.SprintTime := rfl
  have h1 : c.construct.BeginPlay.SprintFixedTickTime = c.SprintFixedTickTime := rfl
  have h2 : c.construct.BeginPlay.SprintMeter = c.SprintTime := rfl
  have h3 : c.construct.BeginPlay.bRecovering = false := rfl
  obtain ⟨r1, r2, r3, r4, r5, r6⟩ := runSprint_recovering ops c.construct.BeginPlay
    (by rw [h0]; exact hT) (by rw [h1]; exact hd)
    ⟨by rw [h2]; exact le_of_lt hT, by rw [h0, h2], fun hz => by
        rw [h2] at hz
        exact absurd hz (ne_of_gt hT),
      fun hr => by
        rw [h3] at hr
        exact absurd hr (by simp)⟩
  rw [h0] at r1 r4 r6
  rw [h1] at r2
  generalize runSprint c.construct.BeginPlay ops = s at r1 r2 r3 r4 r5 r6
  refine ⟨?_, (DoSprint_keeps s).2.1, (DoSprint_keeps s).2.2.2, r5, r6⟩
  intro Speed
  obtain ⟨⟨-, -, t3, t4⟩, t5, t6⟩ := SprintFixedTick_recovering s Speed
    (by rw [r1]; exact hT) (by rw [r2]; exact hd)
    ⟨r3, by rw [r1]; exact r4, r5, by rw [r1]; exact r6⟩
  rw [r1] at t4 t6
  refine ⟨t5, t3, t6, ?_⟩
  intro hfull
  cases hr : (s.SprintFixedTick Speed).1.bRecovering
  · rfl
  · exact absurd hfull (ne_of_lt (t4 hr))

/-- Witness for C17: the character with 3 s of stamina and 1 s ticks; after
the sprint control is pressed and three ticks at speed 300 the meter is 0, so
the recovering flag is raised. -/
theorem recovering_flag_spec_witness :
    0 < ({ AHorrorCharacter.classDefaults with
        SprintFixedTickTime := 1 } : AHorrorCharacter).SprintTime ∧
      (runSprint ({ AHorrorCharacter.classDefaults with
          SprintFixedTickTime := 1 } : AHorrorCharacter).construct.BeginPlay
        [SprintOp.DoStartSprint, SprintOp.SprintFixedTick 300, SprintOp.SprintFixedTick 300,
          SprintOp.SprintFixedTick 300]).SprintMeter = 0 ∧
      (runSprint ({ AHorrorCharacter.classDefaults with
          SprintFixedTickTime := 1 } : AHorrorCharacter).construct.BeginPlay
        [SprintOp.DoStartSprint, SprintOp.SprintFixedTick 300, SprintOp.SprintFixedTick 300,
          SprintOp.SprintFixedTick 300]).bRecovering = true :=
  have hT : 0 < ({ AHorrorCharacter.classDefaults with
      SprintFixedTickTime := 1 } : AHorrorCharacter).SprintTime := by
    norm_num [AHorrorCharacter.classDefaults]
  have hd : 0 < ({ AHorrorCharacter.classDefaults with
      SprintFixedTickTime := 1 } : AHorrorCharacter).SprintFixedTickTime := by
    norm_num
  have hm : (runSprint ({ AHorrorCharacter.classDefaults with
        SprintFixedTickTime := 1 } : AHorrorCharacter).construct.BeginPlay
      [SprintOp.DoStartSprint, SprintOp.SprintFixedTick 300, SprintOp.SprintFixedTick 300,
        SprintOp.SprintFixedTick 300]).SprintMeter = 0 := by
    norm_num [runSprint, SprintOp.run, AHorrorCharacter.SprintFixedTick,
      AHorrorCharacter.DoStartSprint, AHorrorCharacter.BeginPlay, AHorrorCharacter.construct,
      AHorrorCharacter.classDefaults, FMath.Max, FMath.Min]
  ⟨hT, hm, (recovering_flag_spec _ _ hT hd).2.2.2.1 hm⟩

/-! ## Lemmas on sequences of room ticks -/

namespace ARoomFlipActor

/-- The whole room after `UpdateRotation`, on its two branches. -/
theorem UpdateRotation_state (a : ARoomFlipActor) (DeltaTime : ℚ) :
    (a.UpdateRotation DeltaTime).1 =
      (if FMath.Clamp (a.RotationProgress + DeltaTime / a.RotationDuration) 0 1 ≥ 1 then
        a.completedFlip
      else a.rotatedTo (FMath.Clamp (a.RotationProgress + DeltaTime / a.RotationDuration) 0 1)) := by
  have hle := (Clamp_mem (a.RotationProgress + DeltaTime / a.RotationDuration)).2
  unfold UpdateRotation
  simp only []
  split
  · rename_i hge
    have h1 : FMath.Clamp (a.RotationProgress + DeltaTime / a.RotationDuration) 0 1 = 1 :=
      le_antisymm hle hge
    simp only [h1]
    cases h2 : a.AttachedPlayer <;> cases h3 : a.bCanFlipMultipleTimes <;>
      cases h4 : a.bReverseEachFlip <;> cases h5 : a.RotationCurve <;>
      simp [completedFlip, rotatedTo, easedAt, DetachPlayerFromRoom,
        USceneComponent.SetWorldRotation, h2, h3, h4, h5]
  · cases h5 : a.RotationCurve <;>
      simp [rotatedTo, easedAt, USceneComponent.SetWorldRotation, h5]

/-- Ticks on a room that is not rotating do nothing. -/
theorem runTicks_not_rotating (DeltaTimes : List ℚ) (a : ARoomFlipActor)
    (h : a.CurrentState ≠ ERoomFlipState.Rotating) : runTicks a DeltaTimes = a := by
  induction DeltaTimes with
  | nil => rfl
  | cons dt rest ih =>
    have : (a.Tick dt).1 = a := by simp [Tick, h]
    simp only [runTicks, List.foldl_cons, this]
    exact ih

/-- The completed room is not rotating. -/
theorem completedFlip_not_rotating (a : ARoomFlipActor) :
    a.completedFlip.CurrentState ≠ ERoomFlipState.Rotating := by
  unfold completedFlip
  cases a.bCanFlipMultipleTimes <;> simp

/-- Rotating further forgets the earlier progress. -/
theorem rotatedTo_rotatedTo (a : ARoomFlipActor) (p q : ℚ) :
    (a.rotatedTo p).rotatedTo q = a.rotatedTo q := by
  simp [rotatedTo, easedAt]

/-- Completing forgets the earlier progress. -/
theorem rotatedTo_completedFlip (a : ARoomFlipActor) (p : ℚ) :
    (a.rotatedTo p).completedFlip = a.completedFlip := by
  simp [completedFlip, rotatedTo, easedAt]

/-- Ticks that take a rotating room out of the phase Rotating leave it as the
completing branch does. -/
theorem runTicks_completed (DeltaTimes : List ℚ) (a : ARoomFlipActor)
    (hs : a.CurrentState = ERoomFlipState.Rotating)
    (hf : (runTicks a DeltaTimes).CurrentState ≠ ERoomFlipState.Rotating) :
    runTicks a DeltaTimes = a.completedFlip := by
  induction DeltaTimes generalizing a with
  | nil => exact absurd hs hf
  | cons dt rest ih =>
    have ht : (a.Tick dt).1 = (a.UpdateRotation dt).1 := by simp [Tick, hs]
    have hrun : runTicks a (dt :: rest) = runTicks (a.UpdateRotation dt).1 rest := by
      simp [runTicks, ht]
    rw [hrun] at hf ⊢
    rw [UpdateRotation_state] at hf ⊢
    split
    · exact runTicks_not_rotating rest _ (completedFlip_not_rotating a)
    · rename_i hlt
      rw [if_neg hlt] at hf
      rw [ih (a.rotatedTo (FMath.Clamp (a.RotationProgress + dt / a.RotationDuration) 0 1)) hs hf,
        rotatedTo_completedFlip]

/-- Ticks with delta times that are not negative, on a rotating room: the
progress is the sum of the steps until it reaches 1, where the flip completes. -/
theorem runTicks_nonneg (rest : List ℚ) (dt : ℚ) (a : ARoomFlipActor)
    (hs : a.CurrentState = ERoomFlipState.Rotating) (hD : 0 < a.RotationDuration)
    (hp : 0 ≤ a.RotationProgress) (hdt : ∀ d ∈ dt :: rest, 0 ≤ d) :
    (a.RotationProgress + (dt :: rest).sum / a.RotationDuration < 1 →
      runTicks a (dt :: rest) =
        a.rotatedTo (a.RotationProgress + (dt :: rest).sum / a.RotationDuration)) ∧
    (1 ≤ a.RotationProgress + (dt :: rest).sum / a.RotationDuration →
      runTicks a (dt :: rest) = a.completedFlip) := by
  induction rest generalizing a dt with
  | nil =>
    have ht : (a.Tick dt).1 = (a.UpdateRotation dt).1 := by simp [Tick, hs]
    have hrun : runTicks a [dt] = (a.UpdateRotation dt).1 := by simp [runTicks, ht]
    have h0 : 0 ≤ a.RotationProgress + dt / a.RotationDuration :=
      add_nonneg hp (div_nonneg (hdt dt (List.mem_cons_self _ _)) (le_of_lt hD))
    have hc : FMath.Clamp (a.RotationProgress + dt / a.RotationDuration) 0 1 =
        min (a.RotationProgress + dt / a.RotationDuration) 1 := by
      unfold FMath.Clamp
      exact max_eq_left (le_min h0 zero_le_one)
    rw [hrun, UpdateRotation_state, hc]
    simp only [List.sum_cons, List.sum_nil, add_zero]
    constructor
    · intro hlt
      rw [min_eq_left (le_of_lt hlt), if_neg (not_le.mpr hlt)]
    · intro hge
      rw [min_eq_right hge, if_pos (le_refl _)]
  | cons d2 rest ih =>
    have ht : (a.Tick dt).1 = (a.UpdateRotation dt).1 := by simp [Tick, hs]
    have hrun : runTicks a (dt :: d2 :: rest) = runTicks (a.UpdateRotation dt).1 (d2 :: rest) := by
      simp [runTicks, ht]
    have hdt0 : 0 ≤ dt := hdt dt (List.mem_cons_self _ _)
    have hrest : ∀ d ∈ d2 :: rest, 0 ≤ d := fun d hd => hdt d (List.mem_cons_of_mem _ hd)
    have hsum : 0 ≤ (d2 :: rest).sum := List.sum_nonneg hrest
    have h0 : 0 ≤ a.RotationProgress + dt / a.RotationDuration :=
      add_nonneg hp (div_nonneg hdt0 (le_of_lt hD))
    have hc : FMath.Clamp (a.RotationProgress + dt / a.RotationDuration) 0 1 =
        min (a.RotationProgress + dt / a.RotationDuration) 1 := by
      unfold FMath.Clamp
      exact max_eq_left (le_min h0 zero_le_one)
    have hsplit : a.RotationProgress + (dt :: d2 :: rest).sum / a.RotationDuration =
        a.RotationProgress + dt / a.RotationDuration + (d2 :: rest).sum / a.RotationDuration := by
      rw [List.sum_cons, add_div]
      ring
    have hmono : a.RotationProgress + dt / a.RotationDuration ≤
        a.RotationProgress + (dt :: d2 :: rest).sum / a.RotationDuration := by
      rw [hsplit]
      linarith [div_nonneg hsum (le_of_lt hD)]
    rw [hrun, UpdateRotation_state, hc]
    by_cases hfirst : 1 ≤ a.RotationProgress + dt / a.RotationDuration
    · rw [min_eq_right hfirst, if_pos (le_refl _),
        runTicks_not_rotating _ _ (completedFlip_not_rotating a)]
      constructor
      · intro hlt
        exact absurd (le_trans hfirst hmono) (not_le.mpr hlt)
      · intro _
        rfl
    · have hlt1 := not_le.mp hfirst
      rw [min_eq_left (le_of_lt hlt1), if_neg (not_le.mpr hlt1)]
      obtain ⟨i1, i2⟩ := ih d2 (a.rotatedTo (a.RotationProgress + dt / a.RotationDuration))
        hs hD h0 hrest
      have e1 : (a.rotatedTo (a.RotationProgress + dt / a.RotationDuration)).RotationProgress +
          (d2 :: rest).sum /
            (a.rotatedTo (a.RotationProgress + dt / a.RotationDuration)).RotationDuration =
          a.RotationProgress + (dt :: d2 :: rest).sum / a.RotationDuration := by
        rw [hsplit]
        rfl
      rw [e1, rotatedTo_rotatedTo] at i1
      rw [e1, rotatedTo_completedFlip] at i2
      exact ⟨i1, i2⟩

end ARoomFlipActor

/-- The room after a successful `TriggerFlip`, for some pair of player
references. -/
theorem TriggerFlip_success_exists (a : ARoomFlipActor) (World : UWorld)
    (h : a.CanFlip = true) :
    ∃ ap pc, (a.TriggerFlip World).2.1 =
      { a with
        CurrentState := ERoomFlipState.Rotating,
        RotationProgress := 0,
        FlipCount := a.FlipCount + 1,
        StartRotation := a.RoomRoot.GetComponentRotation,
        TargetRotation :=
          ({ a with StartRotation := a.RoomRoot.GetComponentRotation }).CalculateTargetRotation,
        AttachedPlayer := ap,
        PlayerController := pc } :=
  ⟨_, _, (ARoomFlipActor.TriggerFlip_success a World h).2⟩

/-! ## Lemmas on the room flip in binary32 arithmetic -/

namespace FRotator

/-- Adding on an axis twice adds the sum. -/
theorem addOnAxis_addOnAxis (R : FRotator) (Axis : ERoomFlipAxis) (x y : ℚ) :
    (R.addOnAxis Axis x).addOnAxis Axis y = R.addOnAxis Axis (x + y) := by
  cases Axis <;> simp [addOnAxis, add_assoc]

/-- Adding 0 on an axis changes nothing. -/
theorem addOnAxis_zero (R : FRotator) (Axis : ERoomFlipAxis) : R.addOnAxis Axis 0 = R := by
  cases Axis <;> simp [addOnAxis]

/-- The component on the axis after adding on that axis. -/
theorem onAxis_addOnAxis (R : FRotator) (Axis : ERoomFlipAxis) (x : ℚ) :
    (R.addOnAxis Axis x).onAxis Axis = R.onAxis Axis + x := by
  cases Axis <;> rfl

/-- The component on an axis of a rotator of binary32 values is one. -/
theorem round_onAxis (R : FRotator) (Axis : ERoomFlipAxis)
    (hR : Float32.round R.Pitch = R.Pitch ∧ Float32.round R.Yaw = R.Yaw ∧
      Float32.round R.Roll = R.Roll) :
    Float32.round (R.onAxis Axis) = R.onAxis Axis := by
  cases Axis
  · exact hR.2.2
  · exact hR.1
  · exact hR.2.1

/-- Adding on an axis without rounding keeps a rotator of binary32 values one. -/
theorem round_addOnAxis (R : FRotator) (Axis : ERoomFlipAxis) (x : ℚ)
    (hR : Float32.round R.Pitch = R.Pitch ∧ Float32.round R.Yaw = R.Yaw ∧
      Float32.round R.Roll = R.Roll)
    (hs : Float32.round (R.onAxis Axis + x) = R.onAxis Axis + x) :
    Float32.round (R.addOnAxis Axis x).Pitch = (R.addOnAxis Axis x).Pitch ∧
      Float32.round (R.addOnAxis Axis x).Yaw = (R.addOnAxis Axis x).Yaw ∧
      Float32.round (R.addOnAxis Axis x).Roll = (R.addOnAxis Axis x).Roll := by
  cases Axis
  · exact ⟨hR.1, hR.2.1, hs⟩
  · exact ⟨hs, hR.2.1, hR.2.2⟩
  · exact ⟨hR.1, hs, hR.2.2⟩

end FRotator

/-- `Lerp32` from a rotator of binary32 values to the same rotator with `x`
added on an axis, when neither the product `x * Alpha` nor the sum on the axis
is rounded: `x * Alpha` is added on the axis. -/
theorem FMath.Lerp32_addOnAxis (A : FRotator) (Axis : ERoomFlipAxis) (x Alpha : ℚ)
    (hA : Float32.round A.Pitch = A.Pitch ∧ Float32.round A.Yaw = A.Yaw ∧
      Float32.round A.Roll = A.Roll)
    (hx : Float32.round x = x) (hp : Float32.round (x * Alpha) = x * Alpha)
    (hs : Float32.round (A.onAxis Axis + x * Alpha) = A.onAxis Axis + x * Alpha) :
    FMath.Lerp32 A (A.addOnAxis Axis x) Alpha = A.addOnAxis Axis (x * Alpha) := by
  obtain ⟨h1, h2, h3⟩ := hA
  cases Axis <;>
    simp only [FRotator.onAxis] at hs <;>
    simp [FMath.Lerp32, FRotator.addOnAxis, Float32.round_zero, h1, h2, h3, hx, hp, hs]

namespace ARoomFlipActor

/-- The room after a successful `TriggerFlip32`, up to the two player references. -/
theorem TriggerFlip32_success (a : ARoomFlipActor) (World : UWorld) (h : a.CanFlip = true) :
    (a.TriggerFlip32 World).1 = true ∧
      (a.TriggerFlip32 World).2.1 =
        { a with
          CurrentState := ERoomFlipState.Rotating,
          RotationProgress := 0,
          FlipCount := a.FlipCount + 1,
          StartRotation := a.RoomRoot.GetComponentRotation,
          TargetRotation :=
            ({ a with StartRotation := a.RoomRoot.GetComponentRotation }).CalculateTargetRotation32,
          AttachedPlayer := (a.TriggerFlip32 World).2.1.AttachedPlayer,
          PlayerController := (a.TriggerFlip32 World).2.1.PlayerController } := by
  unfold TriggerFlip32
  simp only [h, Bool.not_true, Bool.false_eq_true, if_false, true_and]
  cases hb : a.bAttachPlayer
  · simp [CalculateTargetRotation32]
  · simp only [if_true]
    rw [AttachPlayerToRoom_fields]
    simp [CalculateTargetRotation32]

/-- The whole room after `UpdateRotation32`, on its two branches. -/
theorem UpdateRotation32_state (a : ARoomFlipActor) (DeltaTime : ℚ) :
    (a.UpdateRotation32 DeltaTime).1 =
      (if FMath.Clamp (Float32.round
          (a.RotationProgress + Float32.round (DeltaTime / a.RotationDuration))) 0 1 ≥ 1 then
        a.completedFlip32
      else a.rotatedTo32 (FMath.Clamp (Float32.round
        (a.RotationProgress + Float32.round (DeltaTime / a.RotationDuration))) 0 1)) := by
  have hle := (Clamp_mem (Float32.round
    (a.RotationProgress + Float32.round (DeltaTime / a.RotationDuration)))).2
  unfold UpdateRotation32
  simp only []
  split
  · rename_i hge
    have h1 : FMath.Clamp (Float32.round
        (a.RotationProgress + Float32.round (DeltaTime / a.RotationDuration))) 0 1 = 1 :=
      le_antisymm hle hge
    simp only [h1]
    cases h2 : a.AttachedPlayer <;> cases h3 : a.bCanFlipMultipleTimes <;>
      cases h4 : a.bReverseEachFlip <;> cases h5 : a.RotationCurve <;>
      simp [completedFlip32, rotatedTo32, easedAt32, DetachPlayerFromRoom,
        USceneComponent.SetWorldRotation, h2, h3, h4, h5]
  · cases h5 : a.RotationCurve <;>
      simp [rotatedTo32, easedAt32, USceneComponent.SetWorldRotation, h5]

/-- Rounded ticks on a room that is not rotating do nothing. -/
theorem runTicks32_not_rotating (DeltaTimes : List ℚ) (a : ARoomFlipActor)
    (h : a.CurrentState ≠ ERoomFlipState.Rotating) : runTicks32 a DeltaTimes = a := by
  induction DeltaTimes with
  | nil => rfl
  | cons dt rest ih =>
    have : (a.Tick32 dt).1 = a := by simp [Tick32, h]
    simp only [runTicks32, List.foldl_cons, this]
    exact ih

/-- The completed room is not rotating. -/
theorem completedFlip32_not_rotating (a : ARoomFlipActor) :
    a.completedFlip32.CurrentState ≠ ERoomFlipState.Rotating := by
  unfold completedFlip32
  cases a.bCanFlipMultipleTimes <;> simp

/-- Rotating further forgets the earlier progress. -/
theorem rotatedTo32_rotatedTo32 (a : ARoomFlipActor) (p q : ℚ) :
    (a.rotatedTo32 p).rotatedTo32 q = a.rotatedTo32 q := by
  simp [rotatedTo32, easedAt32]

/-- Completing forgets the earlier progress. -/
theorem rotatedTo32_completedFlip32 (a : ARoomFlipActor) (p : ℚ) :
    (a.rotatedTo32 p).completedFlip32 = a.completedFlip32 := by
  simp [completedFlip32, rotatedTo32, easedAt32]

/-- Rounded ticks that take a rotating room out of the phase Rotating leave it
as the completing branch does. -/
theorem runTicks32_completed (DeltaTimes : List ℚ) (a : ARoomFlipActor)
    (hs : a.CurrentState = ERoomFlipState.Rotating)
    (hf : (runTicks32 a DeltaTimes).CurrentState ≠ ERoomFlipState.Rotating) :
    runTicks32 a DeltaTimes = a.completedFlip32 := by
  induction DeltaTimes generalizing a with
  | nil => exact absurd hs hf
  | cons dt rest ih =>
    have ht : (a.Tick32 dt).1 = (a.UpdateRotation32 dt).1 := by simp [Tick32, hs]
    have hrun : runTicks32 a (dt :: rest) = runTicks32 (a.UpdateRotation32 dt).1 rest := by
      simp [runTicks32, ht]
    rw [hrun] at hf ⊢
    rw [UpdateRotation32_state] at hf ⊢
    split
    · exact runTicks32_not_rotating rest _ (completedFlip32_not_rotating a)
    · rename_i hlt
      rw [if_neg hlt] at hf
      rw [ih (a.rotatedTo32 (FMath.Clamp (Float32.round
          (a.RotationProgress + Float32.round (dt / a.RotationDuration))) 0 1)) hs hf,
        rotatedTo32_completedFlip32]

/-- Rounded ticks with delta times that are not negative, on a rotating room,
when no quotient `d / RotationDuration` is rounded and no running total of the
progress below 1 is rounded: the progress is the sum of the steps until it
reaches 1, where the flip completes. -/
theorem runTicks32_exact (rest : List ℚ) (dt : ℚ) (a : ARoomFlipActor)
    (hs : a.CurrentState = ERoomFlipState.Rotating) (hD : 0 < a.RotationDuration)
    (hp : 0 ≤ a.RotationProgress) (hdt : ∀ d ∈ dt :: rest, 0 ≤ d)
    (hq : ∀ d ∈ dt :: rest, Float32.round (d / a.RotationDuration) = d / a.RotationDuration)
    (hx : ∀ k : ℕ, k ≤ (dt :: rest).length →
      a.RotationProgress + ((dt :: rest).take k).sum / a.RotationDuration < 1 →
      Float32.round (a.RotationProgress + ((dt :: rest).take k).sum / a.RotationDuration) =
        a.RotationProgress + ((dt :: rest).take k).sum / a.RotationDuration) :
    (a.RotationProgress + (dt :: rest).sum / a.RotationDuration < 1 →
      runTicks32 a (dt :: rest) =
        a.rotatedTo32 (a.RotationProgress + (dt :: rest).sum / a.RotationDuration)) ∧
    (1 ≤ a.RotationProgress + (dt :: rest).sum / a.RotationDuration →
      runTicks32 a (dt :: rest) = a.completedFlip32) := by
  induction rest generalizing a dt with
  | nil =>
    have ht : (a.Tick32 dt).1 = (a.UpdateRotation32 dt).1 := by simp [Tick32, hs]
    have hrun : runTicks32 a [dt] = (a.UpdateRotation32 dt).1 := by simp [runTicks32, ht]
    have h0 : 0 ≤ a.RotationProgress + dt / a.RotationDuration :=
      add_nonneg hp (div_nonneg (hdt dt (List.mem_cons_self _ _)) (le_of_lt hD))
    have hq1 := hq dt (List.mem_cons_self _ _)
    have hx1 := hx 1 (by simp)
    simp only [List.take_succ_cons, List.take_zero, List.sum_cons, List.sum_nil, add_zero] at hx1
    rw [hrun, UpdateRotation32_state, hq1]
    simp only [List.sum_cons, List.sum_nil, add_zero]
    constructor
    · intro hlt
      have hc : FMath.Clamp (a.RotationProgress + dt / a.RotationDuration) 0 1 =
          a.RotationProgress + dt / a.RotationDuration := by
        unfold FMath.Clamp
        rw [min_eq_left (le_of_lt hlt), max_eq_left h0]
      rw [hx1 hlt, hc, if_neg (not_le.mpr hlt)]
    · intro hge
      have hc : FMath.Clamp
          (Float32.round (a.RotationProgress + dt / a.RotationDuration)) 0 1 ≥ 1 := by
        unfold FMath.Clamp
        rw [min_eq_right (Float32.one_le_round _ hge)]
        exact le_max_left _ _
      rw [if_pos hc]
  | cons d2 rest ih =>
    have ht : (a.Tick32 dt).1 = (a.UpdateRotation32 dt).1 := by simp [Tick32, hs]
    have hrun : runTicks32 a (dt :: d2 :: rest) =
        runTicks32 (a.UpdateRotation32 dt).1 (d2 :: rest) := by
      simp [runTicks32, ht]
    have hdt0 : 0 ≤ dt := hdt dt (List.mem_cons_self _ _)
    have hrest : ∀ d ∈ d2 :: rest, 0 ≤ d := fun d hd => hdt d (List.mem_cons_of_mem _ hd)
    have hsum : 0 ≤ (d2 :: rest).sum := List.sum_nonneg hrest
    have h0 : 0 ≤ a.RotationProgress + dt / a.RotationDuration :=
      add_nonneg hp (div_nonneg hdt0 (le_of_lt hD))
    have hq1 := hq dt (List.mem_cons_self _ _)
    have hx1 := hx 1 (by simp)
    simp only [List.take_succ_cons, List.take_zero, List.sum_cons, List.sum_nil, add_zero] at hx1
    have hsplit : a.RotationProgress + (dt :: d2 :: rest).sum / a.RotationDuration =
        a.RotationProgress + dt / a.RotationDuration + (d2 :: rest).sum / a.RotationDuration := by
      rw [List.sum_cons, add_div]
      ring
    have hmono : a.RotationProgress + dt / a.RotationDuration ≤
        a.RotationProgress + (dt :: d2 :: rest).sum / a.RotationDuration := by
      rw [hsplit]
      linarith [div_nonneg hsum (le_of_lt hD)]
    rw [hrun, UpdateRotation32_state, hq1]
    by_cases hfirst : 1 ≤ a.RotationProgress + dt / a.RotationDuration
    · have hc : FMath.Clamp
          (Float32.round (a.RotationProgress + dt / a.RotationDuration)) 0 1 ≥ 1 := by
        unfold FMath.Clamp
        rw [min_eq_right (Float32.one_le_round _ hfirst)]
        exact le_max_left _ _
      rw [if_pos hc, runTicks32_not_rotating _ _ (completedFlip32_not_rotating a)]
      constructor
      · intro hlt
        exact absurd (le_trans hfirst hmono) (not_le.mpr hlt)
      · intro _
        rfl
    · have hlt1 := not_le.mp hfirst
      have hc : FMath.Clamp (a.RotationProgress + dt / a.RotationDuration) 0 1 =
          a.RotationProgress + dt / a.RotationDuration := by
        unfold FMath.Clamp
        rw [min_eq_left (le_of_lt hlt1), max_eq_left h0]
      rw [hx1 hlt1, hc, if_neg (not_le.mpr hlt1)]
      have hq2 : ∀ d ∈ d2 :: rest,
          Float32.round
            (d / (a.rotatedTo32 (a.RotationProgress + dt / a.RotationDuration)).RotationDuration) =
            d / (a.rotatedTo32 (a.RotationProgress + dt / a.RotationDuration)).RotationDuration :=
        fun d hd => hq d (List.mem_cons_of_mem _ hd)
      have hx2 : ∀ k : ℕ, k ≤ (d2 :: rest).length →
          (a.rotatedTo32 (a.RotationProgress + dt / a.RotationDuration)).RotationProgress +
              ((d2 :: rest).take k).sum /
                (a.rotatedTo32 (a.RotationProgress + dt / a.RotationDuration)).RotationDuration <
            1 →
          Float32.round
            ((a.rotatedTo32 (a.RotationProgress + dt / a.RotationDuration)).RotationProgress +
              ((d2 :: rest).take k).sum /
                (a.rotatedTo32 (a.RotationProgress + dt / a.RotationDuration)).RotationDuration) =
            (a.rotatedTo32 (a.RotationProgress + dt / a.RotationDuration)).RotationProgress +
              ((d2 :: rest).take k).sum /
                (a.rotatedTo32 (a.RotationProgress + dt / a.RotationDuration)).RotationDuration := by
        intro k hk hlt
        have e0 : a.RotationProgress + ((dt :: d2 :: rest).take (k + 1)).sum / a.RotationDuration =
            a.RotationProgress + dt / a.RotationDuration +
              ((d2 :: rest).take k).sum / a.RotationDuration := by
          rw [List.take_succ_cons, List.sum_cons, add_div]
          ring
        have hk1 := hx (k + 1) (by simp only [List.length_cons] at hk ⊢; omega)
        rw [e0] at hk1
        exact hk1 hlt
      obtain ⟨i1, i2⟩ := ih d2 (a.rotatedTo32 (a.RotationProgress + dt / a.RotationDuration))
        hs hD h0 hrest hq2 hx2
      have e1 : (a.rotatedTo32 (a.RotationProgress + dt / a.RotationDuration)).RotationProgress +
          (d2 :: rest).sum /
            (a.rotatedTo32 (a.RotationProgress + dt / a.RotationDuration)).RotationDuration =
          a.RotationProgress + (dt :: d2 :: rest).sum / a.RotationDuration := by
        rw [hsplit]
        rfl
      rw [e1, rotatedTo32_rotatedTo32] at i1
      rw [e1, rotatedTo32_completedFlip32] at i2
      exact ⟨i1, i2⟩

/-- The fields of the room after a successful `TriggerFlip32`. -/
theorem TriggerFlip32_fields (a : ARoomFlipActor) (World : UWorld) (h : a.CanFlip = true) :
    (a.TriggerFlip32 World).1 = true ∧
      (a.TriggerFlip32 World).2.1.CurrentState = ERoomFlipState.Rotating ∧
      (a.TriggerFlip32 World).2.1.StartRotation = a.RoomRoot.GetComponentRotation ∧
      (a.TriggerFlip32 World).2.1.TargetRotation =
        ({ a with StartRotation := a.RoomRoot.GetComponentRotation }).CalculateTargetRotation32 ∧
      (a.TriggerFlip32 World).2.1.RotationAngle = a.RotationAngle ∧
      (a.TriggerFlip32 World).2.1.RotationAxis = a.RotationAxis ∧
      (a.TriggerFlip32 World).2.1.RotationCurve = a.RotationCurve ∧
      (a.TriggerFlip32 World).2.1.bCanFlipMultipleTimes = a.bCanFlipMultipleTimes ∧
      (a.TriggerFlip32 World).2.1.bReverseEachFlip = a.bReverseEachFlip := by
  obtain ⟨t, e⟩ := TriggerFlip32_success a World h
  refine ⟨t, ?_, ?_, ?_, ?_, ?_, ?_, ?_, ?_⟩ <;> rw [e]

/-- The fields of the room as the completing branch of `UpdateRotation32`
leaves it. -/
theorem completedFlip32_fields (b : ARoomFlipActor) :
    b.completedFlip32.RoomRoot.GetComponentRotation =
        FMath.Lerp32 b.StartRotation b.TargetRotation (b.easedAt32 1) ∧
      b.completedFlip32.CurrentState =
        (if b.bCanFlipMultipleTimes then ERoomFlipState.Idle else ERoomFlipState.Completed) ∧
      b.completedFlip32.RotationAngle =
        (if b.bCanFlipMultipleTimes ∧ b.bReverseEachFlip then -b.RotationAngle
          else b.RotationAngle) ∧
      b.completedFlip32.RotationAxis = b.RotationAxis ∧
      b.completedFlip32.RotationCurve = b.RotationCurve ∧
      b.completedFlip32.bCanFlipMultipleTimes = b.bCanFlipMultipleTimes ∧
      b.completedFlip32.bReverseEachFlip = b.bReverseEachFlip :=
  ⟨rfl, rfl, rfl, rfl, rfl, rfl, rfl⟩

/-- The eased progress depends on the curve only. -/
theorem easedAt32_congr (a b : ARoomFlipActor) (h : b.RotationCurve = a.RotationCurve)
    (p : ℚ) : b.easedAt32 p = a.easedAt32 p := by
  unfold easedAt32
  rw [h]

end ARoomFlipActor

/-- The room after a successful `TriggerFlip32`, for some pair of player
references. -/
theorem TriggerFlip32_success_exists (a : ARoomFlipActor) (World : UWorld)
    (h : a.CanFlip = true) :
    ∃ ap pc, (a.TriggerFlip32 World).2.1 =
      { a with
        CurrentState := ERoomFlipState.Rotating,
        RotationProgress := 0,
        FlipCount := a.FlipCount + 1,
        StartRotation := a.RoomRoot.GetComponentRotation,
        TargetRotation :=
          ({ a with StartRotation := a.RoomRoot.GetComponentRotation }).CalculateTargetRotation32,
        AttachedPlayer := ap,
        PlayerController := pc } :=
  ⟨_, _, (ARoomFlipActor.TriggerFlip32_success a World h).2⟩

/-! ## Room flip: two reversed flips, the timed flip, the phase order -/

/-- C18 (counterexample). `tinyRollRoom` is repeatable and reversing, has a
positive duration, and starts Idle with a roll of `2^-60` degrees and the angle
180 on the X axis. Both triggers are accepted and one tick of 3 s completes
each flip, yet the room ends with roll 0, not `2^-60`: the sum `2^-60 + 180` of
the first `CalculateTargetRotation` is rounded to 180, in binary32 as in
binary64. -/
theorem two_flips_rounding :
    tinyRollRoom.CurrentState = ERoomFlipState.Idle ∧
      tinyRollRoom.bCanFlipMultipleTimes = true ∧
      tinyRollRoom.bReverseEachFlip = true ∧
      0 < tinyRollRoom.RotationDuration ∧
      tinyRollRoom.RoomRoot.GetComponentRotation =
        { Pitch := 0, Yaw := 0, Roll := 1 / 2 ^ 60 } ∧
      (tinyRollRoom.TriggerFlip32 sampleWorld).1 = true ∧
      (runTicks32 (tinyRollRoom.TriggerFlip32 sampleWorld).2.1 [3]).CurrentState =
        ERoomFlipState.Idle ∧
      ((runTicks32 (tinyRollRoom.TriggerFlip32 sampleWorld).2.1 [3]).TriggerFlip32
        sampleWorld).1 = true ∧
      (runTicks32 ((runTicks32 (tinyRollRoom.TriggerFlip32 sampleWorld).2.1 [3]).TriggerFlip32
        sampleWorld).2.1 [3]).CurrentState = ERoomFlipState.Idle ∧
      (runTicks32 ((runTicks32 (tinyRollRoom.TriggerFlip32 sampleWorld).2.1 [3]).TriggerFlip32
        sampleWorld).2.1 [3]).RoomRoot.GetComponentRotation =
          { Pitch := 0, Yaw := 0, Roll := 0 } ∧
      (runTicks32 ((runTicks32 (tinyRollRoom.TriggerFlip32 sampleWorld).2.1 [3]).TriggerFlip32
        sampleWorld).2.1 [3]).RoomRoot.GetComponentRotation ≠
          tinyRollRoom.RoomRoot.GetComponentRotation := by
  refine ⟨?_, ?_, ?_, ?_, ?_, ?_, ?_, ?_, ?_, ?_, ?_⟩
  all_goals decide!

/-- C18 (amended). For a room with repeatable-flip and reverse-each-flip
enabled and a positive duration, starting Idle at an orientation `o` of
binary32 values with configured angle `x` on any axis, `e` being the eased
value at progress 1 (1 without a curve), and provided no operation on the
flipped axis is rounded (`o + x`, `x * e`, `o + x * e` and `o + x * e - x` are
binary32 values): the first `TriggerFlip` is accepted and turns from `o` to the
target `o` with `x` added on the axis; the ticks that complete that flip leave
the room at `o` with `x * e` added, which is that target when there is no
curve, and the configured angle at `-x`; the second `TriggerFlip` is accepted
and turns from there to the target with `-x` added on the axis; and after the
ticks that complete the second flip the room orientation is `o` again, the
configured angle is `x` again and the room is Idle. -/
theorem two_flips_restore_exact (a : ARoomFlipActor) (World1 World2 : UWorld)
    (DeltaTimes1 DeltaTimes2 : List ℚ)
    (hidle : a.CurrentState = ERoomFlipState.Idle)
    (hm : a.bCanFlipMultipleTimes = true) (hr : a.bReverseEachFlip = true)
    (_hD : 0 < a.RotationDuration)
    (h1 : (runTicks32 (a.TriggerFlip32 World1).2.1 DeltaTimes1).CurrentState ≠
      ERoomFlipState.Rotating)
    (h2 : (runTicks32 ((runTicks32 (a.TriggerFlip32 World1).2.1 DeltaTimes1).TriggerFlip32
      World2).2.1 DeltaTimes2).CurrentState ≠ ERoomFlipState.Rotating)
    (ho : Float32.round a.RoomRoot.GetComponentRotation.Pitch =
        a.RoomRoot.GetComponentRotation.Pitch ∧
      Float32.round a.RoomRoot.GetComponentRotation.Yaw =
        a.RoomRoot.GetComponentRotation.Yaw ∧
      Float32.round a.RoomRoot.GetComponentRotation.Roll =
        a.RoomRoot.GetComponentRotation.Roll)
    (ha : Float32.round a.RotationAngle = a.RotationAngle)
    (hx1 : Float32.round
        (a.RoomRoot.GetComponentRotation.onAxis a.RotationAxis + a.RotationAngle) =
      a.RoomRoot.GetComponentRotation.onAxis a.RotationAxis + a.RotationAngle)
    (hx2 : Float32.round (a.RotationAngle * a.easedAt32 1) = a.RotationAngle * a.easedAt32 1)
    (hx3 : Float32.round
        (a.RoomRoot.GetComponentRotation.onAxis a.RotationAxis +
          a.RotationAngle * a.easedAt32 1) =
      a.RoomRoot.GetComponentRotation.onAxis a.RotationAxis + a.RotationAngle * a.easedAt32 1)
    (hx4 : Float32.round
        (a.RoomRoot.GetComponentRotation.onAxis a.RotationAxis +
          a.RotationAngle * a.easedAt32 1 + -a.RotationAngle) =
      a.RoomRoot.GetComponentRotation.onAxis a.RotationAxis +
        a.RotationAngle * a.easedAt32 1 + -a.RotationAngle) :
    (a.TriggerFlip32 World1).1 = true ∧
      (a.TriggerFlip32 World1).2.1.StartRotation = a.RoomRoot.GetComponentRotation ∧
      (a.TriggerFlip32 World1).2.1.TargetRotation =
        a.RoomRoot.GetComponentRotation.addOnAxis a.RotationAxis a.RotationAngle ∧
      (runTicks32 (a.TriggerFlip32 World1).2.1 DeltaTimes1).RoomRoot.GetComponentRotation =
        a.RoomRoot.GetComponentRotation.addOnAxis a.RotationAxis
          (a.RotationAngle * a.easedAt32 1) ∧
      (a.RotationCurve = none →
        (runTicks32 (a.TriggerFlip32 World1).2.1 DeltaTimes1).RoomRoot.GetComponentRotation =
          (a.TriggerFlip32 World1).2.1.TargetRotation) ∧
      (runTicks32 (a.TriggerFlip32 World1).2.1 DeltaTimes1).RotationAngle = -a.RotationAngle ∧
      ((runTicks32 (a.TriggerFlip32 World1).2.1 DeltaTimes1).TriggerFlip32 World2).1 = true ∧
      ((runTicks32 (a.TriggerFlip32 World1).2.1 DeltaTimes1).TriggerFlip32
        World2).2.1.RotationAngle = -a.RotationAngle ∧
      ((runTicks32 (a.TriggerFlip32 World1).2.1 DeltaTimes1).TriggerFlip32
        World2).2.1.StartRotation =
          (runTicks32 (a.TriggerFlip32 World1).2.1 DeltaTimes1).RoomRoot.GetComponentRotation ∧
      ((runTicks32 (a.TriggerFlip32 World1).2.1 DeltaTimes1).TriggerFlip32
        World2).2.1.TargetRotation =
          (runTicks32 (a.TriggerFlip32 World1).2.1
            DeltaTimes1).RoomRoot.GetComponentRotation.addOnAxis a.RotationAxis
              (-a.RotationAngle) ∧
      (runTicks32 ((runTicks32 (a.TriggerFlip32 World1).2.1 DeltaTimes1).TriggerFlip32
        World2).2.1 DeltaTimes2).RoomRoot.GetComponentRotation =
          a.RoomRoot.GetComponentRotation ∧
      (runTicks32 ((runTicks32 (a.TriggerFlip32 World1).2.1 DeltaTimes1).TriggerFlip32
        World2).2.1 DeltaTimes2).RotationAngle = a.RotationAngle ∧
      (runTicks32 ((runTicks32 (a.TriggerFlip32 World1).2.1 DeltaTimes1).TriggerFlip32
        World2).2.1 DeltaTimes2).CurrentState = ERoomFlipState.Idle := by
  have hcan : a.CanFlip = true := by simp [ARoomFlipActor.CanFlip, hidle]
  obtain ⟨t1, f1s, f1S, f1T, f1a, f1x, f1c, f1m, f1r⟩ :=
    ARoomFlipActor.TriggerFlip32_fields a World1 hcan
  have hcalc : ∀ (b : ARoomFlipActor) (S : FRotator) (x : ℚ), b.StartRotation = S →
      b.RotationAxis = a.RotationAxis → b.RotationAngle = x →
      Float32.round (S.onAxis a.RotationAxis + x) = S.onAxis a.RotationAxis + x →
      b.CalculateTargetRotation32 = S.addOnAxis a.RotationAxis x := by
    intro b S x hS hax hx h
    subst hS hx
    unfold ARoomFlipActor.CalculateTargetRotation32
    rw [hax]
    cases hax2 : a.RotationAxis <;> rw [hax2] at h <;>
      simp only [FRotator.onAxis] at h <;> simp [FRotator.addOnAxis, h]
  have hT1 : (a.TriggerFlip32 World1).2.1.TargetRotation =
      a.RoomRoot.GetComponentRotation.addOnAxis a.RotationAxis a.RotationAngle := by
    rw [f1T]
    exact hcalc { a with StartRotation := a.RoomRoot.GetComponentRotation } _ _ rfl rfl rfl hx1
  have e2 := ARoomFlipActor.runTicks32_completed DeltaTimes1 _ f1s h1
  obtain ⟨c1R, c1s, c1a, c1x, c1c, c1m, c1r⟩ :=
    ARoomFlipActor.completedFlip32_fields (a.TriggerFlip32 World1).2.1
  have he1 := ARoomFlipActor.easedAt32_congr a (a.TriggerFlip32 World1).2.1 f1c 1
  rw [f1S, hT1, he1] at c1R
  rw [FMath.Lerp32_addOnAxis _ _ _ _ ho ha hx2 hx3] at c1R
  rw [f1m, hm] at c1s
  rw [f1m, f1r, hm, hr, f1a] at c1a
  simp only [if_true, and_self] at c1s c1a
  rw [f1x] at c1x
  rw [f1c] at c1c
  rw [f1m] at c1m
  rw [f1r] at c1r
  rw [e2] at h2 ⊢
  have hcan2 : (a.TriggerFlip32 World1).2.1.completedFlip32.CanFlip = true := by
    simp [ARoomFlipActor.CanFlip, c1s]
  obtain ⟨t2, f2s, f2S, f2T, f2a, f2x, f2c, f2m, f2r⟩ :=
    ARoomFlipActor.TriggerFlip32_fields (a.TriggerFlip32 World1).2.1.completedFlip32 World2 hcan2
  have hS2 := FRotator.round_addOnAxis a.RoomRoot.GetComponentRotation a.RotationAxis
    (a.RotationAngle * a.easedAt32 1) ho hx3
  have hT2 : ((a.TriggerFlip32 World1).2.1.completedFlip32.TriggerFlip32
      World2).2.1.TargetRotation =
      (a.RoomRoot.GetComponentRotation.addOnAxis a.RotationAxis
        (a.RotationAngle * a.easedAt32 1)).addOnAxis a.RotationAxis (-a.RotationAngle) := by
    rw [f2T]
    refine hcalc
      { (a.TriggerFlip32 World1).2.1.completedFlip32 with
        StartRotation :=
          (a.TriggerFlip32 World1).2.1.completedFlip32.RoomRoot.GetComponentRotation }
      _ _ c1R c1x c1a ?_
    rw [FRotator.onAxis_addOnAxis]
    exact hx4
  have e4 := ARoomFlipActor.runTicks32_completed DeltaTimes2 _ f2s h2
  obtain ⟨c2R, c2s, c2a, -, -, -, -⟩ :=
    ARoomFlipActor.completedFlip32_fields
      ((a.TriggerFlip32 World1).2.1.completedFlip32.TriggerFlip32 World2).2.1
  have he2 := ARoomFlipActor.easedAt32_congr a
    ((a.TriggerFlip32 World1).2.1.completedFlip32.TriggerFlip32 World2).2.1
    (by rw [f2c, c1c]) 1
  rw [f2S, hT2, he2, c1R] at c2R
  have hna : Float32.round (-a.RotationAngle) = -a.RotationAngle := by
    rw [Float32.round_neg, ha]
  have hnp : Float32.round (-a.RotationAngle * a.easedAt32 1) =
      -a.RotationAngle * a.easedAt32 1 := by
    rw [neg_mul, Float32.round_neg, hx2]
  have hns : Float32.round
      ((a.RoomRoot.GetComponentRotation.addOnAxis a.RotationAxis
          (a.RotationAngle * a.easedAt32 1)).onAxis a.RotationAxis +
        -a.RotationAngle * a.easedAt32 1) =
      (a.RoomRoot.GetComponentRotation.addOnAxis a.RotationAxis
          (a.RotationAngle * a.easedAt32 1)).onAxis a.RotationAxis +
        -a.RotationAngle * a.easedAt32 1 := by
    have hz : (a.RoomRoot.GetComponentRotation.addOnAxis a.RotationAxis
          (a.RotationAngle * a.easedAt32 1)).onAxis a.RotationAxis +
        -a.RotationAngle * a.easedAt32 1 =
        a.RoomRoot.GetComponentRotation.onAxis a.RotationAxis := by
      rw [FRotator.onAxis_addOnAxis]
      ring
    rw [hz]
    exact FRotator.round_onAxis _ _ ho
  rw [FMath.Lerp32_addOnAxis _ _ _ _ hS2 hna hnp hns, FRotator.addOnAxis_addOnAxis] at c2R
  have hzero : a.RotationAngle * a.easedAt32 1 + -a.RotationAngle * a.easedAt32 1 = 0 := by
    ring
  rw [hzero, FRotator.addOnAxis_zero] at c2R
  rw [f2m, c1m, hm] at c2s
  rw [f2m, f2r, c1m, c1r, hm, hr, f2a, c1a] at c2a
  simp only [if_true, and_self, neg_neg] at c2s c2a
  rw [e4]
  refine ⟨t1, f1S, hT1, c1R, ?_, c1a, t2, ?_, ?_, ?_, c2R, c2a, c2s⟩
  · intro hcurve
    rw [c1R, hT1]
    have : a.easedAt32 1 = 1 := by
      unfold ARoomFlipActor.easedAt32
      rw [hcurve]
      decide!
    rw [this, mul_one]
  · rw [f2a, c1a]
  · rw [f2S]
  · rw [hT2, c1R]

/-- Witness for C18 (amended): `tiltedToggleRoom` (X axis, 180 degrees, 3 s,
placed at roll 1/2), flipped twice with one tick of 3 s each. The roll values
1/2 and 180.5 are binary32 values; the room is at roll 180.5 after the first
flip and back at roll 1/2 after the second. -/
theorem two_flips_restore_exact_witness :
    Float32.round
        (tiltedToggleRoom.RoomRoot.GetComponentRotation.onAxis tiltedToggleRoom.RotationAxis +
          tiltedToggleRoom.RotationAngle) =
      tiltedToggleRoom.RoomRoot.GetComponentRotation.onAxis tiltedToggleRoom.RotationAxis +
        tiltedToggleRoom.RotationAngle ∧
      (tiltedToggleRoom.TriggerFlip32 sampleWorld).2.1.TargetRotation =
        { Pitch := 10, Yaw := 20, Roll := 361 / 2 } ∧
      (runTicks32 (tiltedToggleRoom.TriggerFlip32 sampleWorld).2.1
        [3]).RoomRoot.GetComponentRotation = { Pitch := 10, Yaw := 20, Roll := 361 / 2 } ∧
      (runTicks32 ((runTicks32 (tiltedToggleRoom.TriggerFlip32 sampleWorld).2.1
        [3]).TriggerFlip32 sampleWorld).2.1 [3]).RoomRoot.GetComponentRotation =
          tiltedToggleRoom.RoomRoot.GetComponentRotation ∧
      (runTicks32 ((runTicks32 (tiltedToggleRoom.TriggerFlip32 sampleWorld).2.1
        [3]).TriggerFlip32 sampleWorld).2.1 [3]).RotationAngle =
          tiltedToggleRoom.RotationAngle := by
  have hD : 0 < tiltedToggleRoom.RotationDuration := by
    rw [show tiltedToggleRoom.RotationDuration = 3 from rfl]
    norm_num
  have h1 : (runTicks32 (tiltedToggleRoom.TriggerFlip32 sampleWorld).2.1 [3]).CurrentState ≠
      ERoomFlipState.Rotating := by
    decide!
  have h2 : (runTicks32 ((runTicks32 (tiltedToggleRoom.TriggerFlip32 sampleWorld).2.1
      [3]).TriggerFlip32 sampleWorld).2.1 [3]).CurrentState ≠ ERoomFlipState.Rotating := by
    decide!
  have ho : Float32.round tiltedToggleRoom.RoomRoot.GetComponentRotation.Pitch =
        tiltedToggleRoom.RoomRoot.GetComponentRotation.Pitch ∧
      Float32.round tiltedToggleRoom.RoomRoot.GetComponentRotation.Yaw =
        tiltedToggleRoom.RoomRoot.GetComponentRotation.Yaw ∧
      Float32.round tiltedToggleRoom.RoomRoot.GetComponentRotation.Roll =
        tiltedToggleRoom.RoomRoot.GetComponentRotation.Roll := by
    decide!
  have ha : Float32.round tiltedToggleRoom.RotationAngle = tiltedToggleRoom.RotationAngle := by
    decide!
  have hx1 : Float32.round
      (tiltedToggleRoom.RoomRoot.GetComponentRotation.onAxis tiltedToggleRoom.RotationAxis +
        tiltedToggleRoom.RotationAngle) =
      tiltedToggleRoom.RoomRoot.GetComponentRotation.onAxis tiltedToggleRoom.RotationAxis +
        tiltedToggleRoom.RotationAngle := by
    decide!
  have hall := two_flips_restore_exact tiltedToggleRoom sampleWorld sampleWorld [3] [3]
    rfl rfl rfl hD h1 h2 ho ha hx1 (by decide!) (by decide!) (by decide!)
  refine ⟨hx1, ?_, ?_, hall.2.2.2.2.2.2.2.2.2.2.1, hall.2.2.2.2.2.2.2.2.2.2.2.1⟩
  · decide!
  · decide!

/-- C19 (counterexample). `defaultRoom` is not repeatable, has no easing curve
and a duration of 3 s; it is triggered from Idle and ticked 12 times with a
delta time of 0.25 s, which sum to the duration. The progress is then
`8388607 / 8388608`, not 1, and the phase is still Rotating: the quotient
`0.25f / 3.0f` and the running total are rounded to binary32 at every tick. -/
theorem timed_flip_rounding :
    defaultRoom.CurrentState = ERoomFlipState.Idle ∧
      defaultRoom.bCanFlipMultipleTimes = false ∧
      defaultRoom.RotationCurve.isNone = true ∧
      0 < defaultRoom.RotationDuration ∧
      (defaultRoom.TriggerFlip32 sampleWorld).1 = true ∧
      (∀ d ∈ List.replicate 12 (1 / 4 : ℚ), 0 ≤ d) ∧
      defaultRoom.RotationDuration ≤ (List.replicate 12 (1 / 4 : ℚ)).sum ∧
      (runTicks32 (defaultRoom.TriggerFlip32 sampleWorld).2.1
        (List.replicate 12 (1 / 4))).RotationProgress = 8388607 / 8388608 ∧
      (runTicks32 (defaultRoom.TriggerFlip32 sampleWorld).2.1
        (List.replicate 12 (1 / 4))).RotationProgress ≠ 1 ∧
      (runTicks32 (defaultRoom.TriggerFlip32 sampleWorld).2.1
        (List.replicate 12 (1 / 4))).CurrentState = ERoomFlipState.Rotating := by
  refine ⟨?_, ?_, ?_, ?_, ?_, ?_, ?_, ?_, ?_, ?_⟩
  all_goals decide!

/-- C19 (amended). For a room that is not repeatable, has no easing curve, a
duration `D > 0` and an angle `x` on its axis, placed at an orientation of
binary32 values, and provided no operation of the flip is rounded (the target
component `start + x`, every quotient `d / D` and every running total of the
progress below 1 are binary32 values, and for the midpoint also `x / 2` and
`start + x / 2`): `TriggerFlip` from Idle is accepted and sets the target to
the start orientation with `x` added on the selected axis; once ticks with
delta times that are not negative and sum to at least `D` have been applied,
the progress is exactly 1, the phase is Completed and the room orientation is
that target; and after such ticks summing to `D / 2` the progress is 1/2, its
smoothstep is 1/2, the room is still Rotating and its orientation is the start
orientation with `x / 2` added on that axis. -/
theorem timed_flip_exact (a : ARoomFlipActor) (World : UWorld)
    (hidle : a.CurrentState = ERoomFlipState.Idle)
    (hm : a.bCanFlipMultipleTimes = false) (hcurve : a.RotationCurve = none)
    (hD : 0 < a.RotationDuration)
    (ho : Float32.round a.RoomRoot.GetComponentRotation.Pitch =
        a.RoomRoot.GetComponentRotation.Pitch ∧
      Float32.round a.RoomRoot.GetComponentRotation.Yaw =
        a.RoomRoot.GetComponentRotation.Yaw ∧
      Float32.round a.RoomRoot.GetComponentRotation.Roll =
        a.RoomRoot.GetComponentRotation.Roll)
    (ha : Float32.round a.RotationAngle = a.RotationAngle)
    (hsum : Float32.round
        (a.RoomRoot.GetComponentRotation.onAxis a.RotationAxis + a.RotationAngle) =
      a.RoomRoot.GetComponentRotation.onAxis a.RotationAxis + a.RotationAngle) :
    (a.TriggerFlip32 World).1 = true ∧
    (a.TriggerFlip32 World).2.1.StartRotation = a.RoomRoot.GetComponentRotation ∧
    (a.TriggerFlip32 World).2.1.TargetRotation =
      a.RoomRoot.GetComponentRotation.addOnAxis a.RotationAxis a.RotationAngle ∧
    (∀ DeltaTimes : List ℚ, (∀ d ∈ DeltaTimes, 0 ≤ d) →
      a.RotationDuration ≤ DeltaTimes.sum →
      (∀ d ∈ DeltaTimes, Float32.round (d / a.RotationDuration) = d / a.RotationDuration) →
      (∀ k : ℕ, k ≤ DeltaTimes.length →
        (DeltaTimes.take k).sum / a.RotationDuration < 1 →
        Float32.round ((DeltaTimes.take k).sum / a.RotationDuration) =
          (DeltaTimes.take k).sum / a.RotationDuration) →
      (runTicks32 (a.TriggerFlip32 World).2.1 DeltaTimes).RotationProgress = 1 ∧
        (runTicks32 (a.TriggerFlip32 World).2.1 DeltaTimes).CurrentState =
          ERoomFlipState.Completed ∧
        (runTicks32 (a.TriggerFlip32 World).2.1 DeltaTimes).RoomRoot.GetComponentRotation =
          (a.TriggerFlip32 World).2.1.TargetRotation ∧
        (runTicks32 (a.TriggerFlip32 World).2.1 DeltaTimes).RoomRoot.GetComponentRotation =
          a.RoomRoot.GetComponentRotation.addOnAxis a.RotationAxis a.RotationAngle) ∧
    (∀ DeltaTimes : List ℚ, (∀ d ∈ DeltaTimes, 0 ≤ d) →
      DeltaTimes.sum = a.RotationDuration / 2 →
      (∀ d ∈ DeltaTimes, Float32.round (d / a.RotationDuration) = d / a.RotationDuration) →
      (∀ k : ℕ, k ≤ DeltaTimes.length →
        (DeltaTimes.take k).sum / a.RotationDuration < 1 →
        Float32.round ((DeltaTimes.take k).sum / a.RotationDuration) =
          (DeltaTimes.take k).sum / a.RotationDuration) →
      Float32.round (a.RotationAngle / 2) = a.RotationAngle / 2 →
      Float32.round
          (a.RoomRoot.GetComponentRotation.onAxis a.RotationAxis + a.RotationAngle / 2) =
        a.RoomRoot.GetComponentRotation.onAxis a.RotationAxis + a.RotationAngle / 2 →
      (runTicks32 (a.TriggerFlip32 World).2.1 DeltaTimes).RotationProgress = 1 / 2 ∧
        FMath.SmoothStep32 0 1
          (runTicks32 (a.TriggerFlip32 World).2.1 DeltaTimes).RotationProgress = 1 / 2 ∧
        (runTicks32 (a.TriggerFlip32 World).2.1 DeltaTimes).CurrentState =
          ERoomFlipState.Rotating ∧
        (runTicks32 (a.TriggerFlip32 World).2.1 DeltaTimes).RoomRoot.GetComponentRotation =
          a.RoomRoot.GetComponentRotation.addOnAxis a.RotationAxis (a.RotationAngle / 2)) := by
  have hcan : a.CanFlip = true := by simp [ARoomFlipActor.CanFlip, hidle]
  have t1 := (ARoomFlipActor.TriggerFlip32_success a World hcan).1
  obtain ⟨ap1, pc1, e1⟩ := TriggerFlip32_success_exists a World hcan
  have htarget : ({ a with StartRotation := a.RoomRoot.GetComponentRotation } :
      ARoomFlipActor).CalculateTargetRotation32 =
      a.RoomRoot.GetComponentRotation.addOnAxis a.RotationAxis a.RotationAngle := by
    unfold ARoomFlipActor.CalculateTargetRotation32
    cases hax : a.RotationAxis <;> rw [hax] at hsum <;>
      simp only [FRotator.onAxis] at hsum <;> simp [FRotator.addOnAxis, hax, hsum]
  rw [e1, htarget]
  have hss1 : FMath.SmoothStep32 0 1 1 = 1 := by decide!
  have hss2 : FMath.SmoothStep32 0 1 (1 / 2) = 1 / 2 := by decide!
  have hfull : FMath.Lerp32 a.RoomRoot.GetComponentRotation
      (a.RoomRoot.GetComponentRotation.addOnAxis a.RotationAxis a.RotationAngle) 1 =
      a.RoomRoot.GetComponentRotation.addOnAxis a.RotationAxis a.RotationAngle := by
    have := FMath.Lerp32_addOnAxis a.RoomRoot.GetComponentRotation a.RotationAxis
      a.RotationAngle 1 ho ha (by rw [mul_one]; exact ha) (by rw [mul_one]; exact hsum)
    rw [mul_one] at this
    exact this
  refine ⟨t1, rfl, rfl, ?_, ?_⟩
  · intro DeltaTimes hnn hsumD hq hx
    cases DeltaTimes with
    | nil =>
      simp only [List.sum_nil] at hsumD
      exact absurd hsumD (not_le.mpr hD)
    | cons dt rest =>
      have hge : (1 : ℚ) ≤ 0 + (dt :: rest).sum / a.RotationDuration := by
        rw [zero_add]
        exact (one_le_div hD).mpr hsumD
      have e2 := (ARoomFlipActor.runTicks32_exact rest dt
        { a with
          CurrentState := ERoomFlipState.Rotating,
          RotationProgress := 0,
          FlipCount := a.FlipCount + 1,
          StartRotation := a.RoomRoot.GetComponentRotation,
          TargetRotation :=
            a.RoomRoot.GetComponentRotation.addOnAxis a.RotationAxis a.RotationAngle,
          AttachedPlayer := ap1,
          PlayerController := pc1 } rfl hD (le_refl _) hnn hq
        (fun k hk hlt1 => by
          have hlt2 : (0 : ℚ) + ((dt :: rest).take k).sum / a.RotationDuration < 1 := hlt1
          rw [zero_add] at hlt2
          show Float32.round (0 + ((dt :: rest).take k).sum / a.RotationDuration) =
            0 + ((dt :: rest).take k).sum / a.RotationDuration
          rw [zero_add]
          exact hx k hk hlt2)).2 hge
      rw [e2]
      refine ⟨rfl, ?_, ?_, ?_⟩
      · simp [ARoomFlipActor.completedFlip32, hm]
      · simp only [ARoomFlipActor.completedFlip32, ARoomFlipActor.rotatedTo32,
          ARoomFlipActor.easedAt32, USceneComponent.GetComponentRotation, hcurve, hss1]
        exact hfull
      · simp only [ARoomFlipActor.completedFlip32, ARoomFlipActor.rotatedTo32,
          ARoomFlipActor.easedAt32, USceneComponent.GetComponentRotation, hcurve, hss1]
        exact hfull
  · intro DeltaTimes hnn hsumD hq hx hx2 hs2
    cases DeltaTimes with
    | nil =>
      simp only [List.sum_nil] at hsumD
      have : a.RotationDuration = 0 := by linarith
      exact absurd this (ne_of_gt hD)
    | cons dt rest =>
      have hhalf : (0 : ℚ) + (dt :: rest).sum / a.RotationDuration = 1 / 2 := by
        rw [hsumD, zero_add]
        field_simp
        ring
      have hlt : (0 : ℚ) + (dt :: rest).sum / a.RotationDuration < 1 := by
        rw [hhalf]
        norm_num
      have e2 := (ARoomFlipActor.runTicks32_exact rest dt
        { a with
          CurrentState := ERoomFlipState.Rotating,
          RotationProgress := 0,
          FlipCount := a.FlipCount + 1,
          StartRotation := a.RoomRoot.GetComponentRotation,
          TargetRotation :=
            a.RoomRoot.GetComponentRotation.addOnAxis a.RotationAxis a.RotationAngle,
          AttachedPlayer := ap1,
          PlayerController := pc1 } rfl hD (le_refl _) hnn hq
        (fun k hk hlt1 => by
          have hlt2 : (0 : ℚ) + ((dt :: rest).take k).sum / a.RotationDuration < 1 := hlt1
          rw [zero_add] at hlt2
          show Float32.round (0 + ((dt :: rest).take k).sum / a.RotationDuration) =
            0 + ((dt :: rest).take k).sum / a.RotationDuration
          rw [zero_add]
          exact hx k hk hlt2)).1 hlt
      rw [e2]
      simp only [hhalf]
      have hmul : a.RotationAngle * (1 / 2) = a.RotationAngle / 2 := by ring
      have hmid := FMath.Lerp32_addOnAxis a.RoomRoot.GetComponentRotation a.RotationAxis
        a.RotationAngle (1 / 2) ho ha (by rw [hmul]; exact hx2) (by rw [hmul]; exact hs2)
      rw [hmul] at hmid
      refine ⟨rfl, ?_, rfl, ?_⟩
      · simp only [ARoomFlipActor.rotatedTo32]
        exact hss2
      · simp only [ARoomFlipActor.rotatedTo32, ARoomFlipActor.easedAt32,
          USceneComponent.GetComponentRotation, hcurve, hss2]
        exact hmid

/-- Witness for C19 (amended): `scenarioRoom` (angle 180, duration 2, axis Z,
placed unrotated). The quotient 1/2, the running totals 1/2 and 1 and the yaw
values 90 and 180 are binary32 values. After one tick of 1 s the progress is
1/2 and the yaw is 90; after a second tick of 1 s the progress is 1, the phase
is Completed and the yaw is 180. -/
theorem timed_flip_exact_witness :
    0 < scenarioRoom.RotationDuration ∧
      Float32.round (scenarioRoom.RoomRoot.GetComponentRotation.onAxis scenarioRoom.RotationAxis +
          scenarioRoom.RotationAngle) =
        scenarioRoom.RoomRoot.GetComponentRotation.onAxis scenarioRoom.RotationAxis +
          scenarioRoom.RotationAngle ∧
      (runTicks32 (scenarioRoom.TriggerFlip32 sampleWorld).2.1 [1]).RotationProgress = 1 / 2 ∧
      (runTicks32 (scenarioRoom.TriggerFlip32 sampleWorld).2.1
        [1]).RoomRoot.GetComponentRotation = { Pitch := 0, Yaw := 90, Roll := 0 } ∧
      (runTicks32 (scenarioRoom.TriggerFlip32 sampleWorld).2.1 [1, 1]).RotationProgress = 1 ∧
      (runTicks32 (scenarioRoom.TriggerFlip32 sampleWorld).2.1 [1, 1]).CurrentState =
        ERoomFlipState.Completed ∧
      (runTicks32 (scenarioRoom.TriggerFlip32 sampleWorld).2.1
        [1, 1]).RoomRoot.GetComponentRotation = { Pitch := 0, Yaw := 180, Roll := 0 } := by
  have hD : 0 < scenarioRoom.RotationDuration := by
    rw [show scenarioRoom.RotationDuration = 2 from rfl]
    norm_num
  have ho : Float32.round scenarioRoom.RoomRoot.GetComponentRotation.Pitch =
        scenarioRoom.RoomRoot.GetComponentRotation.Pitch ∧
      Float32.round scenarioRoom.RoomRoot.GetComponentRotation.Yaw =
        scenarioRoom.RoomRoot.GetComponentRotation.Yaw ∧
      Float32.round scenarioRoom.RoomRoot.GetComponentRotation.Roll =
        scenarioRoom.RoomRoot.GetComponentRotation.Roll := by
    decide!
  have ha : Float32.round scenarioRoom.RotationAngle = scenarioRoom.RotationAngle := by
    decide!
  have hsum : Float32.round
      (scenarioRoom.RoomRoot.GetComponentRotation.onAxis scenarioRoom.RotationAxis +
        scenarioRoom.RotationAngle) =
      scenarioRoom.RoomRoot.GetComponentRotation.onAxis scenarioRoom.RotationAxis +
        scenarioRoom.RotationAngle := by
    decide!
  have hfull := (timed_flip_exact scenarioRoom sampleWorld rfl rfl rfl hD ho ha hsum).2.2.2.1
    [1, 1] (by decide!) (by decide!) (by decide!) (by decide!)
  have hhalf := (timed_flip_exact scenarioRoom sampleWorld rfl rfl rfl hD ho ha hsum).2.2.2.2
    [1] (by decide!) (by decide!) (by decide!) (by decide!) (by decide!) (by decide!)
  refine ⟨hD, hsum, hhalf.1, ?_, hfull.1, hfull.2.1, ?_⟩
  · decide!
  · decide!

/-- `TriggerFlip` and `Tick` keep the repeatable flag, keep Completed out of
repeatable rooms, and in a room that is not repeatable keep the flip counter at
0 while Idle and at 1 afterwards. -/
theorem RoomFlipOp.run_phase (s : ARoomFlipActor) (op : RoomFlipOp)
    (hop : op ≠ RoomFlipOp.ResetRoom)
    (h1 : s.CurrentState = ERoomFlipState.Completed → s.bCanFlipMultipleTimes = false)
    (h2 : s.bCanFlipMultipleTimes = false →
      (s.CurrentState = ERoomFlipState.Idle → s.FlipCount = 0) ∧
      (s.CurrentState ≠ ERoomFlipState.Idle → s.FlipCount = 1)) :
    (op.run s).bCanFlipMultipleTimes = s.bCanFlipMultipleTimes ∧
      ((op.run s).CurrentState = ERoomFlipState.Completed →
        (op.run s).bCanFlipMultipleTimes = false) ∧
      ((op.run s).bCanFlipMultipleTimes = false →
        ((op.run s).CurrentState = ERoomFlipState.Idle → (op.run s).FlipCount = 0) ∧
        ((op.run s).CurrentState ≠ ERoomFlipState.Idle → (op.run s).FlipCount = 1)) := by
  cases op with
  | ResetRoom => exact absurd rfl hop
  | TriggerFlip World =>
    simp only [RoomFlipOp.run]
    cases hc : s.CanFlip
    · rw [ARoomFlipActor.TriggerFlip_refused s World hc]
      exact ⟨rfl, h1, h2⟩
    · obtain ⟨ap, pc, e⟩ := TriggerFlip_success_exists s World hc
      rw [e]
      refine ⟨rfl, ?_, ?_⟩
      · intro hcon
        simp at hcon
      · intro hm
        have hidle : s.CurrentState = ERoomFlipState.Idle := by
          unfold ARoomFlipActor.CanFlip at hc
          cases hs : s.CurrentState <;> simp_all
        refine ⟨?_, ?_⟩
        · intro hcon
          simp at hcon
        · intro _
          simp [(h2 hm).1 hidle]
  | Tick DeltaTime =>
    simp only [RoomFlipOp.run, ARoomFlipActor.Tick]
    split
    · rename_i hrot
      rw [ARoomFlipActor.UpdateRotation_state]
      split
      · refine ⟨rfl, ?_, ?_⟩
        · intro hcon
          cases hm : s.bCanFlipMultipleTimes
          · exact hm
          · simp [ARoomFlipActor.completedFlip, hm] at hcon
        · intro hm
          have hm1 : s.bCanFlipMultipleTimes = false := hm
          have hcnt := (h2 hm1).2 (by rw [hrot]; simp)
          refine ⟨?_, fun _ => hcnt⟩
          intro hcon
          simp [ARoomFlipActor.completedFlip, hm1] at hcon
      · refine ⟨rfl, ?_, ?_⟩
        · intro hcon
          have : s.CurrentState = ERoomFlipState.Completed := hcon
          rw [hrot] at this
          exact absurd this (by simp)
        · intro hm
          exact h2 hm
    · exact ⟨rfl, h1, h2⟩

/-- A sequence of `TriggerFlip` and `Tick` calls keeps what one call keeps. -/
theorem runRoomFlip_phase (ops : List RoomFlipOp) (s : ARoomFlipActor)
    (hops : ∀ op ∈ ops, op ≠ RoomFlipOp.ResetRoom)
    (h1 : s.CurrentState = ERoomFlipState.Completed → s.bCanFlipMultipleTimes = false)
    (h2 : s.bCanFlipMultipleTimes = false →
      (s.CurrentState = ERoomFlipState.Idle → s.FlipCount = 0) ∧
      (s.CurrentState ≠ ERoomFlipState.Idle → s.FlipCount = 1)) :
    (runRoomFlip s ops).bCanFlipMultipleTimes = s.bCanFlipMultipleTimes ∧
      ((runRoomFlip s ops).CurrentState = ERoomFlipState.Completed →
        (runRoomFlip s ops).bCanFlipMultipleTimes = false) ∧
      ((runRoomFlip s ops).bCanFlipMultipleTimes = false →
        ((runRoomFlip s ops).CurrentState = ERoomFlipState.Idle →
          (runRoomFlip s ops).FlipCount = 0) ∧
        ((runRoomFlip s ops).CurrentState ≠ ERoomFlipState.Idle →
          (runRoomFlip s ops).FlipCount = 1)) := by
  induction ops generalizing s with
  | nil => exact ⟨rfl, h1, h2⟩
  | cons op ops ih =>
    obtain ⟨i1, i2, i3⟩ := RoomFlipOp.run_phase s op (hops op (List.mem_cons_self _ _)) h1 h2
    obtain ⟨j1, j2, j3⟩ := ih (op.run s) (fun o ho => hops o (List.mem_cons_of_mem _ ho)) i2 i3
    exact ⟨j1.trans i1, j2, j3⟩

/-- A room that is Completed and not repeatable is not changed by `TriggerFlip`
or `Tick`. -/
theorem runRoomFlip_terminal (ops : List RoomFlipOp) (s : ARoomFlipActor)
    (hops : ∀ op ∈ ops, op ≠ RoomFlipOp.ResetRoom)
    (hs : s.CurrentState = ERoomFlipState.Completed)
    (hm : s.bCanFlipMultipleTimes = false) : runRoomFlip s ops = s := by
  induction ops with
  | nil => rfl
  | cons op ops ih =>
    have hstep : op.run s = s := by
      cases op with
      | ResetRoom => exact absurd rfl (hops _ (List.mem_cons_self _ _))
      | TriggerFlip World =>
        have hc : s.CanFlip = false := by simp [ARoomFlipActor.CanFlip, hs, hm]
        simp [RoomFlipOp.run, ARoomFlipActor.TriggerFlip_refused s World hc]
      | Tick DeltaTime => simp [RoomFlipOp.run, ARoomFlipActor.Tick, hs]
    simp only [runRoomFlip, List.foldl_cons, hstep]
    exact ih (fun o ho => hops o (List.mem_cons_of_mem _ ho))

/-- C20. Let `s` be any state reached from the initial state of a room
(constructor, then `BeginPlay`, so Idle) by `TriggerFlip` and `Tick` calls, no
`ResetRoom`. The repeatable flag of `s` is the configured one; a `TriggerFlip`
that is accepted in `s` finds the phase Idle and makes it Rotating; a call that
takes `s` out of Rotating is a `Tick` that brings the progress to 1, and it
leads to Completed when the room is not repeatable and to Idle when it is; a
call in phase Idle keeps Idle or is a `TriggerFlip` that leads to Rotating; and
if `s` is Completed then the room is not repeatable, its flip counter is 1, and
after any further `TriggerFlip` and `Tick` calls the phase is still Completed
and the counter still 1. -/
theorem phase_order (a : ARoomFlipActor) (ops : List RoomFlipOp) (s : ARoomFlipActor)
    (hops : ∀ op ∈ ops, op ≠ RoomFlipOp.ResetRoom)
    (hs : s = runRoomFlip a.construct.BeginPlay ops) :
    s.bCanFlipMultipleTimes = a.bCanFlipMultipleTimes ∧
    (∀ World, (s.TriggerFlip World).1 = true →
      s.CurrentState = ERoomFlipState.Idle ∧
        (s.TriggerFlip World).2.1.CurrentState = ERoomFlipState.Rotating) ∧
    (∀ op, op ≠ RoomFlipOp.ResetRoom → s.CurrentState = ERoomFlipState.Rotating →
      (op.run s).CurrentState ≠ ERoomFlipState.Rotating →
      ∃ DeltaTime, op = RoomFlipOp.Tick DeltaTime ∧ (op.run s).RotationProgress = 1 ∧
        (op.run s).CurrentState =
          (if a.bCanFlipMultipleTimes then ERoomFlipState.Idle
            else ERoomFlipState.Completed)) ∧
    (∀ op, op ≠ RoomFlipOp.ResetRoom → s.CurrentState = ERoomFlipState.Idle →
      (op.run s).CurrentState = ERoomFlipState.Idle ∨
        ((∃ World, op = RoomFlipOp.TriggerFlip World) ∧
          (op.run s).CurrentState = ERoomFlipState.Rotating)) ∧
    (s.CurrentState = ERoomFlipState.Completed →
      a.bCanFlipMultipleTimes = false ∧ s.FlipCount = 1 ∧
      ∀ more : List RoomFlipOp, (∀ op ∈ more, op ≠ RoomFlipOp.ResetRoom) →
        (runRoomFlip s more).CurrentState = ERoomFlipState.Completed ∧
          (runRoomFlip s more).FlipCount = 1) := by
  have hinit1 : a.construct.BeginPlay.CurrentState = ERoomFlipState.Completed →
      a.construct.BeginPlay.bCanFlipMultipleTimes = false := by
    intro hcon
    simp [ARoomFlipActor.construct, ARoomFlipActor.BeginPlay] at hcon
  have hinit2 : a.construct.BeginPlay.bCanFlipMultipleTimes = false →
      (a.construct.BeginPlay.CurrentState = ERoomFlipState.Idle →
        a.construct.BeginPlay.FlipCount = 0) ∧
      (a.construct.BeginPlay.CurrentState ≠ ERoomFlipState.Idle →
        a.construct.BeginPlay.FlipCount = 1) := by
    intro _
    refine ⟨fun _ => rfl, ?_⟩
    intro hcon
    simp [ARoomFlipActor.construct, ARoomFlipActor.BeginPlay] at hcon
  obtain ⟨j1, j2, j3⟩ := runRoomFlip_phase ops a.construct.BeginPlay hops hinit1 hinit2
  rw [← hs] at j1 j2 j3
  have hflag : s.bCanFlipMultipleTimes = a.bCanFlipMultipleTimes := j1
  have hidle_of_can : s.CanFlip = true → s.CurrentState = ERoomFlipState.Idle := by
    intro hc
    unfold ARoomFlipActor.CanFlip at hc
    cases hst : s.CurrentState
    · rfl
    · simp [hst] at hc
    · have := j2 hst
      simp [hst, this] at hc
  refine ⟨hflag, ?_, ?_, ?_, ?_⟩
  · intro World htrue
    cases hc : s.CanFlip
    · rw [ARoomFlipActor.TriggerFlip_refused s World hc] at htrue
      exact absurd htrue (by simp)
    · refine ⟨hidle_of_can hc, ?_⟩
      obtain ⟨ap, pc, e⟩ := TriggerFlip_success_exists s World hc
      rw [e]
  · intro op hop hrot hleft
    cases op with
    | ResetRoom => exact absurd rfl hop
    | TriggerFlip World =>
      have hc : s.CanFlip = false := by simp [ARoomFlipActor.CanFlip, hrot]
      simp only [RoomFlipOp.run, ARoomFlipActor.TriggerFlip_refused s World hc] at hleft
      exact absurd hrot hleft
    | Tick DeltaTime =>
      have ht : (s.Tick DeltaTime).1 = (s.UpdateRotation DeltaTime).1 := by
        simp [ARoomFlipActor.Tick, hrot]
      simp only [RoomFlipOp.run, ht] at hleft ⊢
      have hp : (s.UpdateRotation DeltaTime).1.RotationProgress = 1 := by
        by_contra hne
        exact hleft ((ARoomFlipActor.UpdateRotation_running s DeltaTime hne).1.trans hrot)
      refine ⟨DeltaTime, rfl, hp, ?_⟩
      rw [(ARoomFlipActor.UpdateRotation_completing s DeltaTime hp).1, hflag]
  · intro op hop hidle
    cases op with
    | ResetRoom => exact absurd rfl hop
    | TriggerFlip World =>
      right
      have hc : s.CanFlip = true := by simp [ARoomFlipActor.CanFlip, hidle]
      obtain ⟨ap, pc, e⟩ := TriggerFlip_success_exists s World hc
      refine ⟨⟨World, rfl⟩, ?_⟩
      simp only [RoomFlipOp.run]
      rw [e]
    | Tick DeltaTime =>
      left
      simp [RoomFlipOp.run, ARoomFlipActor.Tick, hidle]
  · intro hcomp
    have hm : s.bCanFlipMultipleTimes = false := j2 hcomp
    have hcnt : s.FlipCount = 1 := (j3 hm).2 (by rw [hcomp]; simp)
    refine ⟨by rw [← hflag]; exact hm, hcnt, ?_⟩
    intro more hmore
    rw [runRoomFlip_terminal more s hmore hcomp hm]
    exact ⟨hcomp, hcnt⟩

/-- Witness for C20: `scenarioRoom` (not repeatable, duration 2) after a
trigger and two ticks of 1 s is Completed with flip counter 1, and a further
trigger and tick leave it so. -/
theorem phase_order_witness :
    (runRoomFlip scenarioRoom
        [RoomFlipOp.TriggerFlip sampleWorld, RoomFlipOp.Tick 1, RoomFlipOp.Tick 1]).CurrentState =
          ERoomFlipState.Completed ∧
      (runRoomFlip scenarioRoom
        [RoomFlipOp.TriggerFlip sampleWorld, RoomFlipOp.Tick 1, RoomFlipOp.Tick 1]).FlipCount = 1 ∧
      (runRoomFlip (runRoomFlip scenarioRoom
          [RoomFlipOp.TriggerFlip sampleWorld, RoomFlipOp.Tick 1, RoomFlipOp.Tick 1])
        [RoomFlipOp.TriggerFlip sampleWorld, RoomFlipOp.Tick 5]).CurrentState =
          ERoomFlipState.Completed := by
  have hrun : runRoomFlip scenarioRoom
      [RoomFlipOp.TriggerFlip sampleWorld, RoomFlipOp.Tick 1, RoomFlipOp.Tick 1] =
      (scenarioRoom.TriggerFlip sampleWorld).2.1.completedFlip := by
    rw [show runRoomFlip scenarioRoom
      [RoomFlipOp.TriggerFlip sampleWorld, RoomFlipOp.Tick 1, RoomFlipOp.Tick 1] =
      runTicks (scenarioRoom.TriggerFlip sampleWorld).2.1 [1, 1] from rfl]
    refine (ARoomFlipActor.runTicks_nonneg [1] 1 _ rfl ?_ ?_ ?_).2 ?_
    · rw [show (scenarioRoom.TriggerFlip sampleWorld).2.1.RotationDuration = 2 from rfl]
      norm_num
    · rw [show (scenarioRoom.TriggerFlip sampleWorld).2.1.RotationProgress = 0 from rfl]
    · intro d hd
      simp only [List.mem_cons, List.mem_singleton, List.not_mem_nil, or_false, or_self] at hd
      rw [hd]
      norm_num
    · rw [show (scenarioRoom.TriggerFlip sampleWorld).2.1.RotationDuration = 2 from rfl,
        show (scenarioRoom.TriggerFlip sampleWorld).2.1.RotationProgress = 0 from rfl]
      norm_num
  have hcomp : (runRoomFlip scenarioRoom
      [RoomFlipOp.TriggerFlip sampleWorld, RoomFlipOp.Tick 1, RoomFlipOp.Tick 1]).CurrentState =
      ERoomFlipState.Completed := by
    rw [hrun]
    rfl
  have hops : ∀ op ∈ [RoomFlipOp.TriggerFlip sampleWorld, RoomFlipOp.Tick 1, RoomFlipOp.Tick 1],
      op ≠ RoomFlipOp.ResetRoom := by
    intro op hop
    simp only [List.mem_cons, List.mem_singleton, List.not_mem_nil, or_false] at hop
    rcases hop with h | h | h <;> rw [h] <;> simp
  have hmore : ∀ op ∈ [RoomFlipOp.TriggerFlip sampleWorld, RoomFlipOp.Tick 5],
      op ≠ RoomFlipOp.ResetRoom := by
    intro op hop
    simp only [List.mem_cons, List.mem_singleton, List.not_mem_nil, or_false] at hop
    rcases hop with h | h <;> rw [h] <;> simp
  have h := (phase_order
    ({ ARoomFlipActor.classDefaults { Pitch := 0, Yaw := 0, Roll := 0 } with
      RotationAxis := ERoomFlipAxis.Z_Axis, RotationDuration := 2 } : ARoomFlipActor)
    [RoomFlipOp.TriggerFlip sampleWorld, RoomFlipOp.Tick 1, RoomFlipOp.Tick 1]
    _ hops rfl).2.2.2.2 hcomp
  exact ⟨hcomp, h.2.1, (h.2.2 _ hmore).1⟩

/-! ## Room flip: ResetRoom and the progress of one tick -/

/-- The room after `ResetRoom`: Idle, progress 0, flip counter 0, no attached
pawn, and the orientation that `StartRotation` held at the call. -/
theorem ResetRoom_fields (s : ARoomFlipActor) :
    s.ResetRoom.1.CurrentState = ERoomFlipState.Idle ∧
      s.ResetRoom.1.RotationProgress = 0 ∧
      s.ResetRoom.1.FlipCount = 0 ∧
      s.ResetRoom.1.AttachedPlayer = none ∧
      s.ResetRoom.1.RoomRoot.GetComponentRotation = s.StartRotation := by
  unfold ARoomFlipActor.ResetRoom
  cases h : s.AttachedPlayer <;>
    simp [h, ARoomFlipActor.DetachPlayerFromRoom, USceneComponent.SetWorldRotation,
      USceneComponent.GetComponentRotation]

/-- C21 (what the code does). `toggleRoom` is placed unrotated, so its
orientation at `BeginPlay` has roll 0. After a first flip (trigger, one tick of
3 s) and a second `TriggerFlip`, `ResetRoom` leaves the room Idle with progress
0, flip counter 0 and no attached pawn, but at roll 180, the orientation at
which the second flip started, not at the orientation of `BeginPlay`. -/
theorem ResetRoom_after_second_trigger :
    toggleRoom.RoomRoot.GetComponentRotation = { Pitch := 0, Yaw := 0, Roll := 0 } ∧
      (runRoomFlip toggleRoom
        [RoomFlipOp.TriggerFlip sampleWorld, RoomFlipOp.Tick 3,
          RoomFlipOp.TriggerFlip sampleWorld,
          RoomFlipOp.ResetRoom]).RoomRoot.GetComponentRotation =
        { Pitch := 0, Yaw := 0, Roll := 180 } ∧
      (runRoomFlip toggleRoom
        [RoomFlipOp.TriggerFlip sampleWorld, RoomFlipOp.Tick 3,
          RoomFlipOp.TriggerFlip sampleWorld,
          RoomFlipOp.ResetRoom]).RoomRoot.GetComponentRotation ≠
        toggleRoom.RoomRoot.GetComponentRotation ∧
      (runRoomFlip toggleRoom
        [RoomFlipOp.TriggerFlip sampleWorld, RoomFlipOp.Tick 3,
          RoomFlipOp.TriggerFlip sampleWorld,
          RoomFlipOp.ResetRoom]).CurrentState = ERoomFlipState.Idle ∧
      (runRoomFlip toggleRoom
        [RoomFlipOp.TriggerFlip sampleWorld, RoomFlipOp.Tick 3,
          RoomFlipOp.TriggerFlip sampleWorld,
          RoomFlipOp.ResetRoom]).FlipCount = 0 ∧
      (runRoomFlip toggleRoom
        [RoomFlipOp.TriggerFlip sampleWorld, RoomFlipOp.Tick 3,
          RoomFlipOp.TriggerFlip sampleWorld,
          RoomFlipOp.ResetRoom]).AttachedPlayer = none := by
  have hc1 : runTicks (toggleRoom.TriggerFlip sampleWorld).2.1 [3] =
      (toggleRoom.TriggerFlip sampleWorld).2.1.completedFlip := by
    refine (ARoomFlipActor.runTicks_nonneg [] 3 _ rfl ?_ ?_ ?_).2 ?_
    · rw [show (toggleRoom.TriggerFlip sampleWorld).2.1.RotationDuration = 3 from rfl]
      norm_num
    · rw [show (toggleRoom.TriggerFlip sampleWorld).2.1.RotationProgress = 0 from rfl]
    · intro d hd
      rw [List.mem_singleton.mp hd]
      norm_num
    · rw [show (toggleRoom.TriggerFlip sampleWorld).2.1.RotationDuration = 3 from rfl,
        show (toggleRoom.TriggerFlip sampleWorld).2.1.RotationProgress = 0 from rfl]
      norm_num
  have hrun : runRoomFlip toggleRoom
      [RoomFlipOp.TriggerFlip sampleWorld, RoomFlipOp.Tick 3,
        RoomFlipOp.TriggerFlip sampleWorld, RoomFlipOp.ResetRoom] =
      (((toggleRoom.TriggerFlip sampleWorld).2.1.completedFlip.TriggerFlip
        sampleWorld).2.1).ResetRoom.1 := by
    rw [← hc1]
    rfl
  have hss1 : FMath.SmoothStep 0 1 1 = 1 := by norm_num [FMath.SmoothStep]
  have hstart : ((toggleRoom.TriggerFlip sampleWorld).2.1.completedFlip.TriggerFlip
      sampleWorld).2.1.StartRotation = { Pitch := 0, Yaw := 0, Roll := 180 } := by
    rw [show ((toggleRoom.TriggerFlip sampleWorld).2.1.completedFlip.TriggerFlip
        sampleWorld).2.1.StartRotation =
      FMath.Lerp { Pitch := 0, Yaw := 0, Roll := 0 } { Pitch := 0, Yaw := 0, Roll := 0 + 180 }
        (FMath.SmoothStep 0 1 1) from rfl, hss1]
    norm_num [FMath.Lerp]
  obtain ⟨r1, -, r3, r4, r5⟩ := ResetRoom_fields
    ((toggleRoom.TriggerFlip sampleWorld).2.1.completedFlip.TriggerFlip sampleWorld).2.1
  rw [hrun, r5, hstart]
  refine ⟨rfl, rfl, ?_, r1, r3, r4⟩
  rw [show toggleRoom.RoomRoot.GetComponentRotation =
    ({ Pitch := 0, Yaw := 0, Roll := 0 } : FRotator) from rfl]
  intro hcon
  have h180 := congrArg FRotator.Roll hcon
  norm_num at h180

/-- C22. For every notebook reached from the empty one and every ID `x`, a
second `MarkEntryAsRead x` right after the first leaves the notebook (entries
and unread count) exactly as the first call left it and broadcasts nothing. -/
theorem MarkEntryAsRead_idempotent (ops : List NotebookOp) (x : FName) :
    ((runNotebook UNotebookComponent.new ops).MarkEntryAsRead x).1.MarkEntryAsRead x =
      (((runNotebook UNotebookComponent.new ops).MarkEntryAsRead x).1, []) := by
  obtain ⟨hnd, -⟩ := runNotebook_new_invariant ops
  generalize runNotebook UNotebookComponent.new ops = nb at hnd
  have hall : ∀ e ∈ (nb.MarkEntryAsRead x).1.Entries, e.EntryID = x → e.bHasBeenRead = true := by
    cases hl : UNotebookComponent.MarkEntryAsReadLoop nb.Entries x with
    | none =>
      simp only [UNotebookComponent.MarkEntryAsRead, hl]
      exact (UNotebookComponent.MarkEntryAsReadLoop_eq_none_iff nb.Entries x).mp hl
    | some r =>
      obtain ⟨r1, m⟩ := r
      obtain ⟨i1, -, -⟩ := UNotebookComponent.MarkEntryAsReadLoop_eq_some nb.Entries x hnd r1 m hl
      simp only [UNotebookComponent.MarkEntryAsRead, hl, UNotebookComponent.UpdateUnreadCount]
      rw [i1]
      intro e he hx
      rw [List.mem_map] at he
      obtain ⟨e0, -, he0⟩ := he
      by_cases h0 : e0.EntryID = x
      · rw [if_pos h0] at he0
        rw [← he0]
      · rw [if_neg h0] at he0
        rw [he0] at h0
        exact absurd hx h0
  have hn := (UNotebookComponent.MarkEntryAsReadLoop_eq_none_iff _ x).mpr hall
  generalize (nb.MarkEntryAsRead x).1 = nb1 at hn
  simp [UNotebookComponent.MarkEntryAsRead, hn]

/-- Adding entries whose IDs are new and pairwise different appends them all,
unread, and adds their number to the unread count. -/
theorem runNotebook_adds (adds : List (ℚ × FNotebookEntry)) (nb : UNotebookComponent)
    (hnew : ∀ p ∈ adds, ∀ e ∈ nb.Entries, e.EntryID ≠ p.2.EntryID)
    (hnd : adds.Pairwise (fun p q => p.2.EntryID ≠ q.2.EntryID)) :
    (runNotebook nb (adds.map (fun p => NotebookOp.AddEntry p.1 p.2))).Entries =
        nb.Entries ++ adds.map
          (fun p => { p.2 with Timestamp := p.1, bHasBeenRead := false }) ∧
      (runNotebook nb (adds.map (fun p => NotebookOp.AddEntry p.1 p.2))).UnreadCount =
        nb.UnreadCount + adds.length := by
  induction adds generalizing nb with
  | nil => simp [runNotebook]
  | cons p rest ih =>
    rw [List.pairwise_cons] at hnd
    have hh : UNotebookComponent.HasEntryLoop nb.Entries p.2.EntryID = false :=
      (UNotebookComponent.HasEntryLoop_eq_false_iff _ _).mpr
        (hnew p (List.mem_cons_self _ _))
    have hstep : (NotebookOp.AddEntry p.1 p.2).run nb =
        { Entries := nb.Entries ++ [{ p.2 with Timestamp := p.1, bHasBeenRead := false }],
          UnreadCount := nb.UnreadCount + 1 } := by
      simp [NotebookOp.run, UNotebookComponent.AddEntry, UNotebookComponent.HasEntry, hh]
    have hrun : runNotebook nb ((p :: rest).map (fun p => NotebookOp.AddEntry p.1 p.2)) =
        runNotebook ((NotebookOp.AddEntry p.1 p.2).run nb)
          (rest.map (fun p => NotebookOp.AddEntry p.1 p.2)) := by
      simp [runNotebook]
    rw [hrun, hstep]
    obtain ⟨i1, i2⟩ := ih
      { Entries := nb.Entries ++ [{ p.2 with Timestamp := p.1, bHasBeenRead := false }],
        UnreadCount := nb.UnreadCount + 1 }
      (by
        intro q hq e he
        rw [List.mem_append, List.mem_singleton] at he
        rcases he with he | he
        · exact hnew q (List.mem_cons_of_mem _ hq) e he
        · rw [he]
          exact hnd.1 q hq)
      hnd.2
    rw [i1, i2]
    constructor
    · simp
    · simp only [List.length_cons, Nat.cast_add, Nat.cast_one]
      ring

/-- Marking pairwise different IDs that each have an unread entry lowers the
unread count by their number and keeps the number of entries. -/
theorem runNotebook_marks (marks : List FName) (nb : UNotebookComponent)
    (hnd : nb.Entries.Pairwise (fun a b => a.EntryID ≠ b.EntryID))
    (hcnt : nb.UnreadCount = unreadEntries nb.Entries)
    (hmarks : marks.Nodup)
    (hun : ∀ x ∈ marks, ∃ e ∈ nb.Entries, e.EntryID = x ∧ e.bHasBeenRead = false) :
    (runNotebook nb (marks.map NotebookOp.MarkEntryAsRead)).UnreadCount =
        nb.UnreadCount - marks.length ∧
      (runNotebook nb (marks.map NotebookOp.MarkEntryAsRead)).Entries.length =
        nb.Entries.length := by
  induction marks generalizing nb with
  | nil => simp [runNotebook]
  | cons x rest ih =>
    rw [List.nodup_cons] at hmarks
    obtain ⟨e, he, hx, hr⟩ := hun x (List.mem_cons_self _ _)
    have hrun : runNotebook nb ((x :: rest).map NotebookOp.MarkEntryAsRead) =
        runNotebook ((NotebookOp.MarkEntryAsRead x).run nb)
          (rest.map NotebookOp.MarkEntryAsRead) := by
      simp [runNotebook]
    obtain ⟨k1, k2⟩ := NotebookOp.run_invariant nb (NotebookOp.MarkEntryAsRead x) hnd hcnt
    cases hl : UNotebookComponent.MarkEntryAsReadLoop nb.Entries x with
    | none =>
      have := (UNotebookComponent.MarkEntryAsReadLoop_eq_none_iff nb.Entries x).mp hl e he hx
      rw [hr] at this
      exact absurd this (by simp)
    | some r =>
      obtain ⟨r1, m⟩ := r
      obtain ⟨i1, -, i3⟩ := UNotebookComponent.MarkEntryAsReadLoop_eq_some nb.Entries x hnd r1 m hl
      have hstep : (NotebookOp.MarkEntryAsRead x).run nb =
          { Entries := r1, UnreadCount := unreadEntries r1 } := by
        simp [NotebookOp.run, UNotebookComponent.MarkEntryAsRead, hl,
          UNotebookComponent.UpdateUnreadCount, UNotebookComponent.UpdateUnreadCountLoop_eq]
      rw [hstep] at k1 k2
      rw [hrun, hstep]
      obtain ⟨j1, j2⟩ := ih { Entries := r1, UnreadCount := unreadEntries r1 } k1 k2 hmarks.2
        (by
          intro y hy
          obtain ⟨e1, he1, hy1, hr1⟩ := hun y (List.mem_cons_of_mem _ hy)
          have hne : e1.EntryID ≠ x := by
            rw [hy1]
            intro hyx
            rw [hyx] at hy
            exact hmarks.1 hy
          refine ⟨e1, ?_, hy1, hr1⟩
          show e1 ∈ r1
          rw [i1, List.mem_map]
          exact ⟨e1, he1, by rw [if_neg hne]⟩)
      rw [j1, j2]
      constructor
      · simp only [List.length_cons, Nat.cast_add, Nat.cast_one]
        rw [hcnt]
        omega
      · show r1.length = nb.Entries.length
        rw [i1, List.length_map]

/-- C23. Starting from the empty notebook, after `AddEntry` calls with `N`
pairwise different IDs and then `MarkEntryAsRead` calls on `M` pairwise
different IDs among those added, the unread count is `N - M` and the total entry
count is `N`. And the scenario: adding `clue1` returns true (unread 1, total
1); adding `clue1` again returns false (unread 1, total 1); marking `clue1`
read gives unread 0; marking it again gives unread 0. -/
theorem unread_after_adds_and_marks :
    (∀ (adds : List (ℚ × FNotebookEntry)) (marks : List FName),
      adds.Pairwise (fun p q => p.2.EntryID ≠ q.2.EntryID) → marks.Nodup →
      (∀ x ∈ marks, ∃ p ∈ adds, p.2.EntryID = x) →
      (runNotebook UNotebookComponent.new
          (adds.map (fun p => NotebookOp.AddEntry p.1 p.2) ++
            marks.map NotebookOp.MarkEntryAsRead)).GetUnreadCount =
          (adds.length : Int) - marks.length ∧
        (runNotebook UNotebookComponent.new
          (adds.map (fun p => NotebookOp.AddEntry p.1 p.2) ++
            marks.map NotebookOp.MarkEntryAsRead)).GetTotalEntryCount = adds.length) ∧
    ((UNotebookComponent.new.AddEntry 1 clue1).1 = true ∧
      (UNotebookComponent.new.AddEntry 1 clue1).2.1.GetUnreadCount = 1 ∧
      (UNotebookComponent.new.AddEntry 1 clue1).2.1.GetTotalEntryCount = 1 ∧
      ((UNotebookComponent.new.AddEntry 1 clue1).2.1.AddEntry 2 clue1).1 = false ∧
      ((UNotebookComponent.new.AddEntry 1 clue1).2.1.AddEntry 2 clue1).2.1.GetUnreadCount = 1 ∧
      ((UNotebookComponent.new.AddEntry 1 clue1).2.1.AddEntry 2 clue1).2.1.GetTotalEntryCount
        = 1 ∧
      (((UNotebookComponent.new.AddEntry 1 clue1).2.1.AddEntry 2 clue1).2.1.MarkEntryAsRead
        "clue1").1.GetUnreadCount = 0 ∧
      ((((UNotebookComponent.new.AddEntry 1 clue1).2.1.AddEntry 2 clue1).2.1.MarkEntryAsRead
        "clue1").1.MarkEntryAsRead "clue1").1.GetUnreadCount = 0) := by
  constructor
  · intro adds marks hadds hmarks hsub
    have hsplit : runNotebook UNotebookComponent.new
        (adds.map (fun p => NotebookOp.AddEntry p.1 p.2) ++
          marks.map NotebookOp.MarkEntryAsRead) =
        runNotebook (runNotebook UNotebookComponent.new
          (adds.map (fun p => NotebookOp.AddEntry p.1 p.2)))
          (marks.map NotebookOp.MarkEntryAsRead) := by
      simp [runNotebook, List.foldl_append]
    obtain ⟨a1, a2⟩ := runNotebook_adds adds UNotebookComponent.new
      (by
        intro p _ e he
        exact absurd he (List.not_mem_nil e))
      hadds
    obtain ⟨v1, v2⟩ := runNotebook_new_invariant
      (adds.map (fun p => NotebookOp.AddEntry p.1 p.2))
    obtain ⟨m1, m2⟩ := runNotebook_marks marks _ v1 v2 hmarks
      (by
        intro x hx
        obtain ⟨p, hp, hpx⟩ := hsub x hx
        refine ⟨{ p.2 with Timestamp := p.1, bHasBeenRead := false }, ?_, hpx, rfl⟩
        rw [a1]
        exact List.mem_append_right _ (List.mem_map.mpr ⟨p, hp, rfl⟩))
    rw [hsplit]
    simp only [UNotebookComponent.GetUnreadCount, UNotebookComponent.GetTotalEntryCount]
    rw [m1, m2, a1, a2]
    simp [UNotebookComponent.new]
  · refine ⟨rfl, rfl, rfl, rfl, rfl, rfl, rfl, rfl⟩

/-- Witness for C23: add `clue1` and `clue2`, then mark `clue2`: one unread
entry of two. -/
theorem unread_after_adds_and_marks_witness :
    (runNotebook UNotebookComponent.new
        (([(1, clue1), (2, clue2)] : List (ℚ × FNotebookEntry)).map
            (fun p => NotebookOp.AddEntry p.1 p.2) ++
          (["clue2"] : List FName).map NotebookOp.MarkEntryAsRead)).GetUnreadCount =
        ((([(1, clue1), (2, clue2)] : List (ℚ × FNotebookEntry)).length : Int)) -
          ((["clue2"] : List FName).length : Int) ∧
      (runNotebook UNotebookComponent.new
        (([(1, clue1), (2, clue2)] : List (ℚ × FNotebookEntry)).map
            (fun p => NotebookOp.AddEntry p.1 p.2) ++
          (["clue2"] : List FName).map NotebookOp.MarkEntryAsRead)).GetTotalEntryCount =
        (([(1, clue1), (2, clue2)] : List (ℚ × FNotebookEntry)).length : Int) :=
  unread_after_adds_and_marks.1 [(1, clue1), (2, clue2)] ["clue2"]
    (by
      rw [List.pairwise_cons]
      refine ⟨?_, List.pairwise_singleton _ _⟩
      intro q hq
      rw [List.mem_singleton.mp hq]
      decide)
    (List.nodup_singleton _)
    (by
      intro x hx
      rw [List.mem_singleton.mp hx]
      exact ⟨(2, clue2), List.mem_cons_of_mem _ (List.mem_singleton.mpr rfl), rfl⟩)

/-- The loop of `MarkEntryAsRead` keeps the IDs of the entries. -/
theorem MarkEntryAsReadLoop_entryIDs (Entries : List FNotebookEntry) (x : FName)
    (Entries1 : List FNotebookEntry) (Marked : FNotebookEntry)
    (h : UNotebookComponent.MarkEntryAsReadLoop Entries x = some (Entries1, Marked)) :
    entryIDs Entries1 = entryIDs Entries := by
  induction Entries generalizing Entries1 with
  | nil => simp [UNotebookComponent.MarkEntryAsReadLoop] at h
  | cons e rest ih =>
    by_cases hc : e.EntryID = x ∧ e.bHasBeenRead = false
    · simp only [UNotebookComponent.MarkEntryAsReadLoop, if_pos hc, Option.some.injEq,
        Prod.mk.injEq] at h
      rw [← h.1]
      simp [entryIDs]
    · simp only [UNotebookComponent.MarkEntryAsReadLoop, if_neg hc] at h
      cases hr : UNotebookComponent.MarkEntryAsReadLoop rest x with
      | none => simp [hr] at h
      | some r =>
        obtain ⟨r1, m⟩ := r
        simp only [hr, Option.some.injEq, Prod.mk.injEq] at h
        rw [← h.1]
        have := ih r1 (by rw [hr, h.2])
        simp only [entryIDs, List.map_cons] at this ⊢
        rw [this]

/-- One call keeps the stored IDs away from `NAME_None` when it is not an
`AddEntry` of an entry with that ID. -/
theorem NotebookOp.run_ids_not_none (nb : UNotebookComponent) (op : NotebookOp)
    (hop : ∀ t e, op = NotebookOp.AddEntry t e → e.EntryID ≠ NAME_None)
    (h : ∀ x ∈ entryIDs nb.Entries, x ≠ NAME_None) :
    ∀ x ∈ entryIDs (op.run nb).Entries, x ≠ NAME_None := by
  cases op with
  | AddEntry t e =>
    simp only [NotebookOp.run, UNotebookComponent.AddEntry]
    split
    · exact h
    · intro x hx
      simp only [entryIDs, List.map_append, List.map_cons, List.map_nil, List.mem_append,
        List.mem_singleton] at hx
      rcases hx with hx | hx
      · exact h x hx
      · rw [hx]
        exact hop t e rfl
  | MarkEntryAsRead y =>
    simp only [NotebookOp.run, UNotebookComponent.MarkEntryAsRead]
    cases hl : UNotebookComponent.MarkEntryAsReadLoop nb.Entries y with
    | none => exact h
    | some r =>
      obtain ⟨r1, m⟩ := r
      simp only [UNotebookComponent.UpdateUnreadCount]
      rw [MarkEntryAsReadLoop_entryIDs nb.Entries y r1 m hl]
      exact h
  | ClearAllEntries =>
    intro x hx
    simp [NotebookOp.run, UNotebookComponent.ClearAllEntries, entryIDs] at hx

/-- C24 (counterexample). `AddEntry` accepts the default-constructed entry,
whose ID is `NAME_None`, into the empty notebook: it returns true and the
notebook reached holds an entry with the ID `NAME_None`. -/
theorem AddEntry_stores_NAME_None :
    (UNotebookComponent.new.AddEntry 0 FNotebookEntry.default).1 = true ∧
      ∃ e ∈ (runNotebook UNotebookComponent.new
          [NotebookOp.AddEntry 0 FNotebookEntry.default]).Entries,
        e.EntryID = NAME_None :=
  ⟨rfl, { FNotebookEntry.default with Timestamp := 0, bHasBeenRead := false },
    List.mem_singleton.mpr rfl, rfl⟩

/-- C24 (amended). In every notebook reached from the empty notebook through
`AddEntry` calls whose entries have an ID different from `NAME_None`,
`MarkEntryAsRead` and `ClearAllEntries`, every stored entry has an ID different
from `NAME_None`. The collectible keeps to that: after its `OnInteract`, every
notebook that held no `NAME_None` entry still holds none. -/
theorem stored_ids_not_none :
    (∀ ops : List NotebookOp,
      (∀ t e, NotebookOp.AddEntry t e ∈ ops → e.EntryID ≠ NAME_None) →
      ∀ e ∈ (runNotebook UNotebookComponent.new ops).Entries, e.EntryID ≠ NAME_None) ∧
    (∀ (c : ACollectibleActor) (Notebooks : NotebookStore) (TimeSeconds : ℚ)
      (PlayerController : Option APlayerController),
      (∀ Pawn nb, Notebooks Pawn = some nb → ∀ e ∈ nb.Entries, e.EntryID ≠ NAME_None) →
      ∀ Pawn nb, (c.OnInteract Notebooks TimeSeconds PlayerController).2.2.1 Pawn = some nb →
        ∀ e ∈ nb.Entries, e.EntryID ≠ NAME_None) := by
  constructor
  · intro ops hops
    have key : ∀ (ops : List NotebookOp) (nb : UNotebookComponent),
        (∀ t e, NotebookOp.AddEntry t e ∈ ops → e.EntryID ≠ NAME_None) →
        (∀ x ∈ entryIDs nb.Entries, x ≠ NAME_None) →
        ∀ x ∈ entryIDs (runNotebook nb ops).Entries, x ≠ NAME_None := by
      intro ops
      induction ops with
      | nil => intro nb _ h; exact h
      | cons op rest ih =>
        intro nb hadd h
        exact ih (op.run nb) (fun t e he => hadd t e (List.mem_cons_of_mem _ he))
          (NotebookOp.run_ids_not_none nb op
            (fun t e he => hadd t e (by rw [he]; exact List.mem_cons_self _ _)) h)
    intro e he
    exact key ops UNotebookComponent.new hops
      (by
        intro x hx
        simp [UNotebookComponent.new, entryIDs] at hx)
      e.EntryID (List.mem_map.mpr ⟨e, he, rfl⟩)
  · intro c Notebooks TimeSeconds PlayerController hstore Pawn nb hnb e he
    unfold ACollectibleActor.OnInteract at hnb
    cases hcan : c.CanInteract PlayerController
    · simp only [hcan, Bool.not_false, if_true] at hnb
      exact hstore Pawn nb hnb e he
    · simp only [hcan, Bool.not_true, Bool.false_eq_true, if_false] at hnb
      unfold ACollectibleActor.PerformCollection at hnb
      cases PlayerController with
      | none => exact hstore Pawn nb hnb e he
      | some pc =>
        cases hp : pc.GetPawn with
        | none =>
          simp only [hp] at hnb
          exact hstore Pawn nb hnb e he
        | some P =>
          cases hn : Notebooks P with
          | none =>
            simp only [hp, hn] at hnb
            exact hstore Pawn nb hnb e he
          | some nbP =>
            by_cases hid : c.NotebookEntry.EntryID = NAME_None
            · simp only [hp, hn, if_pos hid] at hnb
              exact hstore Pawn nb hnb e he
            · have hstep := NotebookOp.run_ids_not_none nbP
                (NotebookOp.AddEntry TimeSeconds c.NotebookEntry)
                (by
                  intro t e0 he0
                  injection he0 with _ h2
                  rw [← h2]
                  exact hid)
                (by
                  intro x hx
                  obtain ⟨e1, he1, hx1⟩ := List.mem_map.mp hx
                  rw [← hx1]
                  exact hstore P nbP hn e1 he1)
              simp only [NotebookOp.run] at hstep
              have hupd : Function.update Notebooks P
                  (some (nbP.AddEntry TimeSeconds c.NotebookEntry).2.1) Pawn = some nb := by
                simp only [hp, hn, if_neg hid] at hnb
                split at hnb <;> exact hnb
              by_cases hP : Pawn = P
              · rw [hP, Function.update_same] at hupd
                injection hupd with hupd
                rw [← hupd] at he
                exact hstep e.EntryID (List.mem_map.mpr ⟨e, he, rfl⟩)
              · rw [Function.update_noteq hP] at hupd
                exact hstore Pawn nb hupd e he

/-- Witness for C24 (amended): after adding `clue1` and marking it read, the
stored entry's ID is not `NAME_None`. -/
theorem stored_ids_not_none_witness :
    ∀ e ∈ (runNotebook UNotebookComponent.new
        [NotebookOp.AddEntry 1 clue1, NotebookOp.MarkEntryAsRead "clue1"]).Entries,
      e.EntryID ≠ NAME_None :=
  stored_ids_not_none.1 [NotebookOp.AddEntry 1 clue1, NotebookOp.MarkEntryAsRead "clue1"]
    (by
      intro t e he
      simp only [List.mem_cons, List.mem_singleton, List.not_mem_nil, or_false,
        reduceCtorEq, NotebookOp.AddEntry.injEq] at he
      rw [he.2]
      decide)

/-- The loop of `GetEntriesByCategory` appends the filtered entries to what it
has collected. -/
theorem GetEntriesByCategoryLoop_eq (Entries : List FNotebookEntry)
    (Category : ENotebookCategory) (FilteredEntries : List FNotebookEntry) :
    UNotebookComponent.GetEntriesByCategoryLoop Entries Category FilteredEntries =
      FilteredEntries ++ Entries.filter (fun e => e.Category = Category) := by
  induction Entries generalizing FilteredEntries with
  | nil => simp [UNotebookComponent.GetEntriesByCategoryLoop]
  | cons e rest ih =>
    by_cases hc : e.Category = Category
    · simp [UNotebookComponent.GetEntriesByCategoryLoop, hc, ih]
    · simp [UNotebookComponent.GetEntriesByCategoryLoop, hc, ih]

/-- C26. For every notebook state and category, `GetEntriesByCategory` returns
the entry sequence filtered by that category, in the stored order: a
subsequence of the entries whose members are exactly the stored entries of the
category. The method only reads the notebook (it is a function of the state and
returns no new state). The results for the five categories, concatenated, are
a permutation of the entry sequence. -/
theorem GetEntriesByCategory_spec (nb : UNotebookComponent) (Category : ENotebookCategory) :
    nb.GetEntriesByCategory Category =
        nb.Entries.filter (fun e => e.Category = Category) ∧
      (nb.GetEntriesByCategory Category).Sublist nb.Entries ∧
      (∀ e, e ∈ nb.GetEntriesByCategory Category ↔ e ∈ nb.Entries ∧ e.Category = Category) ∧
      (nb.GetEntriesByCategory ENotebookCategory.Clue ++
        (nb.GetEntriesByCategory ENotebookCategory.Objective ++
          (nb.GetEntriesByCategory ENotebookCategory.Lore ++
            (nb.GetEntriesByCategory ENotebookCategory.Character ++
              nb.GetEntriesByCategory ENotebookCategory.Environment)))).Perm nb.Entries := by
  have hf : ∀ c, nb.GetEntriesByCategory c = nb.Entries.filter (fun e => e.Category = c) := by
    intro c
    simp [UNotebookComponent.GetEntriesByCategory, GetEntriesByCategoryLoop_eq]
  refine ⟨hf Category, ?_, ?_, ?_⟩
  · rw [hf]
    exact List.filter_sublist _
  · intro e
    rw [hf]
    simp [List.mem_filter]
  · simp only [hf]
    generalize nb.Entries = l
    induction l with
    | nil => simp
    | cons e rest ih =>
      cases hc : e.Category
      · simp only [List.filter_cons, hc, decide_True, if_true, reduceCtorEq, decide_False,
          Bool.false_eq_true, if_false, List.cons_append]
        exact List.Perm.cons e ih
      · simp only [List.filter_cons, hc, decide_True, if_true, reduceCtorEq, decide_False,
          Bool.false_eq_true, if_false, List.cons_append]
        exact List.perm_middle.trans (List.Perm.cons e ih)
      · simp only [List.filter_cons, hc, decide_True, if_true, reduceCtorEq, decide_False,
          Bool.false_eq_true, if_false, List.cons_append]
        rw [← List.append_assoc]
        refine List.perm_middle.trans (List.Perm.cons e ?_)
        rw [List.append_assoc]
        exact ih
      · simp only [List.filter_cons, hc, decide_True, if_true, reduceCtorEq, decide_False,
          Bool.false_eq_true, if_false, List.cons_append]
        rw [← List.append_assoc, ← List.append_assoc]
        refine List.perm_middle.trans (List.Perm.cons e ?_)
        rw [List.append_assoc, List.append_assoc]
        exact ih
      · simp only [List.filter_cons, hc, decide_True, if_true, reduceCtorEq, decide_False,
          Bool.false_eq_true, if_false, List.cons_append]
        rw [← List.append_assoc, ← List.append_assoc, ← List.append_assoc]
        refine List.perm_middle.trans (List.Perm.cons e ?_)
        rw [List.append_assoc, List.append_assoc, List.append_assoc]
        exact ih

/-- C27. For every notebook state, after `ClearAllEntries` the entry sequence
is empty, the total count and the unread count are 0, `HasEntry` is false and
`GetEntryByID` finds nothing for every ID, nothing is broadcast, and `AddEntry`
of an entry whose ID was stored before the clear returns true. -/
theorem ClearAllEntries_spec (nb : UNotebookComponent) :
    nb.ClearAllEntries.1.Entries = [] ∧
      nb.ClearAllEntries.1.GetTotalEntryCount = 0 ∧
      nb.ClearAllEntries.1.GetUnreadCount = 0 ∧
      (∀ x, nb.ClearAllEntries.1.HasEntry x = false ∧
        nb.ClearAllEntries.1.GetEntryByID x = none) ∧
      nb.ClearAllEntries.2 = [] ∧
      (∀ (TimeSeconds : ℚ) (Entry : FNotebookEntry),
        (∃ e ∈ nb.Entries, e.EntryID = Entry.EntryID) →
        (nb.ClearAllEntries.1.AddEntry TimeSeconds Entry).1 = true) := by
  refine ⟨rfl, rfl, rfl, fun x => ⟨rfl, rfl⟩, rfl, ?_⟩
  intro TimeSeconds Entry _
  simp [UNotebookComponent.ClearAllEntries, UNotebookComponent.AddEntry,
    UNotebookComponent.HasEntry, UNotebookComponent.HasEntryLoop]

/-- Witness for C27: after clearing the notebook that holds `clue1`, adding
`clue1` succeeds again. -/
theorem ClearAllEntries_spec_witness :
    (∃ e ∈ notebookWithClue1.Entries, e.EntryID = clue1.EntryID) ∧
      (notebookWithClue1.ClearAllEntries.1.AddEntry 3 clue1).1 = true :=
  have h : ∃ e ∈ notebookWithClue1.Entries, e.EntryID = clue1.EntryID :=
    ⟨{ clue1 with Timestamp := 1 }, List.mem_singleton.mpr rfl, rfl⟩
  ⟨h, (ClearAllEntries_spec notebookWithClue1).2.2.2.2.2 3 clue1 h⟩

/-! ## Interaction focus -/

/-- The character after `SetCurrentInteractable` differs only in its focus, and
what the call emits. -/
theorem SetCurrentInteractable_eq (c : AHorrorCharacter) (World : InteractionWorld)
    (NewInteractable : Option AActor) :
    (c.SetCurrentInteractable World NewInteractable).1 =
        { c with CurrentInteractable := NewInteractable } ∧
      (HorrorEvent.OnInteractableLost ∈ (c.SetCurrentInteractable World NewInteractable).2 →
        ∃ Old, c.CurrentInteractable = some Old ∧ some Old ≠ NewInteractable) ∧
      (∀ X, HorrorEvent.Execute_OnInteractionFocusLost X ∈
          (c.SetCurrentInteractable World NewInteractable).2 →
        c.CurrentInteractable = some X ∧ some X ≠ NewInteractable) := by
  unfold AHorrorCharacter.SetCurrentInteractable
  refine ⟨rfl, ?_, ?_⟩
  · intro h
    cases hcur : c.CurrentInteractable with
    | none =>
      cases NewInteractable with
      | none => simp [hcur] at h
      | some N => cases hN : World.Cast N <;> simp [hcur, hN] at h
    | some Old =>
      by_cases hne : some Old = NewInteractable
      · exfalso
        cases NewInteractable with
        | none => simp at hne
        | some N => cases hN : World.Cast N <;> simp [hcur, hne, hN] at h
      · exact ⟨Old, rfl, hne⟩
  · intro X h
    cases hcur : c.CurrentInteractable with
    | none =>
      cases NewInteractable with
      | none => simp [hcur] at h
      | some N => cases hN : World.Cast N <;> simp [hcur, hN] at h
    | some Old =>
      by_cases hne : some Old = NewInteractable
      · exfalso
        cases NewInteractable with
        | none => simp at hne
        | some N => cases hN : World.Cast N <;> simp [hcur, hne, hN] at h
      · cases NewInteractable with
        | none =>
          cases hO : World.Cast Old <;> simp [hcur, hO] at h
          rw [h]
          exact ⟨rfl, by simp⟩
        | some N =>
          cases hO : World.Cast Old <;> cases hN : World.Cast N <;>
            simp [hcur, hO, hN, hne] at h
          · rw [h]
            exact ⟨rfl, hne⟩
          · rw [h]
            exact ⟨rfl, hne⟩

/-- C28. When the character is focused on an interactable `A` and, with the
notebook closed, a scan hits a different actor `B` that implements the
interface, casts to it and can be interacted with, the scan emits, in this
order, focus-lost on `A`, the interactable-lost event, focus-gained on `B` and
interactable-detected with `B` and `B`'s prompt, and nothing else; the focused
entity afterwards is `B`. `SetCurrentInteractable` called with `B` emits the
same sequence. -/
theorem focus_switch_order (c : AHorrorCharacter) (World : InteractionWorld)
    (A B : AActor) (iA iB : IInteractable)
    (hcur : c.CurrentInteractable = some A) (hne : A ≠ B)
    (hA : World.Cast A = some iA) (hB : World.Cast B = some iB)
    (hopen : c.bIsNotebookOpen = false) (himpl : World.Implements B = true)
    (hcan : iB.CanInteract = true) :
    (c.CheckForInteractables World { bHit := true, Actor := some B }).2 =
        [HorrorEvent.Execute_OnInteractionFocusLost A,
         HorrorEvent.OnInteractableLost,
         HorrorEvent.Execute_OnInteractionFocus B,
         HorrorEvent.OnInteractableDetected B iB.InteractionPrompt] ∧
      (c.CheckForInteractables World
        { bHit := true, Actor := some B }).1.CurrentInteractable = some B ∧
      (c.SetCurrentInteractable World (some B)).2 =
        [HorrorEvent.Execute_OnInteractionFocusLost A,
         HorrorEvent.OnInteractableLost,
         HorrorEvent.Execute_OnInteractionFocus B,
         HorrorEvent.OnInteractableDetected B iB.InteractionPrompt] ∧
      (c.SetCurrentInteractable World (some B)).1.CurrentInteractable = some B := by
  have hset : c.SetCurrentInteractable World (some B) =
      ({ c with CurrentInteractable := some B },
        [HorrorEvent.Execute_OnInteractionFocusLost A,
         HorrorEvent.OnInteractableLost,
         HorrorEvent.Execute_OnInteractionFocus B,
         HorrorEvent.OnInteractableDetected B iB.InteractionPrompt]) := by
    unfold AHorrorCharacter.SetCurrentInteractable
    simp [hcur, hne, hA, hB]
  have hscan : c.CheckForInteractables World { bHit := true, Actor := some B } =
      c.SetCurrentInteractable World (some B) := by
    unfold AHorrorCharacter.CheckForInteractables
    simp [hopen, himpl, hB, hcan, hcur, hne]
  rw [hscan, hset]
  exact ⟨rfl, rfl, rfl, rfl⟩

/-- Witness for C28: `focusedCharacter` looks at actor 1 and the scan hits
actor 2. -/
theorem focus_switch_order_witness :
    (focusedCharacter.CheckForInteractables sampleInteractionWorld
        { bHit := true, Actor := some 2 }).2 =
        [HorrorEvent.Execute_OnInteractionFocusLost 1,
         HorrorEvent.OnInteractableLost,
         HorrorEvent.Execute_OnInteractionFocus 2,
         HorrorEvent.OnInteractableDetected 2 "Examine"] ∧
      (focusedCharacter.CheckForInteractables sampleInteractionWorld
        { bHit := true, Actor := some 2 }).1.CurrentInteractable = some 2 :=
  ⟨(focus_switch_order focusedCharacter sampleInteractionWorld 1 2
      { CanInteract := true, InteractionPrompt := "Pick Up" }
      { CanInteract := true, InteractionPrompt := "Examine" }
      rfl (by decide) rfl rfl rfl rfl rfl).1,
    (focus_switch_order focusedCharacter sampleInteractionWorld 1 2
      { CanInteract := true, InteractionPrompt := "Pick Up" }
      { CanInteract := true, InteractionPrompt := "Examine" }
      rfl (by decide) rfl rfl rfl rfl rfl).2.1⟩

/-- A scan with the notebook closed and a hit on an actor that passes the three
tests focuses that actor, unless it is focused already. -/
theorem CheckForInteractables_valid (c : AHorrorCharacter) (World : InteractionWorld)
    (HitResult : FHitResult) (Actor : AActor) (i : IInteractable)
    (hopen : c.bIsNotebookOpen = false) (hhit : HitResult.bHit = true)
    (hactor : HitResult.Actor = some Actor) (himpl : World.Implements Actor = true)
    (hcast : World.Cast Actor = some i) (hcan : i.CanInteract = true) :
    c.CheckForInteractables World HitResult =
      (if c.CurrentInteractable ≠ some Actor then c.SetCurrentInteractable World (some Actor)
        else (c, [])) := by
  unfold AHorrorCharacter.CheckForInteractables
  simp [hopen, hhit, hactor, himpl, hcast, hcan]

/-- A scan with the notebook open, or without a hit that passes the three
tests, clears the focus if there is one. -/
theorem CheckForInteractables_invalid (c : AHorrorCharacter) (World : InteractionWorld)
    (HitResult : FHitResult)
    (h : c.bIsNotebookOpen = true ∨
      ¬ ∃ Actor i, HitResult.bHit = true ∧ HitResult.Actor = some Actor ∧
        World.Implements Actor = true ∧ World.Cast Actor = some i ∧ i.CanInteract = true) :
    c.CheckForInteractables World HitResult = c.ClearFocusIfSet World := by
  unfold AHorrorCharacter.CheckForInteractables AHorrorCharacter.ClearFocusIfSet
  cases hopen : c.bIsNotebookOpen
  · rcases h with h | h
    · rw [hopen] at h
      exact absurd h (by simp)
    · simp only [Bool.false_eq_true, if_false]
      cases hb : HitResult.bHit <;> cases ha : HitResult.Actor
      · rfl
      · rfl
      · rfl
      · rename_i Actor
        simp only []
        cases hi : World.Implements Actor
        · simp
        · cases hc : World.Cast Actor with
          | none => simp
          | some i =>
            cases hcan : i.CanInteract
            · simp [hcan]
            · exact absurd ⟨Actor, i, hb, ha, hi, hc, hcan⟩ h
  · simp

/-- Clearing the focus when there is none does nothing; otherwise it is
`SetCurrentInteractable` with no actor. -/
theorem ClearFocusIfSet_eq (c : AHorrorCharacter) (World : InteractionWorld) :
    (c.CurrentInteractable = none → c.ClearFocusIfSet World = (c, [])) ∧
      (c.CurrentInteractable ≠ none →
        c.ClearFocusIfSet World = c.SetCurrentInteractable World none) ∧
      (c.ClearFocusIfSet World).1.CurrentInteractable = none := by
  unfold AHorrorCharacter.ClearFocusIfSet
  cases h : c.CurrentInteractable with
  | none => simp [h]
  | some A => simp [AHorrorCharacter.SetCurrentInteractable]

/-- C29 (counterexample). In `blueprintWorld` actor 5 implements the interface
in Blueprint only: it passes `Implements<UInteractable>()` and its native cast
`Cast<IInteractable>` is null, as the `Blueprintable` interface of
Interactable.h allows. The default character after `BeginPlay` has the notebook
closed and no focus; a scan that hits actor 5 never asks for `CanInteract`,
leaves the focus at none and emits nothing. -/
theorem CheckForInteractables_null_cast :
    AHorrorCharacter.classDefaults.construct.BeginPlay.bIsNotebookOpen = false ∧
      blueprintWorld.Implements 5 = true ∧
      blueprintWorld.Cast 5 = none ∧
      (AHorrorCharacter.classDefaults.construct.BeginPlay.CheckForInteractables blueprintWorld
        { bHit := true, Actor := some 5 }).1.CurrentInteractable = none ∧
      (AHorrorCharacter.classDefaults.construct.BeginPlay.CheckForInteractables blueprintWorld
        { bHit := true, Actor := some 5 }).1.CurrentInteractable ≠ some 5 ∧
      (AHorrorCharacter.classDefaults.construct.BeginPlay.CheckForInteractables blueprintWorld
        { bHit := true, Actor := some 5 }).2 = [] := by
  refine ⟨rfl, rfl, rfl, rfl, ?_, rfl⟩
  rw [show (AHorrorCharacter.classDefaults.construct.BeginPlay.CheckForInteractables
    blueprintWorld { bHit := true, Actor := some 5 }).1.CurrentInteractable = none from rfl]
  exact fun h => Option.noConfusion h

/-- C29 (amended). After a focus scan with the ray-cast result `HitResult`:
with the notebook open the focused entity is none; with it closed the focused
entity is the hit actor when the ray hit an actor that implements the
interface, whose native cast `Cast<IInteractable>` is not null and whose
`CanInteract` is true, and none in every other case; in particular it is none
when the hit actor implements the interface and its native cast is null. The
interactable-lost event, and focus-lost on an actor, are emitted only when that
actor was focused before the scan and is not focused after it; and a scan whose
resulting focus is the previous focus emits nothing and leaves the character
unchanged. -/
theorem CheckForInteractables_spec (c : AHorrorCharacter) (World : InteractionWorld)
    (HitResult : FHitResult) :
    (c.bIsNotebookOpen = true →
      (c.CheckForInteractables World HitResult).1.CurrentInteractable = none) ∧
    (∀ Actor i, c.bIsNotebookOpen = false → HitResult.bHit = true →
      HitResult.Actor = some Actor → World.Implements Actor = true →
      World.Cast Actor = some i → i.CanInteract = true →
      (c.CheckForInteractables World HitResult).1.CurrentInteractable = some Actor) ∧
    (c.bIsNotebookOpen = false →
      (¬ ∃ Actor i, HitResult.bHit = true ∧ HitResult.Actor = some Actor ∧
        World.Implements Actor = true ∧ World.Cast Actor = some i ∧ i.CanInteract = true) →
      (c.CheckForInteractables World HitResult).1.CurrentInteractable = none) ∧
    (HorrorEvent.OnInteractableLost ∈ (c.CheckForInteractables World HitResult).2 →
      ∃ Old, c.CurrentInteractable = some Old ∧
        (c.CheckForInteractables World HitResult).1.CurrentInteractable ≠ some Old) ∧
    (∀ X, HorrorEvent.Execute_OnInteractionFocusLost X ∈
        (c.CheckForInteractables World HitResult).2 →
      c.CurrentInteractable = some X ∧
        (c.CheckForInteractables World HitResult).1.CurrentInteractable ≠ some X) ∧
    ((c.CheckForInteractables World HitResult).1.CurrentInteractable = c.CurrentInteractable →
      c.CheckForInteractables World HitResult = (c, [])) ∧
    (∀ Actor, c.bIsNotebookOpen = false → HitResult.bHit = true →
      HitResult.Actor = some Actor → World.Implements Actor = true →
      World.Cast Actor = none →
      (c.CheckForInteractables World HitResult).1.CurrentInteractable = none) := by
  have hnull : ∀ Actor, c.bIsNotebookOpen = false → HitResult.bHit = true →
      HitResult.Actor = some Actor → World.Implements Actor = true →
      World.Cast Actor = none →
      (c.CheckForInteractables World HitResult).1.CurrentInteractable = none := by
    intro Actor _ _ ha _ hcast
    have hno : ¬ ∃ Actor1 i, HitResult.bHit = true ∧ HitResult.Actor = some Actor1 ∧
        World.Implements Actor1 = true ∧ World.Cast Actor1 = some i ∧
        i.CanInteract = true := by
      rintro ⟨Actor1, i, -, ha1, -, hc1, -⟩
      rw [ha] at ha1
      injection ha1 with ha1
      rw [← ha1, hcast] at hc1
      exact Option.noConfusion hc1
    rw [CheckForInteractables_invalid c World HitResult (Or.inr hno)]
    exact (ClearFocusIfSet_eq c World).2.2
  by_cases hv : c.bIsNotebookOpen = false ∧
      ∃ Actor i, HitResult.bHit = true ∧ HitResult.Actor = some Actor ∧
        World.Implements Actor = true ∧ World.Cast Actor = some i ∧ i.CanInteract = true
  · obtain ⟨hopen, Actor, i, hb, ha, hi, hc, hcan⟩ := hv
    have hres := CheckForInteractables_valid c World HitResult Actor i hopen hb ha hi hc hcan
    by_cases hsame : c.CurrentInteractable = some Actor
    · rw [if_neg (not_not.mpr hsame)] at hres
      rw [hres] at hnull ⊢
      refine ⟨fun h => absurd h (by simp [hopen]), ?_, ?_, ?_, ?_, fun _ => rfl, hnull⟩
      · intro Actor1 i1 _ _ ha1 _ _ _
        rw [ha] at ha1
        injection ha1 with ha1
        rw [← ha1]
        exact hsame
      · intro _ hno
        exact absurd ⟨Actor, i, hb, ha, hi, hc, hcan⟩ hno
      · intro h
        simp at h
      · intro X h
        simp at h
    · rw [if_pos hsame] at hres
      obtain ⟨s1, s2, s3⟩ := SetCurrentInteractable_eq c World (some Actor)
      rw [hres] at hnull ⊢
      refine ⟨fun h => absurd h (by simp [hopen]), ?_, ?_, ?_, ?_, ?_, hnull⟩
      · intro Actor1 i1 _ _ ha1 _ _ _
        rw [ha] at ha1
        injection ha1 with ha1
        rw [s1, ← ha1]
      · intro _ hno
        exact absurd ⟨Actor, i, hb, ha, hi, hc, hcan⟩ hno
      · intro h
        obtain ⟨Old, h1, h2⟩ := s2 h
        refine ⟨Old, h1, ?_⟩
        rw [s1]
        exact fun hcon => h2 hcon.symm
      · intro X h
        obtain ⟨h1, h2⟩ := s3 X h
        refine ⟨h1, ?_⟩
        rw [s1]
        exact fun hcon => h2 hcon.symm
      · intro h
        rw [s1] at h
        exact absurd h.symm hsame
  · have hinv : c.bIsNotebookOpen = true ∨
        ¬ ∃ Actor i, HitResult.bHit = true ∧ HitResult.Actor = some Actor ∧
          World.Implements Actor = true ∧ World.Cast Actor = some i ∧ i.CanInteract = true := by
      cases hopen : c.bIsNotebookOpen
      · right
        intro hex
        exact hv ⟨hopen, hex⟩
      · left
        rfl
    have hres := CheckForInteractables_invalid c World HitResult hinv
    obtain ⟨e1, e2, e3⟩ := ClearFocusIfSet_eq c World
    rw [hres] at hnull ⊢
    refine ⟨fun _ => e3, ?_, fun _ _ => e3, ?_, ?_, ?_, hnull⟩
    · intro Actor i hopen hb ha hi hc hcan
      exact absurd ⟨hopen, Actor, i, hb, ha, hi, hc, hcan⟩ hv
    · intro h
      cases hcur : c.CurrentInteractable with
      | none =>
        rw [e1 hcur] at h
        simp at h
      | some Old =>
        refine ⟨Old, rfl, ?_⟩
        rw [e3]
        simp
    · intro X h
      cases hcur : c.CurrentInteractable with
      | none =>
        rw [e1 hcur] at h
        simp at h
      | some Old =>
        rw [e2 (by rw [hcur]; simp)] at h
        obtain ⟨h1, -⟩ := (SetCurrentInteractable_eq c World none).2.2 X h
        rw [hcur] at h1
        rw [e3]
        exact ⟨h1, by simp⟩
    · intro h
      rw [e3] at h
      exact e1 h.symm

/-- Witness for C29 (amended): `focusedCharacter` (notebook closed, looking at
actor 1) scans and hits actor 1 again: nothing is emitted and nothing changes;
it scans and hits nothing: the focus is cleared. -/
theorem CheckForInteractables_spec_witness :
    (focusedCharacter.CheckForInteractables sampleInteractionWorld
        { bHit := true, Actor := some 1 }).1.CurrentInteractable =
        focusedCharacter.CurrentInteractable ∧
      focusedCharacter.CheckForInteractables sampleInteractionWorld
        { bHit := true, Actor := some 1 } = (focusedCharacter, []) ∧
      (focusedCharacter.CheckForInteractables sampleInteractionWorld
        { bHit := false, Actor := none }).1.CurrentInteractable = none :=
  have h1 : (focusedCharacter.CheckForInteractables sampleInteractionWorld
      { bHit := true, Actor := some 1 }).1.CurrentInteractable =
      focusedCharacter.CurrentInteractable :=
    (CheckForInteractables_spec focusedCharacter sampleInteractionWorld
      { bHit := true, Actor := some 1 }).2.1 1
      { CanInteract := true, InteractionPrompt := "Pick Up" } rfl rfl rfl rfl rfl rfl
  ⟨h1,
    (CheckForInteractables_spec focusedCharacter sampleInteractionWorld
      { bHit := true, Actor := some 1 }).2.2.2.2.2.1 h1,
    (CheckForInteractables_spec focusedCharacter sampleInteractionWorld
      { bHit := false, Actor := none }).2.2.1 rfl (by
        rintro ⟨Actor, i, hb, -⟩
        exact absurd hb (by decide))⟩

/-! ## Sprint controller: the movement speed -/

/-- One sprint call keeps the three speed settings, and keeps the movement
speed tied to the two flags. -/
theorem SprintOp.run_speed (c : AHorrorCharacter) (op : SprintOp)
    (h : c.MaxWalkSpeed =
      (if c.bRecovering then c.RecoveringWalkSpeed
        else if c.bSprinting then c.SprintSpeed else c.WalkSpeed)) :
    (op.run c).WalkSpeed = c.WalkSpeed ∧ (op.run c).SprintSpeed = c.SprintSpeed ∧
      (op.run c).RecoveringWalkSpeed = c.RecoveringWalkSpeed ∧
      (op.run c).MaxWalkSpeed =
        (if (op.run c).bRecovering then (op.run c).RecoveringWalkSpeed
          else if (op.run c).bSprinting then (op.run c).SprintSpeed
          else (op.run c).WalkSpeed) := by
  cases op with
  | DoStartSprint =>
    simp only [SprintOp.run, AHorrorCharacter.DoStartSprint]
    cases hr : c.bRecovering
    · simp
    · simp [hr] at h
      simp [h]
  | DoEndSprint =>
    simp only [SprintOp.run, AHorrorCharacter.DoEndSprint]
    cases hr : c.bRecovering
    · simp
    · simp [hr] at h
      simp [h]
  | SprintFixedTick Speed =>
    simp only [SprintOp.run]
    by_cases hb : c.bSprinting = true ∧ c.bRecovering = false ∧ Speed > c.WalkSpeed
    · by_cases hm : c.SprintMeter > 0
      · rw [AHorrorCharacter.SprintFixedTick_drain c Speed hb hm]
        split
        · simp
        · simp [hb.1, hb.2.1] at h
          simp [hb.1, hb.2.1, h]
      · rw [AHorrorCharacter.SprintFixedTick_empty c Speed hb hm]
        exact ⟨rfl, rfl, rfl, h⟩
    · rw [AHorrorCharacter.SprintFixedTick_refill c Speed hb]
      split
      · simp
      · exact ⟨rfl, rfl, rfl, h⟩

/-- C30. In every state reached after `BeginPlay` by any sequence of
`DoStartSprint`, `DoEndSprint` and `SprintFixedTick`, the maximum movement speed
is `RecoveringWalkSpeed` if the recovering flag is set, otherwise `SprintSpeed`
if the sprint control is held, otherwise `WalkSpeed` (the three configured
values). -/
theorem MaxWalkSpeed_by_flags (c : AHorrorCharacter) (ops : List SprintOp) :
    (runSprint c.construct.BeginPlay ops).MaxWalkSpeed =
      (if (runSprint c.construct.BeginPlay ops).bRecovering then c.RecoveringWalkSpeed
        else if (runSprint c.construct.BeginPlay ops).bSprinting then c.SprintSpeed
        else c.WalkSpeed) := by
  have key : ∀ (ops : List SprintOp) (s : AHorrorCharacter),
      s.MaxWalkSpeed =
        (if s.bRecovering then s.RecoveringWalkSpeed
          else if s.bSprinting then s.SprintSpeed else s.WalkSpeed) →
      (runSprint s ops).WalkSpeed = s.WalkSpeed ∧
        (runSprint s ops).SprintSpeed = s.SprintSpeed ∧
        (runSprint s ops).RecoveringWalkSpeed = s.RecoveringWalkSpeed ∧
        (runSprint s ops).MaxWalkSpeed =
          (if (runSprint s ops).bRecovering then (runSprint s ops).RecoveringWalkSpeed
            else if (runSprint s ops).bSprinting then (runSprint s ops).SprintSpeed
            else (runSprint s ops).WalkSpeed) := by
    intro ops
    induction ops with
    | nil => intro s h; exact ⟨rfl, rfl, rfl, h⟩
    | cons op rest ih =>
      intro s h
      obtain ⟨a1, a2, a3, a4⟩ := SprintOp.run_speed s op h
      obtain ⟨b1, b2, b3, b4⟩ := ih (op.run s) a4
      exact ⟨b1.trans a1, b2.trans a2, b3.trans a3, b4⟩
  obtain ⟨k1, k2, k3, k4⟩ := key ops c.construct.BeginPlay rfl
  rw [k4, k1, k2, k3]
  rfl

end GrimRail
